import Mathlib

/-! Syscall interception shims: supervisor (ptrace) and interposer (LD_PRELOAD)

A shallow embedding of the C sources of the repository and the properties
proved about them.

Conventions of the embedding

* A C string is the list of its bytes without the terminator (`List Nat`).
* The traced process is a `Tracee`: the content of every address, which
  addresses a word read (`PTRACE_PEEKDATA`) and a word write
  (`PTRACE_POKEDATA`) may touch, and the list of the `PTRACE_POKEDATA`
  requests issued so far.
* The target is x86-64 Linux (the sources use `rdi`, `rsi`, `orig_rax`):
  `sizeof(long) = 8`, little endian.  Addresses are natural numbers; user
  addresses are far below `2^64`, so `addr + i` does not wrap.
* A counted `for`/`while` loop whose trip count is fixed on entry is written
  as a recursion on the number of iterations that are left.
-/

/-! ## Bytes, C strings and the C library -/

/-- The bytes of an ASCII string literal. -/
def cstr (s : String) : List Nat := s.toList.map Char.toNat

/-- The C string held in a byte buffer: the bytes before the first zero. -/
def c_string (buf : List Nat) : List Nat := buf.takeWhile (fun b => b != 0)

/-- Index of the first zero byte of a buffer, if there is one. -/
def find_nul : List Nat → Option Nat
  | [] => none
  | b :: bs => if b = 0 then some 0 else (find_nul bs).map (fun j => j + 1)

/-- Library `strncmp(a, b, n) == 0` for an `n`-byte literal `b` (no zero
byte in `b`): the first `n` bytes of `a` are those of `b`. -/
def starts_with (a b : List Nat) : Bool := b.isPrefixOf a

/-- Library `strstr(hay, needle)`: the offset of the first occurrence of
`needle` in `hay`, `none` for `NULL`. -/
def strstr : List Nat → List Nat → Option Nat
  | [], needle => if needle.isEmpty then some 0 else none
  | b :: hay, needle =>
    if needle.isPrefixOf (b :: hay) then some 0
    else (strstr hay needle).map (fun k => k + 1)

/-- Library `snprintf(buf, size, "<lit>%s", s)`: the C string left in `buf`
is the formatted text cut to `size - 1` bytes. -/
def snprintf_s (size : Nat) (lit s : List Nat) : List Nat := (lit ++ s).take (size - 1)

/-! ## The traced process and the debugger interface -/

/-- The memory of a traced process as the supervisor reaches it. `pokes` is a
ghost field: the addresses of all `PTRACE_POKEDATA` requests issued so far,
oldest first, whether or not they succeeded. -/
structure Tracee where
  byte : Nat → Nat
  readable : Nat → Bool
  writable : Nat → Bool
  pokes : List Nat

/-- The registers of `struct user_regs_struct` that the supervisors use, each
an unsigned 64-bit value. -/
structure Regs where
  orig_rax : Nat
  rax : Nat
  rdi : Nat
  rsi : Nat
  rdx : Nat

/-- The cast `(long)x` of an unsigned 64-bit value. -/
def to_long (x : Nat) : Int :=
  if x % 2 ^ 64 < 2 ^ 63 then ((x % 2 ^ 64 : Nat) : Int) else ((x % 2 ^ 64 : Nat) : Int) - 2 ^ 64

/-- The `n` bytes of an indexed store `f` from address `a` on. -/
def bytes_from (f : Nat → Nat) (a : Nat) : Nat → List Nat
  | 0 => []
  | n + 1 => f a :: bytes_from f (a + 1) n

/-- All `n` addresses from `a` on satisfy `ok`. -/
def range_ok (ok : Nat → Bool) (a : Nat) : Nat → Bool
  | 0 => true
  | n + 1 => ok a && range_ok ok (a + 1) n

/-- Request `ptrace(PTRACE_PEEKDATA, pid, a, NULL)`: the eight bytes of the
word at `a`, or `none` when `errno` is set. -/
def peekdata (t : Tracee) (a : Nat) : Option (List Nat) :=
  if range_ok t.readable a 8 then some (bytes_from t.byte a 8) else none

/-- Request `ptrace(PTRACE_POKEDATA, pid, a, data)` with the eight bytes `w` of
`data`: whether it succeeded, and the tracee afterwards. -/
def pokedata (t : Tracee) (a : Nat) (w : List Nat) : Bool × Tracee :=
  if range_ok t.writable a 8 then
    (true, { t with
      byte := fun x => if a ≤ x ∧ x < a + 8 then w.getD (x - a) 0 else t.byte x
      pokes := t.pokes ++ [a] })
  else
    (false, { t with pokes := t.pokes ++ [a] })

/-- The word `long data = 0; memcpy(&data, src + i, copy_len)` with
`copy_len = min(len - i, 8)`, for a source buffer of `len` bytes. -/
def word_at (src : List Nat) (i : Nat) : List Nat :=
  bytes_from (fun k => src.getD k 0) i 8

/-- The `for (i = 0; i < len; i += sizeof(long))` loop of the word-wise
writers (`write_string_to_tracee`, `write_memory`, `write_string`), with `n` iterations left, at offset `i`: whether every
`PTRACE_POKEDATA` succeeded, and the tracee afterwards. -/
def write_loop (addr : Nat) (src : List Nat) : Nat → Nat → Tracee → Bool × Tracee
  | 0, _, t => (true, t)
  | n + 1, i, t =>
    match pokedata t (addr + i) (word_at src i) with
    | (true, t1) => write_loop addr src n (i + 8) t1
    | (false, t1) => (false, t1)

/-- System call numbers of x86-64 Linux (`<sys/syscall.h>`; the worker
supervisor defines the first two itself). -/
def SYS_open : Nat := 2
def SYS_openat : Nat := 257
def SYS_statfs : Nat := 137
def SYS_fstatfs : Nat := 138

/-- Constants of `<fcntl.h>`. -/
def O_ACCMODE : Nat := 3
def O_RDONLY : Nat := 0

def NINE_P_FS_MAGIC : Nat := 0x01021997
def EXT4_SUPER_MAGIC : Nat := 0xEF53

/-! ## `struct statfs`

The structure is declared by the system header `<sys/vfs.h>`. On x86-64 it
has 120 bytes: fifteen 8-byte slots, `f_type` in slot 0 and `f_namelen` in
slot 8, both of type `long`. A value of the structure is its byte image. -/

def sizeof_statfs : Nat := 120

/-- The unsigned value of a little-endian byte sequence. -/
def le_value : List Nat → Nat
  | [] => 0
  | b :: bs => b + 256 * le_value bs

/-- The eight bytes of a 64-bit value, little endian. -/
def le_bytes64 (v : Nat) : List Nat :=
  bytes_from (fun k => v / 256 ^ k % 256) 0 8

/-- The field at byte offset `off` of a structure image, as a `long`. -/
def field64 (buf : List Nat) (off : Nat) : Int :=
  to_long (le_value ((buf.drop off).take 8))

/-- Assignment of the `long` value `v` to the field at byte offset `off`. -/
def set_field64 (buf : List Nat) (off : Nat) (v : Nat) : List Nat :=
  buf.take off ++ le_bytes64 v ++ buf.drop (off + 8)

def f_type (buf : List Nat) : Int := field64 buf 0
def f_namelen (buf : List Nat) : Int := field64 buf 64
def set_f_type (buf : List Nat) (v : Nat) : List Nat := set_field64 buf 0 v
def set_f_namelen (buf : List Nat) (v : Nat) : List Nat := set_field64 buf 64 v

/-! ## Wait statuses (`<sys/wait.h>`) and signals -/

def SIGTRAP : Nat := 5
def SIGSTOP : Nat := 19
def PTRACE_EVENT_FORK : Nat := 1
def PTRACE_EVENT_VFORK : Nat := 2
def PTRACE_EVENT_CLONE : Nat := 3

def WIFEXITED (status : Nat) : Bool := status % 128 == 0
def WEXITSTATUS (status : Nat) : Nat := status / 256 % 256
def WIFSIGNALED (status : Nat) : Bool := 1 ≤ status % 128 && status % 128 ≤ 126
def WIFSTOPPED (status : Nat) : Bool := status % 256 == 127
def WSTOPSIG (status : Nat) : Nat := status / 256 % 256

/-- The wait status of a stop with signal `sig` and ptrace event `event`. -/
def stop_status (sig event : Nat) : Nat := event * 65536 + sig * 256 + 127

/-! ## `experiments/06-enhanced-ptrace-statfs/enhanced_ptrace_interceptor.c` -/

namespace EnhancedStatfs

inductive syscall_state_t where
  | SYSCALL_ENTRY
  | SYSCALL_EXIT
  deriving DecidableEq, Repr

/-- The `while (i < maxlen - 1)` loop of `read_string_from_tracee`, with `n`
iterations left, at offset `i`, `str` being the bytes copied so far. The
result is `none` for the return value `-1` and otherwise the C string left
in the buffer. -/
def read_string_loop (t : Tracee) (addr maxlen : Nat) : Nat → Nat → List Nat → Option (List Nat)
  | 0, _, str => some (str.take (maxlen - 1))
  | n + 1, i, str =>
    match peekdata t (addr + i) with
    | none => none
    | some data =>
      match find_nul (data.take (maxlen - 1 - i)) with
      | some j => some (str ++ data.take j)
      | none => read_string_loop t addr maxlen n (i + 8) (str ++ data)

/-- Function `read_string_from_tracee(pid, addr, str, maxlen)`. -/
def read_string_from_tracee (t : Tracee) (addr maxlen : Nat) : Option (List Nat) :=
  if addr = 0 then none
  else read_string_loop t addr maxlen ((maxlen - 1 + 7) / 8) 0 []

/-- Function `write_string_to_tracee(pid, addr, str)`; `len = strlen(str) + 1`. -/
def write_string_to_tracee (t : Tracee) (addr : Nat) (str : List Nat) : Bool × Tracee :=
  write_loop addr (str ++ [0]) ((str.length + 1 + 7) / 8) 0 t

/-- The loop of `read_memory`, with `n` iterations left, at offset `i`. -/
def read_memory_loop (t : Tracee) (addr len : Nat) : Nat → Nat → List Nat → Option (List Nat)
  | 0, _, buf => some buf
  | n + 1, i, buf =>
    match peekdata t (addr + i) with
    | none => none
    | some data => read_memory_loop t addr len n (i + 8) (buf ++ data.take (len - i))

/-- Function `read_memory(pid, addr, buf, len)`: the `len` bytes read. -/
def read_memory (t : Tracee) (addr len : Nat) : Option (List Nat) :=
  read_memory_loop t addr len ((len + 7) / 8) 0 []

/-- Function `write_memory(pid, addr, buf, len)`. -/
def write_memory (t : Tracee) (addr : Nat) (buf : List Nat) : Bool × Tracee :=
  write_loop addr buf ((buf.length + 7) / 8) 0 t

/-- The address of the path argument chosen by `handle_open_entry`. -/
def open_path_addr (regs : Regs) : Option Nat :=
  if regs.orig_rax = SYS_open then some regs.rdi
  else if regs.orig_rax = SYS_openat then some regs.rsi
  else none

/-- Function `handle_open_entry(pid, regs)`. -/
def handle_open_entry (t : Tracee) (regs : Regs) : Tracee :=
  match open_path_addr regs with
  | none => t
  | some path_addr =>
    match read_string_from_tracee t path_addr 4096 with
    | none => t
    | some path =>
      if starts_with path (cstr "/proc/sys/") then
        let new_path := snprintf_s 4096 (cstr "/tmp/fake-procsys/") (path.drop 10)
        (write_string_to_tracee t path_addr new_path).2
      else t

/-- Lines 203-211 of `handle_statfs_exit`: the change made to the local copy
`buf` once it is found to report 9p. -/
def spoof_as_ext4 (buf : List Nat) : List Nat :=
  let buf1 := set_f_type buf EXT4_SUPER_MAGIC
  if f_namelen buf1 = 0 ∨ f_namelen buf1 > 255 then set_f_namelen buf1 255 else buf1

/-- Function `handle_statfs_exit(pid, regs)`. -/
def handle_statfs_exit (t : Tracee) (regs : Regs) : Tracee :=
  if to_long regs.rax < 0 then t
  else if regs.orig_rax = SYS_statfs ∨ regs.orig_rax = SYS_fstatfs then
    let buffer_addr := regs.rsi
    match read_memory t buffer_addr sizeof_statfs with
    | none => t
    | some buf =>
      if f_type buf = NINE_P_FS_MAGIC then
        (write_memory t buffer_addr (spoof_as_ext4 buf)).2
      else t
  else t

/-- What one iteration of the interception loop of `main` meets: the flag
`keep_running` at the loop test, whether `ptrace(PTRACE_SYSCALL, child, 0, 0)`
and `waitpid` succeeded, the wait status, the outcome of `PTRACE_GETREGS` (asked
only at a syscall-stop), whether the resume that forwards a signal succeeded
(asked only at another stop), and the tracee's memory at the stop. -/
structure LoopEvent where
  keep_running : Bool
  resume_ok : Bool
  waitpid_ok : Bool
  status : Nat
  getregs : Option Regs
  forward_ok : Bool
  tracee : Tracee

/-- The state of `main` across the loop: the global `current_state`, the tracee
as the last handled stop left it, and a ghost list `seen` of the value of
`current_state` at each syscall-stop met so far, oldest first. -/
structure MainState where
  current_state : syscall_state_t
  tracee : Tracee
  seen : List syscall_state_t

/-- One iteration of `while (keep_running)` in `main`; `none` when the loop is
left (`break`, or the loop test fails). -/
def main_iteration (s : MainState) (ev : LoopEvent) : Option MainState :=
  if !ev.keep_running then none
  else if !ev.resume_ok then none
  else if !ev.waitpid_ok then none
  else if WIFEXITED ev.status then none
  else if WIFSIGNALED ev.status then none
  else if WIFSTOPPED ev.status && WSTOPSIG ev.status == SIGTRAP ||| 0x80 then
    let s1 := { s with seen := s.seen ++ [s.current_state], tracee := ev.tracee }
    match ev.getregs with
    | none => some s1
    | some regs =>
      if s.current_state = syscall_state_t.SYSCALL_ENTRY then
        some { s1 with
          tracee :=
            if regs.orig_rax = SYS_open ∨ regs.orig_rax = SYS_openat then
              handle_open_entry ev.tracee regs
            else ev.tracee
          current_state := syscall_state_t.SYSCALL_EXIT }
      else
        some { s1 with
          tracee :=
            if regs.orig_rax = SYS_statfs ∨ regs.orig_rax = SYS_fstatfs then
              handle_statfs_exit ev.tracee regs
            else ev.tracee
          current_state := syscall_state_t.SYSCALL_ENTRY }
  else if WIFSTOPPED ev.status then
    if ev.forward_ok then some s else none
  else some s

/-- The interception loop of `main` over the events of successive iterations,
from `current_state = SYSCALL_ENTRY` on. -/
def main_loop : List LoopEvent → MainState → MainState
  | [], s => s
  | ev :: rest, s =>
    match main_iteration s ev with
    | some s1 => main_loop rest s1
    | none => s

/-- The state in which `main` enters the loop (line 290). -/
def main_init (t : Tracee) : MainState :=
  { current_state := syscall_state_t.SYSCALL_ENTRY, tracee := t, seen := [] }

end EnhancedStatfs

/-! ## The fork-following supervisors

`experiments/15-wait-and-retry/ptrace_interceptor_enhanced.c` and
`solutions/worker-ptrace-experimental/ptrace_interceptor.c` share
`read_string`, `write_string`, `handle_syscall` and `main`, and differ in
`should_redirect` and `get_redirect_target`. -/

def MAX_STRING : Nat := 4096

/-- The loop of `read_string`, with `n` iterations left, at offset `i`, `str`
being the bytes copied so far (none of them zero). The result is `none` for
`NULL` and otherwise the C string in the returned buffer. The allocation of
the buffer is taken to succeed. -/
def read_string_loop (t : Tracee) (addr : Nat) : Nat → Nat → List Nat → Option (List Nat)
  | 0, _, str => some (str.take (MAX_STRING - 1))
  | n + 1, i, str =>
    match peekdata t (addr + i) with
    | none => if i = 0 then none else some str
    | some data =>
      match find_nul data with
      | some j => some (str ++ data.take j)
      | none => read_string_loop t addr n (i + 8) (str ++ data)

/-- Function `read_string(pid, addr)`. -/
def read_string (t : Tracee) (addr : Nat) : Option (List Nat) :=
  read_string_loop t addr ((MAX_STRING - 1 + 7) / 8) 0 []

/-- Function `write_string(pid, addr, str)`; `len = strlen(str) + 1`. -/
def write_string (t : Tracee) (addr : Nat) (str : List Nat) : Bool × Tracee :=
  write_loop addr (str ++ [0]) ((str.length + 1 + 7) / 8) 0 t

/-- Function `handle_syscall(pid)`, over the outcome of `PTRACE_GETREGS` and
the two functions in which the supervisors differ. `flags` is the `int` taken
from the register; `PTRACE_SETREGS` stores the unmodified registers. -/
def handle_syscall_with (should_redirect : List Nat → Bool)
    (get_redirect_target : List Nat → Nat → List Nat)
    (getregs : Option Regs) (t : Tracee) : Tracee :=
  match getregs with
  | none => t
  | some regs =>
    if regs.orig_rax ≠ SYS_open ∧ regs.orig_rax ≠ SYS_openat then t
    else
      let path_addr := if regs.orig_rax = SYS_open then regs.rdi else regs.rsi
      let flags := (if regs.orig_rax = SYS_open then regs.rsi else regs.rdx) % 2 ^ 32
      match read_string t path_addr with
      | none => t
      | some path =>
        if should_redirect path then
          (write_string t path_addr (get_redirect_target path flags)).2
        else t

/-- What one `waitpid(-1, &status, __WALL)` of the loop of `main` returns,
with the outcome of `PTRACE_GETREGS` and the memory of the stopped tracee.
`at_exit` is a ghost field: whether the kernel stopped the tracee at the exit
of a system call rather than at its entry; the wait status does not tell, and
the supervisor never learns it. -/
structure WaitEvent where
  pid : Int
  echild : Bool
  status : Nat
  getregs : Option Regs
  tracee : Tracee
  at_exit : Bool

/-- How an iteration of the loop of `main` ends: the loop is left, the next
wait follows with no request, or `ptrace(PTRACE_SYSCALL, pid, 0, sig)` resumes
the tracee. -/
inductive LoopAction where
  | leave
  | again
  | resume (pid : Int) (sig : Nat)
  deriving DecidableEq, Repr

/-- One iteration of `while (1)` in `main`: the action taken and the memory of
the tracee afterwards. -/
def main_body_with (handle_syscall : Option Regs → Tracee → Tracee) (w : WaitEvent) :
    LoopAction × Tracee :=
  if w.pid < 0 then
    if w.echild then (LoopAction.leave, w.tracee) else (LoopAction.again, w.tracee)
  else if WIFEXITED w.status || WIFSIGNALED w.status then (LoopAction.again, w.tracee)
  else if !WIFSTOPPED w.status then (LoopAction.resume w.pid 0, w.tracee)
  else
    let sig := WSTOPSIG w.status
    if sig = SIGTRAP ||| 0x80 then
      (LoopAction.resume w.pid 0, handle_syscall w.getregs w.tracee)
    else if w.status / 256 = SIGTRAP ||| (PTRACE_EVENT_FORK * 256)
        ∨ w.status / 256 = SIGTRAP ||| (PTRACE_EVENT_VFORK * 256)
        ∨ w.status / 256 = SIGTRAP ||| (PTRACE_EVENT_CLONE * 256) then
      (LoopAction.resume w.pid 0, w.tracee)
    else
      (LoopAction.resume w.pid (if sig = SIGSTOP ∨ sig = SIGTRAP then 0 else sig), w.tracee)

/-! ### `experiments/15-wait-and-retry/ptrace_interceptor_enhanced.c` -/

namespace WaitRetry

/-- Function `should_redirect(path)`. -/
def should_redirect (path : List Nat) : Bool :=
  if (strstr path (cstr "/proc/sys/")).isSome then true
  else if (strstr path (cstr "/proc/diskstats")).isSome then true
  else if (strstr path (cstr "/sys/fs/cgroup/cpuacct/cpuacct.usage_percpu")).isSome then true
  else false

/-- Function `get_redirect_target(path, flags)`. -/
def get_redirect_target (path : List Nat) (flags : Nat) : List Nat :=
  match strstr path (cstr "/proc/sys/") with
  | some k =>
    let suffix := path.drop (k + (cstr "/proc/sys/").length)
    snprintf_s MAX_STRING (cstr "/tmp/fake-procsys/") suffix
  | none =>
    if (strstr path (cstr "/proc/diskstats")).isSome then cstr "/tmp/fake-diskstats"
    else if (strstr path (cstr "/sys/fs/cgroup/cpuacct/cpuacct.usage_percpu")).isSome then
      cstr "/tmp/fake-cpuacct-usage-percpu"
    else
      let access_mode := flags &&& O_ACCMODE
      if access_mode = O_RDONLY then cstr "/dev/zero" else cstr "/dev/null"

def handle_syscall : Option Regs → Tracee → Tracee :=
  handle_syscall_with should_redirect get_redirect_target

def main_body : WaitEvent → LoopAction × Tracee := main_body_with handle_syscall

end WaitRetry

/-! ### `solutions/worker-ptrace-experimental/ptrace_interceptor.c` -/

namespace WorkerPtrace

/-- Function `should_redirect(path)`. -/
def should_redirect (path : List Nat) : Bool :=
  (strstr path (cstr "/proc/sys/kernel/keys/")).isSome
  || (strstr path (cstr "/proc/sys/kernel/panic")).isSome
  || (strstr path (cstr "/proc/sys/vm/panic_on_oom")).isSome
  || (strstr path (cstr "/proc/sys/vm/overcommit_memory")).isSome
  || (strstr path (cstr "/proc/diskstats")).isSome
  || (strstr path (cstr "/sys/fs/cgroup/cpuacct/cpuacct.usage_percpu")).isSome

/-- Function `get_redirect_target(path, flags)`. -/
def get_redirect_target (path : List Nat) (flags : Nat) : List Nat :=
  let access_mode := flags &&& O_ACCMODE
  if (strstr path (cstr "/proc/sys/kernel/keys/root_maxkeys")).isSome then
    cstr "/tmp/fake-procsys/kernel/keys/root_maxkeys"
  else if (strstr path (cstr "/proc/sys/kernel/keys/root_maxbytes")).isSome then
    cstr "/tmp/fake-procsys/kernel/keys/root_maxbytes"
  else if (strstr path (cstr "/proc/sys/vm/panic_on_oom")).isSome then
    cstr "/tmp/fake-procsys/vm/panic_on_oom"
  else if (strstr path (cstr "/proc/sys/kernel/panic_on_oops")).isSome then
    cstr "/tmp/fake-procsys/kernel/panic_on_oops"
  else if (strstr path (cstr "/proc/sys/kernel/panic")).isSome then
    cstr "/tmp/fake-procsys/kernel/panic"
  else if (strstr path (cstr "/proc/sys/vm/overcommit_memory")).isSome then
    cstr "/tmp/fake-procsys/vm/overcommit_memory"
  else if (strstr path (cstr "/proc/diskstats")).isSome then cstr "/tmp/fake-diskstats"
  else if (strstr path (cstr "/sys/fs/cgroup/cpuacct/cpuacct.usage_percpu")).isSome then
    cstr "/tmp/fake-cpuacct-usage-percpu"
  else if access_mode = O_RDONLY then cstr "/dev/zero"
  else cstr "/dev/null"

def handle_syscall : Option Regs → Tracee → Tracee :=
  handle_syscall_with should_redirect get_redirect_target

def main_body : WaitEvent → LoopAction × Tracee := main_body_with handle_syscall

end WorkerPtrace

/-! ## `experiments/09-ld-preload-intercept/ld_preload_interceptor.c` -/

namespace LdPreload

/-- Hook `statfs(path, buf)`. `orig_statfs` is the next `statfs` in the
chain: from the path and the caller's buffer, its result and the buffer as it
leaves it. The hook returns the result and the buffer the caller then sees. -/
def statfs (orig_statfs : List Nat → List Nat → Int × List Nat) (path buf : List Nat) :
    Int × List Nat :=
  let r := orig_statfs path buf
  if r.1 = 0 ∧ f_type r.2 = NINE_P_FS_MAGIC then (r.1, set_f_type r.2 EXT4_SUPER_MAGIC)
  else (r.1, r.2)

/-- Hook `fstatfs(fd, buf)`, with the next `fstatfs` in the chain. -/
def fstatfs (orig_fstatfs : Int → List Nat → Int × List Nat) (fd : Int) (buf : List Nat) :
    Int × List Nat :=
  let r := orig_fstatfs fd buf
  if r.1 = 0 ∧ f_type r.2 = NINE_P_FS_MAGIC then (r.1, set_f_type r.2 EXT4_SUPER_MAGIC)
  else (r.1, r.2)

end LdPreload

/-! ## Concrete tracees -/


/-- A tracee whose memory holds `bytes` at `base`, readable and writable
exactly there, zero elsewhere. -/
def tracee_at (base : Nat) (bytes : List Nat) : Tracee where
  byte := fun x => if base ≤ x then bytes.getD (x - base) 0 else 0
  readable := fun x => decide (base ≤ x ∧ x < base + bytes.length)
  writable := fun x => decide (base ≤ x ∧ x < base + bytes.length)
  pokes := []

/-! ## Phase tracking of the statfs supervisor: the specified phase and concrete stops -/

namespace EnhancedStatfs

/-- The phase the specification assigns to a syscall-stop that has `k`
syscall-stops before it. -/
def phase_of_count (k : Nat) : syscall_state_t :=
  if k % 2 = 0 then syscall_state_t.SYSCALL_ENTRY else syscall_state_t.SYSCALL_EXIT

/-- A syscall-stop (`SIGTRAP | 0x80`) of the child at which the registers are
delivered as `getregs`. -/
def syscall_stop_event (getregs : Option Regs) (t : Tracee) : LoopEvent :=
  { keep_running := true, resume_ok := true, waitpid_ok := true,
    status := stop_status (SIGTRAP ||| 0x80) 0, getregs := getregs, forward_ok := true,
    tracee := t }

/-- A tracee whose `statfs` result buffer at address 4096 reports 9p. -/
def ninep_tracee : Tracee :=
  tracee_at 4096 (le_bytes64 NINE_P_FS_MAGIC ++ List.replicate 112 1)

/-- The registers of a `statfs` call with the buffer at 4096 and result 0. -/
def statfs_regs : Regs := { orig_rax := SYS_statfs, rax := 0, rdi := 8192, rsi := 4096, rdx := 0 }

/-- The tracee before the kernel has filled the `statfs` result buffer. -/
def blank_tracee : Tracee := tracee_at 4096 (List.replicate 120 0)

/-- The condition of ptrace(2) on the events of one run: at a syscall-stop that
`waitpid` has just reported, `PTRACE_GETREGS` with a valid buffer fails only when
the tracee is gone (`ESRCH`), and then `ptrace(PTRACE_SYSCALL, child, 0, 0)` at the
top of the next iteration fails as well. -/
def getregs_failure_is_final : List LoopEvent → Bool
  | [] => true
  | ev :: rest =>
    (match rest with
      | [] => true
      | ev1 :: _ =>
        !(WIFSTOPPED ev.status && WSTOPSIG ev.status == SIGTRAP ||| 0x80)
          || ev.getregs.isSome || !ev1.resume_ok)
    && getregs_failure_is_final rest

/-- The events of a run in which the tracee is killed during the second
syscall-stop, the exit of a `statfs` call: the register read fails there, and so
does the resume of the iteration after it. -/
def killed_tracee_run : List LoopEvent :=
  [syscall_stop_event (some statfs_regs) blank_tracee,
   syscall_stop_event none ninep_tracee,
   { keep_running := true, resume_ok := false, waitpid_ok := false, status := 0,
     getregs := none, forward_ok := false, tracee := ninep_tracee }]

/-- The loop invariant of `main` as long as every register read succeeds. -/
def PhaseInv (s : MainState) : Prop :=
  s.current_state = phase_of_count s.seen.length ∧
  ∀ k, k < s.seen.length → s.seen[k]? = some (phase_of_count k)

end EnhancedStatfs

/-! ## Concrete stops of the fork-following supervisors -/

/-- The registers of `open(path, O_RDONLY)` at a syscall-entry stop, the path at
address 4096. -/
def open_entry_regs : Regs :=
  { orig_rax := SYS_open, rax := 2 ^ 64 - 38, rdi := 4096, rsi := 0, rdx := 0 }

namespace WaitRetry

/-- A tracee about to call `open("/proc/sys//proc/sys/x", O_RDONLY)`, the path
at address 4096 in a 32-byte buffer. -/
def nested_path_tracee : Tracee :=
  tracee_at 4096 (cstr "/proc/sys//proc/sys/x" ++ List.replicate 11 0)

/-- The syscall-entry stop of that call (`rax` holds `-ENOSYS`). -/
def nested_entry_stop : WaitEvent :=
  { pid := 7, echild := false, status := stop_status (SIGTRAP ||| 0x80) 0,
    getregs := some { orig_rax := SYS_open, rax := 2 ^ 64 - 38, rdi := 4096, rsi := 0, rdx := 0 },
    tracee := nested_path_tracee, at_exit := false }

/-- The syscall-exit stop of the same call: the memory is as the supervisor
left it at the entry stop, `rax` holds the descriptor returned. -/
def nested_exit_stop : WaitEvent :=
  { pid := 7, echild := false, status := stop_status (SIGTRAP ||| 0x80) 0,
    getregs := some { orig_rax := SYS_open, rax := 3, rdi := 4096, rsi := 0, rdx := 0 },
    tracee := (main_body nested_entry_stop).2, at_exit := true }

end WaitRetry


/-! ## Concrete tracees of the path rewrite -/

/-- A tracee holding `/proc/sys/kernel/pid_max` at address 4096 in a 40-byte
buffer. -/
def pid_max_tracee : Tracee :=
  tracee_at 4096 (cstr "/proc/sys/kernel/pid_max" ++ List.replicate 16 0)

/-- A tracee holding `/proc/sys/x` and its terminator in the twelve bytes from
4096 on, followed by twelve bytes `0xAA` of other data. -/
def short_path_tracee : Tracee :=
  tracee_at 4096 (cstr "/proc/sys/x" ++ [0] ++ List.replicate 12 170)

/-- A path of maximum length: `/proc/sys/` and 4085 bytes `a`. -/
def longest_path : List Nat := cstr "/proc/sys/" ++ List.replicate 4085 97

/-- A tracee holding the path of maximum length and its terminator in the 4096
bytes from 4096 on. -/
def longest_path_tracee : Tracee := tracee_at 4096 (longest_path ++ [0])

/-- A tracee holding `/proc/sys/x` at 4096, of which only the first sixteen
bytes are mapped. -/
def two_word_tracee : Tracee := tracee_at 4096 (cstr "/proc/sys/x" ++ [0, 0, 0, 0, 0])

/-- A tracee holding `/proc/sys/abcdefgh` at 4096, of which the first sixteen
bytes can be read and the first thirty-two can be written. -/
def half_readable_tracee : Tracee :=
  { byte := fun x => (cstr "/proc/sys/abcdefgh").getD (x - 4096) 0
    readable := fun x => decide (4096 ≤ x ∧ x < 4112)
    writable := fun x => decide (4096 ≤ x ∧ x < 4128)
    pokes := [] }

/-- A tracee holding `/etc/passwd` at address 4096 in a 16-byte buffer. -/
def passwd_tracee : Tracee := tracee_at 4096 (cstr "/etc/passwd" ++ [0, 0, 0, 0, 0])

/-- A tracee in which nothing can be read or written. -/
def unmapped_tracee : Tracee :=
  { byte := fun _ => 0, readable := fun _ => false, writable := fun _ => false, pokes := [] }

/-- A tracee whose `statfs` result buffer at address 4096 reports ext4. -/
def ext4_tracee : Tracee :=
  tracee_at 4096 (le_bytes64 EXT4_SUPER_MAGIC ++ List.replicate 112 1)

/-- The registers of a `statfs` call with the buffer at 4096 that failed with
`-ENOENT`. -/
def failed_statfs_regs : Regs :=
  { orig_rax := SYS_statfs, rax := 2 ^ 64 - 2, rdi := 8192, rsi := 4096, rdx := 0 }

/-- A next `statfs` in the chain that succeeds and reports 9p. -/
def ninep_statfs (_path buf : List Nat) : Int × List Nat :=
  (0, set_f_type buf NINE_P_FS_MAGIC)

/-- A next `statfs` in the chain that fails and leaves the buffer alone. -/
def failing_statfs (_path buf : List Nat) : Int × List Nat := (-1, buf)

/-- A next `fstatfs` in the chain that succeeds and reports 9p. -/
def ninep_fstatfs (_fd : Int) (buf : List Nat) : Int × List Nat :=
  (0, set_f_type buf NINE_P_FS_MAGIC)

/-- A next `fstatfs` in the chain that fails and leaves the buffer alone. -/
def failing_fstatfs (_fd : Int) (buf : List Nat) : Int × List Nat := (-1, buf)

/-! ## Concrete `statfs` records -/

/-- A 9p `statfs` record whose `f_namelen` is 0 (all fields but `f_type` zero). -/
def zero_namelen_record : List Nat := le_bytes64 NINE_P_FS_MAGIC ++ List.replicate 112 0

/-- A 9p `statfs` record whose `f_namelen` is -1. -/
def negative_namelen_record : List Nat :=
  le_bytes64 NINE_P_FS_MAGIC ++ List.replicate 56 0 ++ List.replicate 8 255
    ++ List.replicate 48 0

/-- A 9p `statfs` record whose `f_namelen` is 255 (all other fields zero). -/
def plain_ninep_record : List Nat :=
  le_bytes64 NINE_P_FS_MAGIC ++ List.replicate 56 0 ++ le_bytes64 255 ++ List.replicate 48 0

/-- A next `statfs` in the chain that succeeds and fills the buffer with
`record`. -/
def statfs_returning (record : List Nat) (_path _buf : List Nat) : Int × List Nat :=
  (0, record)

/-- A next `fstatfs` in the chain that succeeds and fills the buffer with
`record`. -/
def fstatfs_returning (record : List Nat) (_fd : Int) (_buf : List Nat) : Int × List Nat :=
  (0, record)

/-- A tracee holding `/a` and its terminator in the three bytes from 4096 on,
followed by five bytes `0xAA` of other data in the same word. -/
def padded_path_tracee : Tracee := tracee_at 4096 (cstr "/a" ++ [0] ++ List.replicate 5 170)

/-- The registers of `open(path, O_WRONLY)` at a syscall-entry stop, the path at
address 4096. -/
def open_write_regs : Regs :=
  { orig_rax := SYS_open, rax := 2 ^ 64 - 38, rdi := 4096, rsi := 1, rdx := 0 }

/-- A tracee holding `/proc/sys/fs/file-max` at address 4096 in a 32-byte
buffer. -/
def file_max_tracee : Tracee :=
  tracee_at 4096 (cstr "/proc/sys/fs/file-max" ++ List.replicate 11 0)

/-- A tracee holding `/proc/sys/kernel/keys/maxkeys` at address 4096 in a
32-byte buffer. -/
def maxkeys_tracee : Tracee :=
  tracee_at 4096 (cstr "/proc/sys/kernel/keys/maxkeys" ++ [0, 0, 0])

/-! ## `experiments/20-bridge-networking-breakthrough/code/netlink_intercept_v2.c` and `netlink_intercept_v3.c`

The hooks `socket`, `bind`, `setsockopt` and `close` are the same in both files
but for the tag of the log lines; `ioctl` exists in `netlink_intercept_v3.c`
only. The global `static int is_netlink_fd[1024]` is passed to each hook as the
content of its entries. The next function in the chain (`real_...`) is a
parameter giving its result; `real_calls` lists the calls made to it. -/

/-- Constant of `<sys/socket.h>`. -/
def AF_NETLINK : Int := 16

/-- Request numbers of `<linux/sockios.h>`. -/
def SIOCGIFFLAGS : Nat := 0x8913
def SIOCBRADDBR : Nat := 0x89a0
def SIOCBRDELBR : Nat := 0x89a1
def SIOCBRADDIF : Nat := 0x89a2
def SIOCBRDELIF : Nat := 0x89a3
def SIOCDEVPRIVATE : Nat := 0x89F0

/-- Type `struct sockaddr_nl` of `<linux/netlink.h>`; `nl_family` is the
`sa_family` of the address seen as a `struct sockaddr`. -/
structure sockaddr_nl where
  nl_family : Int
  nl_pad : Nat
  nl_pid : Nat
  nl_groups : Nat
  deriving DecidableEq, Repr

namespace NetlinkIntercept

/-- The evaluation of `is_netlink_fd[i]`: `none` when `i` lies outside the 1024
entries of the array (undefined behaviour). -/
def is_netlink_fd_at (is_netlink_fd : Nat → Int) (i : Int) : Option Int :=
  if 0 ≤ i ∧ i < 1024 then some (is_netlink_fd i.toNat) else none

/-- Membership of `fd` in the netlink fd set: `fd` indexes the array and its
entry is set. -/
def tracked (is_netlink_fd : Nat → Int) (fd : Int) : Bool :=
  decide (0 ≤ fd ∧ fd < 1024 ∧ is_netlink_fd fd.toNat ≠ 0)

/-- Hook `socket(domain, type, protocol)`: the value returned and the array
afterwards. -/
def socket (real_socket : Int → Int → Int → Int) (is_netlink_fd : Nat → Int)
    (domain type protocol : Int) : Int × (Nat → Int) :=
  let fd := real_socket domain type protocol
  if fd ≥ 0 ∧ domain = AF_NETLINK then
    if fd < 1024 then (fd, fun k => if k = fd.toNat then 1 else is_netlink_fd k)
    else (fd, is_netlink_fd)
  else (fd, is_netlink_fd)

/-- What a call of the hook `bind` does: the value returned, the calls made to
the real `bind` (descriptor, address passed, length), and the caller's address
object after the call. -/
structure BindOutcome where
  ret : Int
  real_calls : List (Int × Option sockaddr_nl × Nat)
  caller_addr : Option sockaddr_nl
  deriving DecidableEq, Repr

/-- Hook `bind(sockfd, addr, addrlen)`; `addr` is `none` for `NULL`. The result
is `none` when `is_netlink_fd[sockfd]` is evaluated outside the array. -/
def bind (real_bind : Int → Option sockaddr_nl → Nat → Int) (is_netlink_fd : Nat → Int)
    (sockfd : Int) (addr : Option sockaddr_nl) (addrlen : Nat) : Option BindOutcome :=
  let passthrough : BindOutcome :=
    { ret := real_bind sockfd addr addrlen, real_calls := [(sockfd, addr, addrlen)],
      caller_addr := addr }
  if sockfd < 1024 then
    match is_netlink_fd_at is_netlink_fd sockfd with
    | none => none
    | some flag =>
      if flag ≠ 0 then
        match addr with
        | none => some passthrough
        | some nl_addr =>
          if nl_addr.nl_family = AF_NETLINK then
            if nl_addr.nl_groups ≠ 0 then
              let safe_addr : sockaddr_nl := { nl_addr with nl_groups := 0 }
              some { ret := 0, real_calls := [(sockfd, some safe_addr, addrlen)],
                     caller_addr := addr }
            else some passthrough
          else some passthrough
      else some passthrough
  else some passthrough

/-- What a call of the hook `setsockopt` does: the value returned and the calls
made to the real `setsockopt` (descriptor, level, option, value, length). -/
structure SetsockoptOutcome where
  ret : Int
  real_calls : List (Int × Int × Int × List Nat × Nat)
  deriving DecidableEq, Repr

/-- Hook `setsockopt(sockfd, level, optname, optval, optlen)`. The result is
`none` when `is_netlink_fd[sockfd]` is evaluated outside the array. -/
def setsockopt (real_setsockopt : Int → Int → Int → List Nat → Nat → Int)
    (is_netlink_fd : Nat → Int) (sockfd level optname : Int) (optval : List Nat)
    (optlen : Nat) : Option SetsockoptOutcome :=
  let passthrough : SetsockoptOutcome :=
    { ret := real_setsockopt sockfd level optname optval optlen,
      real_calls := [(sockfd, level, optname, optval, optlen)] }
  if sockfd < 1024 then
    match is_netlink_fd_at is_netlink_fd sockfd with
    | none => none
    | some flag => if flag ≠ 0 then some { ret := 0, real_calls := [] } else some passthrough
  else some passthrough

/-- What a call of the hook `ioctl` does: the value returned, the calls made to
the real `ioctl` (descriptor, request, object passed), and the object at `argp`
after the call. -/
structure IoctlOutcome where
  ret : Int
  real_calls : List (Int × Nat × Option (List Nat))
  arg : Option (List Nat)
  deriving DecidableEq, Repr

/-- Hook `ioctl(fd, request, argp)` of `netlink_intercept_v3.c`. `argp` is the
byte image of the object pointed to (`none` for `NULL`), which for an interface
query is a `struct ifreq` beginning with `ifr_name`; the real `ioctl` gives its
result and the object as it leaves it. -/
def ioctl (real_ioctl : Int → Nat → Option (List Nat) → Int × Option (List Nat))
    (fd : Int) (request : Nat) (argp : Option (List Nat)) : IoctlOutcome :=
  let passthrough : IoctlOutcome :=
    { ret := (real_ioctl fd request argp).1, real_calls := [(fd, request, argp)],
      arg := (real_ioctl fd request argp).2 }
  if request = SIOCBRADDBR ∨ request = SIOCBRDELBR ∨ request = SIOCBRADDIF
      ∨ request = SIOCBRDELIF then passthrough
  else if request = SIOCDEVPRIVATE ∨ request = SIOCGIFFLAGS then
    match argp with
    | none => passthrough
    | some ifr =>
      if (strstr (c_string ifr) (cstr "docker")).isSome
          ∨ (strstr (c_string ifr) (cstr "br-")).isSome then
        let result := (real_ioctl fd request argp).1
        if result < 0 then
          { ret := 0, real_calls := [(fd, request, argp)],
            arg := (real_ioctl fd request argp).2 }
        else
          { ret := result, real_calls := [(fd, request, argp)],
            arg := (real_ioctl fd request argp).2 }
      else passthrough
  else passthrough

/-- Hook `close(fd)`: the value returned and the array afterwards. -/
def close (real_close : Int → Int) (is_netlink_fd : Nat → Int) (fd : Int) :
    Int × (Nat → Int) :=
  if fd ≥ 0 ∧ fd < 1024 ∧ is_netlink_fd fd.toNat ≠ 0 then
    (real_close fd, fun k => if k = fd.toNat then 0 else is_netlink_fd k)
  else (real_close fd, is_netlink_fd)

/-- The array when the library is loaded: `{0}`. -/
def no_netlink_fd : Nat → Int := fun _ => 0

/-- The array after `socket(AF_NETLINK, SOCK_RAW, NETLINK_ROUTE)` has returned
descriptor 7. -/
def after_socket_7 : Nat → Int := (socket (fun _ _ _ => 7) no_netlink_fd AF_NETLINK 3 0).2

/-- A netlink address that asks for multicast group `0x10`. -/
def multicast_addr : sockaddr_nl := { nl_family := AF_NETLINK, nl_pad := 0, nl_pid := 0, nl_groups := 0x10 }

/-- A real `bind` that always fails with -1. -/
def failing_bind (_fd : Int) (_addr : Option sockaddr_nl) (_len : Nat) : Int := -1

/-- A real `setsockopt` that always fails with -1. -/
def failing_setsockopt (_fd _level _optname : Int) (_optval : List Nat) (_optlen : Nat) : Int :=
  -1

/-- A `struct ifreq` (40 bytes) for the interface `docker0`, the request data
being eight bytes `0xFF` and sixteen zero bytes. -/
def docker0_ifreq : List Nat :=
  cstr "docker0" ++ List.replicate 9 0 ++ List.replicate 8 255 ++ List.replicate 16 0

/-- A real `ioctl` that fails with -1 and leaves the object alone. -/
def failing_ioctl (_fd : Int) (_request : Nat) (argp : Option (List Nat)) :
    Int × Option (List Nat) := (-1, argp)

/-- A real `ioctl` that succeeds with 0 and leaves the object alone. -/
def succeeding_ioctl (_fd : Int) (_request : Nat) (argp : Option (List Nat)) :
    Int × Option (List Nat) := (0, argp)

end NetlinkIntercept

/-! ## Path redirection of `experiments/09-ld-preload-intercept/ld_preload_interceptor.c` -/

/-- Constant of `<fcntl.h>`. -/
def O_CREAT : Nat := 64

namespace LdPreload

/-- The table `path_mappings`, without its sentinel: source prefix and
replacement. -/
def path_mappings : List (List Nat × List Nat) :=
  [(cstr "/sys/fs/cgroup", cstr "/tmp/fake-cgroup"),
   (cstr "/proc/sys", cstr "/tmp/fake-procsys")]

/-- The loop of `redirect_path` over the entries of the table that are left. -/
def redirect_path_loop : List (List Nat × List Nat) → List Nat → List Nat
  | [], path => path
  | (original, redirect) :: rest, path =>
    if starts_with path original then snprintf_s 4096 redirect (path.drop original.length)
    else redirect_path_loop rest path

/-- Function `redirect_path(path)`; `none` is `NULL`. -/
def redirect_path (path : Option (List Nat)) : Option (List Nat) :=
  match path with
  | none => none
  | some p => some (redirect_path_loop path_mappings p)

/-- Hook `open(pathname, flags, ...)`. `orig_open` is the next `open` in the
chain, called with or without the mode; `mode` is what `va_arg` yields. -/
def «open» (orig_open : Option (List Nat) → Nat → Option Nat → Int)
    (pathname : Option (List Nat)) (flags mode : Nat) : Int :=
  let redirected := redirect_path pathname
  if flags &&& O_CREAT ≠ 0 then orig_open redirected flags (some mode)
  else orig_open redirected flags none

/-- Hook `openat(dirfd, pathname, flags, ...)`. -/
def openat (orig_openat : Int → Option (List Nat) → Nat → Option Nat → Int) (dirfd : Int)
    (pathname : Option (List Nat)) (flags mode : Nat) : Int :=
  let redirected := redirect_path pathname
  if flags &&& O_CREAT ≠ 0 then orig_openat dirfd redirected flags (some mode)
  else orig_openat dirfd redirected flags none

/-- Hook `stat(pathname, statbuf)`: the result and the buffer as the next
`stat` leaves it. -/
def stat (orig_stat : Option (List Nat) → List Nat → Int × List Nat)
    (pathname : Option (List Nat)) (statbuf : List Nat) : Int × List Nat :=
  let redirected := redirect_path pathname
  orig_stat redirected statbuf

/-- Hook `lstat(pathname, statbuf)`. -/
def lstat (orig_lstat : Option (List Nat) → List Nat → Int × List Nat)
    (pathname : Option (List Nat)) (statbuf : List Nat) : Int × List Nat :=
  let redirected := redirect_path pathname
  orig_lstat redirected statbuf

/-- Hook `fopen(pathname, mode)`: the `FILE *` of the next `fopen`, `none` for
`NULL`. -/
def fopen (orig_fopen : Option (List Nat) → List Nat → Option Nat)
    (pathname : Option (List Nat)) (mode : List Nat) : Option Nat :=
  let redirected := redirect_path pathname
  orig_fopen redirected mode

end LdPreload

/-! ## Stops and runs of the supervisors' loops -/

/-- The wait status of a process that exited normally with code `c`. -/
def exit_status (c : Nat) : Nat := c % 256 * 256

/-- A signal-delivery stop of tracee 7 with signal `sig`. -/
def signal_stop (sig : Nat) : WaitEvent :=
  { pid := 7, echild := false, status := stop_status sig 0, getregs := none,
    tracee := unmapped_tracee, at_exit := false }

/-! ## The value returned by `main` -/

namespace EnhancedStatfs

/-- The value `main` returns once the interception loop is left (line 349);
`none` as long as the events given do not end the loop. -/
def main_return : List LoopEvent → MainState → Option Int
  | [], _ => none
  | ev :: rest, s =>
    match main_iteration s ev with
    | some s1 => main_return rest s1
    | none => some 0

/-- Function `main` in the parent process: `argc`, whether `argv[1]` is `-v`,
whether `PTRACE_SETOPTIONS` succeeded, the tracee, and the events of the loop. -/
def main (argc : Nat) (argv1_is_v setoptions_ok : Bool) (t : Tracee) (evs : List LoopEvent) :
    Option Int :=
  if argc < 2 then some 1
  else if argv1_is_v ∧ argc < 3 then some 1
  else if !setoptions_ok then some 1
  else main_return evs (main_init t)

/-- The event of the iteration in which `waitpid` reports that the child exited
normally with code `c`. -/
def exit_event (c : Nat) : LoopEvent :=
  { keep_running := true, resume_ok := true, waitpid_ok := true, status := exit_status c,
    getregs := none, forward_ok := true, tracee := unmapped_tracee }

end EnhancedStatfs

/-- The value `main` of a fork-following supervisor returns once `while (1)` is
left; `none` as long as the events given do not end the loop. -/
def main_loop_with (handle_syscall : Option Regs → Tracee → Tracee) :
    List WaitEvent → Option Int
  | [] => none
  | w :: rest =>
    match (main_body_with handle_syscall w).1 with
    | LoopAction.leave => some 0
    | _ => main_loop_with handle_syscall rest

/-- Function `main` of a fork-following supervisor in the parent process. -/
def main_with (handle_syscall : Option Regs → Tracee → Tracee) (argc : Nat)
    (evs : List WaitEvent) : Option Int :=
  if argc < 2 then some 1 else main_loop_with handle_syscall evs

def WaitRetry.main : Nat → List WaitEvent → Option Int := main_with WaitRetry.handle_syscall

def WorkerPtrace.main : Nat → List WaitEvent → Option Int :=
  main_with WorkerPtrace.handle_syscall

/-- The wait event that reports the normal exit of process 7 with code `c`. -/
def exited_event (c : Nat) : WaitEvent :=
  { pid := 7, echild := false, status := exit_status c, getregs := none,
    tracee := unmapped_tracee, at_exit := false }

/-- The failing `waitpid` with `errno == ECHILD`: no tracee is left. -/
def echild_event : WaitEvent :=
  { pid := -1, echild := true, status := 0, getregs := none, tracee := unmapped_tracee,
    at_exit := false }

/-! ## `experiments/07-fuse-cgroup-emulation/fuse_cgroupfs.c` -/

/-- Constants `ENOENT` and `EIO` of `<errno.h>`. -/
def ENOENT : Int := 2
def EIO_errno : Int := 5

/-- The conversion of a `size_t` to `int`. -/
def to_int (x : Nat) : Int :=
  if x % 2 ^ 32 < 2 ^ 31 then ((x % 2 ^ 32 : Nat) : Int) else ((x % 2 ^ 32 : Nat) : Int) - 2 ^ 32

/-- The text that `%lld` prints for a `long long`. -/
def decimal (v : Int) : List Nat := cstr (toString v)

namespace FuseCgroupfs

/-- Type `cgroup_file_t`; `data` is `none` for `NULL`. -/
structure cgroup_file_t where
  path : List Nat
  data : Option (List Nat)
  dynamic : Int
  deriving DecidableEq, Repr

/-- The table `cgroup_files`, without its sentinel. -/
def cgroup_files : List cgroup_file_t :=
  [ { path := cstr "/cpu/cpu.shares", data := some (cstr "1024\n"), dynamic := 0 },
    { path := cstr "/cpu/cpu.cfs_period_us", data := some (cstr "100000\n"), dynamic := 0 },
    { path := cstr "/cpu/cpu.cfs_quota_us", data := some (cstr "-1\n"), dynamic := 0 },
    { path := cstr "/cpu/cpu.stat",
      data := some (cstr "nr_periods 0\nnr_throttled 0\nthrottled_time 0\n"), dynamic := 0 },
    { path := cstr "/cpuacct/cpuacct.usage", data := none, dynamic := 1 },
    { path := cstr "/cpuacct/cpuacct.stat", data := none, dynamic := 1 },
    { path := cstr "/memory/memory.limit_in_bytes", data := some (cstr "9223372036854771712\n"),
      dynamic := 0 },
    { path := cstr "/memory/memory.usage_in_bytes", data := none, dynamic := 1 },
    { path := cstr "/memory/memory.max_usage_in_bytes", data := none, dynamic := 1 },
    { path := cstr "/memory/memory.stat", data := none, dynamic := 1 },
    { path := cstr "/blkio/blkio.throttle.io_service_bytes", data := some (cstr ""),
      dynamic := 0 },
    { path := cstr "/blkio/blkio.throttle.io_serviced", data := some (cstr ""), dynamic := 0 },
    { path := cstr "/devices/devices.list", data := some (cstr "a *:* rwm\n"), dynamic := 0 },
    { path := cstr "/freezer/freezer.state", data := some (cstr "THAWED\n"), dynamic := 0 },
    { path := cstr "/net_cls/net_cls.classid", data := some (cstr "0\n"), dynamic := 0 },
    { path := cstr "/net_prio/net_prio.ifpriomap", data := some (cstr ""), dynamic := 0 },
    { path := cstr "/pids/pids.max", data := some (cstr "max\n"), dynamic := 0 },
    { path := cstr "/pids/pids.current", data := some (cstr "1\n"), dynamic := 0 } ]

/-- Function `get_dynamic_data(path, buf, size)`, with the value `ns` of
`get_time_ns()`: the C string left in `buf`, `none` for the result -1. -/
def get_dynamic_data (ns : Int) (path : List Nat) (size : Nat) : Option (List Nat) :=
  if path = cstr "/cpuacct/cpuacct.usage" then
    some (snprintf_s size (decimal ns) (cstr "\n"))
  else if path = cstr "/cpuacct/cpuacct.stat" then
    let user := Int.tdiv ns 2
    let system := Int.tdiv ns 4
    some (snprintf_s size
      (cstr "user " ++ decimal (Int.tdiv user 10000000) ++ cstr "\nsystem "
        ++ decimal (Int.tdiv system 10000000))
      (cstr "\n"))
  else if path = cstr "/memory/memory.usage_in_bytes" then
    some (snprintf_s size (cstr "209715200\n") [])
  else if path = cstr "/memory/memory.max_usage_in_bytes" then
    some (snprintf_s size (cstr "262144000\n") [])
  else if path = cstr "/memory/memory.stat" then
    some (snprintf_s size
      (cstr "cache 0\nrss 209715200\nrss_huge 0\nmapped_file 0\nswap 0\npgpgin 0\npgpgout 0\npgfault 0\npgmajfault 0\ninactive_anon 0\nactive_anon 209715200\ninactive_file 0\nactive_file 0\nunevictable 0\n")
      [])
  else none

/-- The loop of `find_cgroup_file` over the entries that are left. -/
def find_cgroup_file_loop : List cgroup_file_t → List Nat → Option cgroup_file_t
  | [], _ => none
  | file :: rest, path => if path = file.path then some file else find_cgroup_file_loop rest path

/-- Function `find_cgroup_file(path)`; `none` is `NULL`. -/
def find_cgroup_file (path : List Nat) : Option cgroup_file_t :=
  find_cgroup_file_loop cgroup_files path

/-- Function `cgroupfs_read(path, buf, size, offset, fi)`, with the value `ns` of
the clock: the value returned and the bytes copied to the start of `buf`.
`offset` is converted to `size_t` for the comparisons; the result is `none` when
`memcpy` would read past the content. -/
def cgroupfs_read (ns : Int) (path : List Nat) (size : Nat) (offset : Int) :
    Option (Int × List Nat) :=
  match find_cgroup_file path with
  | none => some (-ENOENT, [])
  | some file =>
    match (if file.dynamic ≠ 0 then get_dynamic_data ns path 1024
           else some (file.data.getD (cstr ""))) with
    | none => some (-EIO_errno, [])
    | some content =>
      let len := content.length
      let off := (offset % 2 ^ 64).toNat
      if off < len then
        let size1 := if (off + size) % 2 ^ 64 > len then len - off else size
        if off + size1 ≤ len then some (to_int size1, (content.drop off).take size1)
        else none
      else some (to_int 0, [])

end FuseCgroupfs

/-! ## The buffer of `read_string` -/

/-- Ghost companion of `read_string_loop`: the number of leading bytes of the
4096-byte buffer `str` that the loop has stored to when it returns (one more
than the largest index stored), with `n` iterations left at offset `i`.
`memcpy(str + i, &data, sizeof(long))` stores `i .. i + 7`, `str[i] = '\0'` stores
`i` (nothing is stored when `i = 0`: the buffer is freed), and
`str[MAX_STRING - 1] = '\0'` after the loop stores `MAX_STRING - 1`. -/
def read_string_extent_loop (t : Tracee) (addr : Nat) : Nat → Nat → Nat
  | 0, _ => MAX_STRING
  | n + 1, i =>
    match peekdata t (addr + i) with
    | none => if i = 0 then 0 else i + 1
    | some data =>
      match find_nul data with
      | some _ => i + 8
      | none => read_string_extent_loop t addr n (i + 8)

/-- Ghost companion of `read_string`: how far into its buffer it stores. -/
def read_string_extent (t : Tracee) (addr : Nat) : Nat :=
  read_string_extent_loop t addr ((MAX_STRING - 1 + 7) / 8) 0

/-- A tracee holding 4100 bytes `a` at address 4096, with no zero byte in the
first 4096. -/
def unterminated_tracee : Tracee := tracee_at 4096 (List.replicate 4100 97)

/-! ## `sendto` and `recvfrom` of the netlink interposer -/

namespace NetlinkIntercept

/-- Hook `sendto(sockfd, buf, len, flags, dest_addr, addrlen)`: the value of the
real `sendto`, called with the same arguments. The result is `none` when
`is_netlink_fd[sockfd]` is evaluated outside the array. -/
def sendto (real_sendto : Int → List Nat → Nat → Int → Option sockaddr_nl → Nat → Int)
    (is_netlink_fd : Nat → Int) (sockfd : Int) (buf : List Nat) (len : Nat) (flags : Int)
    (dest_addr : Option sockaddr_nl) (addrlen : Nat) : Option Int :=
  if sockfd < 1024 then
    match is_netlink_fd_at is_netlink_fd sockfd with
    | none => none
    | some _ => some (real_sendto sockfd buf len flags dest_addr addrlen)
  else some (real_sendto sockfd buf len flags dest_addr addrlen)

/-- Hook `recvfrom(sockfd, buf, len, flags, src_addr, addrlen)`: the value of
the real `recvfrom` and the bytes it received. The result is `none` when
`is_netlink_fd[sockfd]` is evaluated outside the array. -/
def recvfrom (real_recvfrom : Int → Nat → Int → Int × List Nat) (is_netlink_fd : Nat → Int)
    (sockfd : Int) (len : Nat) (flags : Int) : Option (Int × List Nat) :=
  if sockfd < 1024 then
    match is_netlink_fd_at is_netlink_fd sockfd with
    | none => none
    | some flag =>
      if flag ≠ 0 then
        let result := real_recvfrom sockfd len flags
        some result
      else some (real_recvfrom sockfd len flags)
  else some (real_recvfrom sockfd len flags)

end NetlinkIntercept
/-! ## Lemmas on byte ranges -/

theorem bytes_from_length (f : Nat → Nat) (a n : Nat) : (bytes_from f a n).length = n := by
  induction n generalizing a with
  | zero => rfl
  | succ n ih => simp [bytes_from, ih]

theorem bytes_from_add (f : Nat → Nat) (a m n : Nat) :
    bytes_from f a (m + n) = bytes_from f a m ++ bytes_from f (a + m) n := by
  induction m generalizing a with
  | zero => simp [bytes_from]
  | succ m ih =>
    have h : m + 1 + n = (m + n) + 1 := by omega
    rw [h]
    simp only [bytes_from, List.cons_append, ih]
    congr 2
    congr 1
    omega

theorem bytes_from_getD (f : Nat → Nat) (a n k : Nat) (h : k < n) :
    (bytes_from f a n).getD k 0 = f (a + k) := by
  induction n generalizing a k with
  | zero => omega
  | succ n ih =>
    cases k with
    | zero => simp [bytes_from]
    | succ k =>
      simp only [bytes_from, List.getD_cons_succ]
      rw [ih (a + 1) k (by omega)]
      congr 1
      omega

theorem bytes_from_congr (f g : Nat → Nat) (a n : Nat)
    (h : ∀ x, a ≤ x → x < a + n → f x = g x) : bytes_from f a n = bytes_from g a n := by
  induction n generalizing a with
  | zero => rfl
  | succ n ih =>
    simp only [bytes_from]
    rw [h a (by omega) (by omega), ih (a + 1) (fun x h1 h2 => h x (by omega) (by omega))]

theorem bytes_from_take (f : Nat → Nat) (a n m : Nat) (h : m ≤ n) :
    (bytes_from f a n).take m = bytes_from f a m := by
  obtain ⟨d, rfl⟩ : ∃ d, n = m + d := ⟨n - m, by omega⟩
  rw [bytes_from_add, List.take_append_of_le_length (by simp [bytes_from_length])]
  rw [List.take_of_length_le (by simp [bytes_from_length])]

theorem bytes_from_split8 (f : Nat → Nat) (a m : Nat) :
    bytes_from f a m = (bytes_from f a 8).take m ++ bytes_from f (a + 8) (m - 8) := by
  by_cases h : m ≤ 8
  · rw [bytes_from_take f a 8 m h]
    have : m - 8 = 0 := by omega
    simp [this, bytes_from]
  · have h8 : m = 8 + (m - 8) := by omega
    rw [List.take_of_length_le (by simp [bytes_from_length]; omega)]
    conv_lhs => rw [h8]
    rw [bytes_from_add]

theorem bytes_from_getElem (f : Nat → Nat) (a n k : Nat) (h : k < (bytes_from f a n).length) :
    (bytes_from f a n)[k] = f (a + k) := by
  have hk : k < n := by simpa [bytes_from_length] using h
  have := bytes_from_getD f a n k hk
  rw [List.getD_eq_getElem _ _ h] at this
  exact this

theorem bytes_from_list (l : List Nat) (n : Nat) (h : n = l.length) :
    bytes_from (fun k => l.getD k 0) 0 n = l := by
  subst h
  apply List.ext_getElem
  · simp [bytes_from_length]
  · intro k h1 h2
    rw [bytes_from_getElem, Nat.zero_add, List.getD_eq_getElem _ _ h2]

theorem range_ok_iff (ok : Nat → Bool) (a n : Nat) :
    range_ok ok a n = true ↔ ∀ x, a ≤ x → x < a + n → ok x = true := by
  induction n generalizing a with
  | zero => simp [range_ok]; intro x h1 h2; omega
  | succ n ih =>
    simp only [range_ok, Bool.and_eq_true, ih]
    constructor
    · rintro ⟨h0, h1⟩ x hx1 hx2
      by_cases hx : x = a
      · subst hx; exact h0
      · exact h1 x (by omega) (by omega)
    · intro h
      exact ⟨h a (by omega) (by omega), fun x h1 h2 => h x (by omega) (by omega)⟩

theorem range_ok_sub (ok : Nat → Bool) (a n b m : Nat) (h : range_ok ok a n = true)
    (h1 : a ≤ b) (h2 : b + m ≤ a + n) : range_ok ok b m = true := by
  rw [range_ok_iff] at h ⊢
  intro x hx1 hx2
  exact h x (by omega) (by omega)

/-! ## Lemmas on C strings -/

theorem find_nul_none (l : List Nat) : find_nul l = none ↔ ∀ b ∈ l, b ≠ 0 := by
  induction l with
  | nil => simp [find_nul]
  | cons b bs ih =>
    by_cases hb : b = 0
    · simp [find_nul, hb]
    · simp [find_nul, hb, ih]

theorem c_string_of_no_nul (l r : List Nat) (h : ∀ b ∈ l, b ≠ 0) :
    c_string (l ++ r) = l ++ c_string r := by
  induction l with
  | nil => rfl
  | cons b bs ih =>
    have hb : b ≠ 0 := h b (by simp)
    have := ih (fun c hc => h c (by simp [hc]))
    simp only [c_string] at this ⊢
    simp [List.takeWhile_cons, hb, this]

theorem c_string_of_find_nul (l r : List Nat) (j : Nat) (h : find_nul l = some j) :
    c_string (l ++ r) = l.take j ∧ j < l.length := by
  induction l generalizing j with
  | nil => simp [find_nul] at h
  | cons b bs ih =>
    by_cases hb : b = 0
    · simp [find_nul, hb] at h
      subst h
      simp [c_string, List.takeWhile_cons, hb]
    · simp only [find_nul, hb, if_false, Option.map_eq_some'] at h
      obtain ⟨k, hk, rfl⟩ := h
      have := ih k hk
      simp only [c_string] at this ⊢
      simp [List.takeWhile_cons, hb, this.1, this.2]

theorem c_string_terminated (s r : List Nat) (h : ∀ b ∈ s, b ≠ 0) :
    c_string (s ++ 0 :: r) = s := by
  rw [c_string_of_no_nul s _ h]
  simp [c_string]

theorem c_string_no_nul (l : List Nat) : ∀ b ∈ c_string l, b ≠ 0 := by
  intro b hb
  have := List.mem_takeWhile_imp hb
  simpa using this

theorem c_string_length_le (l : List Nat) : (c_string l).length ≤ l.length := by
  unfold c_string
  exact (List.takeWhile_sublist _).length_le

/-! ## Lemmas on the word-wise readers and writers -/

theorem peekdata_of_readable (t : Tracee) (a : Nat) (h : range_ok t.readable a 8 = true) :
    peekdata t a = some (bytes_from t.byte a 8) := by
  simp [peekdata, h]

theorem peekdata_eq_some (t : Tracee) (a : Nat) (w : List Nat) (h : peekdata t a = some w) :
    w = bytes_from t.byte a 8 := by
  unfold peekdata at h
  split at h
  · exact (Option.some.inj h).symm
  · exact absurd h (by simp)

/-- The string reader of the statfs supervisor returns the C string found at
`addr`, cut to `maxlen - 1` bytes, provided each word is readable that it
reaches without having met a zero byte. -/
theorem EnhancedStatfs.read_string_from_tracee_loop_eq (t : Tracee) (addr maxlen : Nat) :
    ∀ (n i : Nat) (str : List Nat), str.length = i → i ≤ maxlen - 1 →
      n = (maxlen - 1 - i + 7) / 8 →
      (∀ k, k < n → (∀ b ∈ bytes_from t.byte (addr + i) (8 * k), b ≠ 0) →
        range_ok t.readable (addr + i + 8 * k) 8 = true) →
      EnhancedStatfs.read_string_loop t addr maxlen n i str
        = some (str ++ c_string (bytes_from t.byte (addr + i) (maxlen - 1 - i))) := by
  intro n
  induction n with
  | zero =>
    intro i str hlen hi hn _
    have h0 : maxlen - 1 - i = 0 := by omega
    have h1 : str.length ≤ maxlen - 1 := by omega
    simp only [EnhancedStatfs.read_string_loop, h0, bytes_from, c_string, List.takeWhile_nil,
      List.append_nil]
    rw [List.take_of_length_le (by omega)]
  | succ n ih =>
    intro i str hlen hi hn hread
    have hr0 := hread 0 (by omega) (by simp [bytes_from])
    simp only [Nat.mul_zero, Nat.add_zero] at hr0
    simp only [EnhancedStatfs.read_string_loop, peekdata_of_readable t _ hr0]
    rw [bytes_from_split8 t.byte (addr + i) (maxlen - 1 - i)]
    cases hf : find_nul ((bytes_from t.byte (addr + i) 8).take (maxlen - 1 - i)) with
    | some j =>
      obtain ⟨h1, h2⟩ := c_string_of_find_nul _
        (bytes_from t.byte (addr + i + 8) (maxlen - 1 - i - 8)) j hf
      simp only [h1, List.take_take]
      have : min j (maxlen - 1 - i) = j := by
        simp only [List.length_take, bytes_from_length] at h2
        omega
      rw [this]
    | none =>
      have hnn := (find_nul_none _).1 hf
      simp only [c_string_of_no_nul _ _ hnn]
      by_cases hm : maxlen - 1 - i ≤ 8
      · have hn0 : n = 0 := by omega
        subst hn0
        have h0 : maxlen - 1 - i - 8 = 0 := by omega
        simp only [EnhancedStatfs.read_string_loop, h0, bytes_from, c_string,
          List.takeWhile_nil, List.append_nil]
        rw [List.take_append_eq_append_take, List.take_of_length_le (by omega)]
        simp [hlen]
      · have hfull : (bytes_from t.byte (addr + i) 8).take (maxlen - 1 - i)
            = bytes_from t.byte (addr + i) 8 :=
          List.take_of_length_le (by simp [bytes_from_length]; omega)
        rw [hfull] at hnn ⊢
        have := ih (i + 8) (str ++ bytes_from t.byte (addr + i) 8)
          (by simp [bytes_from_length, hlen]) (by omega) (by omega)
          (by
            intro k hk hb
            have := hread (k + 1) (by omega) (by
              have e : 8 * (k + 1) = 8 + 8 * k := by omega
              rw [e, bytes_from_add]
              intro b hb'
              rcases List.mem_append.1 hb' with h | h
              · exact hnn b h
              · exact hb b (by simpa [Nat.add_assoc] using h))
            have e2 : addr + i + 8 * (k + 1) = addr + (i + 8) + 8 * k := by omega
            rw [← e2]; exact this)
        have e3 : addr + (i + 8) = addr + i + 8 := by omega
        have e4 : maxlen - 1 - (i + 8) = maxlen - 1 - i - 8 := by omega
        rw [this, e3, e4, List.append_assoc]

theorem pokedata_fst (t : Tracee) (a : Nat) (w : List Nat) :
    (pokedata t a w).1 = range_ok t.writable a 8 := by
  unfold pokedata; split <;> simp_all

theorem pokedata_writable (t : Tracee) (a : Nat) (w : List Nat) :
    (pokedata t a w).2.writable = t.writable := by
  unfold pokedata; split <;> rfl

theorem pokedata_readable (t : Tracee) (a : Nat) (w : List Nat) :
    (pokedata t a w).2.readable = t.readable := by
  unfold pokedata; split <;> rfl

theorem pokedata_byte_outside (t : Tracee) (a : Nat) (w : List Nat) (x : Nat)
    (h : ¬ (a ≤ x ∧ x < a + 8)) : (pokedata t a w).2.byte x = t.byte x := by
  unfold pokedata; split
  · simp [h]
  · rfl

theorem pokedata_byte_ok (t : Tracee) (a : Nat) (w : List Nat) (x : Nat)
    (h : range_ok t.writable a 8 = true) :
    (pokedata t a w).2.byte x = if a ≤ x ∧ x < a + 8 then w.getD (x - a) 0 else t.byte x := by
  simp [pokedata, h]

theorem pokedata_fail (t : Tracee) (a : Nat) (w : List Nat)
    (h : range_ok t.writable a 8 = false) :
    pokedata t a w = (false, { t with pokes := t.pokes ++ [a] }) := by
  simp [pokedata, h]

theorem write_loop_step (addr : Nat) (src : List Nat) (n i : Nat) (t : Tracee) :
    write_loop addr src (n + 1) i t =
      if (pokedata t (addr + i) (word_at src i)).1 then
        write_loop addr src n (i + 8) (pokedata t (addr + i) (word_at src i)).2
      else (false, (pokedata t (addr + i) (word_at src i)).2) := by
  simp only [write_loop]
  rcases hp : pokedata t (addr + i) (word_at src i) with ⟨b, t1⟩
  cases b <;> simp

theorem write_loop_writable (addr : Nat) (src : List Nat) :
    ∀ (n i : Nat) (t : Tracee), (write_loop addr src n i t).2.writable = t.writable := by
  intro n
  induction n with
  | zero => intro i t; rfl
  | succ n ih =>
    intro i t
    rw [write_loop_step]
    split
    · rw [ih, pokedata_writable]
    · exact pokedata_writable _ _ _

theorem write_loop_readable (addr : Nat) (src : List Nat) :
    ∀ (n i : Nat) (t : Tracee), (write_loop addr src n i t).2.readable = t.readable := by
  intro n
  induction n with
  | zero => intro i t; rfl
  | succ n ih =>
    intro i t
    rw [write_loop_step]
    split
    · rw [ih, pokedata_readable]
    · exact pokedata_readable _ _ _

/-- A word-wise write changes no byte outside the words it covers. -/
theorem write_loop_byte_outside (addr : Nat) (src : List Nat) :
    ∀ (n i : Nat) (t : Tracee) (x : Nat), ¬ (addr + i ≤ x ∧ x < addr + i + 8 * n) →
      (write_loop addr src n i t).2.byte x = t.byte x := by
  intro n
  induction n with
  | zero => intro i t x _; rfl
  | succ n ih =>
    intro i t x hx
    rw [write_loop_step]
    split
    · rw [ih (i + 8) _ x (by omega), pokedata_byte_outside _ _ _ _ (by omega)]
    · exact pokedata_byte_outside _ _ _ _ (by omega)

theorem word_at_getD (src : List Nat) (i k : Nat) (h : k < 8) :
    (word_at src i).getD k 0 = src.getD (i + k) 0 := by
  unfold word_at
  rw [bytes_from_getD _ _ _ _ h]

/-- A word-wise write whose words are all writable succeeds and leaves the
source bytes, zero-padded to whole words, at the address. -/
theorem write_loop_ok (addr : Nat) (src : List Nat) :
    ∀ (n i : Nat) (t : Tracee), range_ok t.writable (addr + i) (8 * n) = true →
      (write_loop addr src n i t).1 = true ∧
      ∀ x, (write_loop addr src n i t).2.byte x =
        if addr + i ≤ x ∧ x < addr + i + 8 * n then src.getD (x - addr) 0 else t.byte x := by
  intro n
  induction n with
  | zero =>
    intro i t _
    refine ⟨rfl, fun x => ?_⟩
    have c : ¬ (addr + i ≤ x ∧ x < addr + i + 8 * 0) := by omega
    rw [if_neg c]
    rfl
  | succ n ih =>
    intro i t hw
    have hw0 : range_ok t.writable (addr + i) 8 = true :=
      range_ok_sub _ _ _ _ _ hw (by omega) (by omega)
    have hw1 : range_ok (pokedata t (addr + i) (word_at src i)).2.writable
        (addr + (i + 8)) (8 * n) = true := by
      rw [pokedata_writable]
      exact range_ok_sub _ _ _ _ _ hw (by omega) (by omega)
    rw [write_loop_step, pokedata_fst, hw0]
    simp only [if_true]
    obtain ⟨h1, h2⟩ := ih (i + 8) _ hw1
    refine ⟨h1, fun x => ?_⟩
    rw [h2 x, pokedata_byte_ok _ _ _ _ hw0]
    by_cases c1 : addr + (i + 8) ≤ x ∧ x < addr + (i + 8) + 8 * n
    · have c2 : addr + i ≤ x ∧ x < addr + i + 8 * (n + 1) := by omega
      simp [c1, c2]
    · by_cases c3 : addr + i ≤ x ∧ x < addr + i + 8
      · have c2 : addr + i ≤ x ∧ x < addr + i + 8 * (n + 1) := by omega
        have e : i + (x - (addr + i)) = x - addr := by omega
        rw [if_neg c1, if_pos c3, if_pos c2, word_at_getD _ _ _ (by omega), e]
      · have c2 : ¬ (addr + i ≤ x ∧ x < addr + i + 8 * (n + 1)) := by omega
        simp [c1, c2, c3]

/-- After a word-wise write whose words are all writable, the memory at the
address holds the source bytes. -/
theorem write_loop_bytes (addr : Nat) (src : List Nat) (n : Nat) (t : Tracee)
    (hw : range_ok t.writable addr (8 * n) = true) (hn : src.length ≤ 8 * n) :
    bytes_from (write_loop addr src n 0 t).2.byte addr src.length = src := by
  obtain ⟨_, h2⟩ := write_loop_ok addr src n 0 t (by simpa using hw)
  rw [bytes_from_congr _ (fun x => src.getD (x - addr) 0) addr src.length
    (fun x h1 h2' => by rw [h2 x]; simp; intro h; omega)]
  apply List.ext_getElem
  · simp [bytes_from_length]
  · intro k h1 h3
    rw [bytes_from_getElem]
    have e : addr + k - addr = k := by omega
    simp only [e]
    exact List.getD_eq_getElem _ _ h3

theorem EnhancedStatfs.read_memory_loop_eq (t : Tracee) (addr len : Nat) :
    ∀ (n i : Nat) (buf : List Nat), n = (len - i + 7) / 8 →
      EnhancedStatfs.read_memory_loop t addr len n i buf =
        if range_ok t.readable (addr + i) (8 * n) then
          some (buf ++ bytes_from t.byte (addr + i) (len - i))
        else none := by
  intro n
  induction n with
  | zero =>
    intro i buf hn
    have : len - i = 0 := by omega
    simp [EnhancedStatfs.read_memory_loop, range_ok, this, bytes_from]
  | succ n ih =>
    intro i buf hn
    simp only [EnhancedStatfs.read_memory_loop]
    by_cases hr : range_ok t.readable (addr + i) 8 = true
    · rw [peekdata_of_readable _ _ hr]
      simp only []
      rw [ih (i + 8) _ (by omega)]
      have e1 : addr + (i + 8) = addr + i + 8 := by omega
      have e2 : len - (i + 8) = len - i - 8 := by omega
      by_cases hr2 : range_ok t.readable (addr + i + 8) (8 * n) = true
      · have hall : range_ok t.readable (addr + i) (8 * (n + 1)) = true := by
          rw [range_ok_iff] at hr hr2 ⊢
          intro x h1 h2
          by_cases hx : x < addr + i + 8
          · exact hr x h1 hx
          · exact hr2 x (by omega) (by omega)
        rw [e1, e2, hr2, hall]
        simp only [if_true, List.append_assoc]
        rw [← bytes_from_split8]
      · have hall : ¬ range_ok t.readable (addr + i) (8 * (n + 1)) = true := by
          intro h
          exact hr2 (range_ok_sub _ _ _ _ _ h (by omega) (by omega))
        rw [e1, if_neg hr2, if_neg hall]
    · have hall : ¬ range_ok t.readable (addr + i) (8 * (n + 1)) = true := by
        intro h
        exact hr (range_ok_sub _ _ _ _ _ h (by omega) (by omega))
      simp [peekdata, hr, hall]

theorem EnhancedStatfs.read_memory_eq (t : Tracee) (addr len : Nat) :
    EnhancedStatfs.read_memory t addr len =
      if range_ok t.readable addr (8 * ((len + 7) / 8)) then some (bytes_from t.byte addr len)
      else none := by
  unfold EnhancedStatfs.read_memory
  rw [EnhancedStatfs.read_memory_loop_eq t addr len _ 0 [] (by simp)]
  simp

theorem find_nul_take_lt (l : List Nat) (j m : Nat) (h : find_nul l = some j) (hj : j < m) :
    find_nul (l.take m) = some j := by
  induction l generalizing j m with
  | nil => simp [find_nul] at h
  | cons b bs ih =>
    obtain ⟨m, rfl⟩ : ∃ m', m = m' + 1 := ⟨m - 1, by omega⟩
    by_cases hb : b = 0
    · simp [find_nul, hb] at h ⊢
      exact h
    · simp only [find_nul, hb, if_false, Option.map_eq_some'] at h
      obtain ⟨k, hk, rfl⟩ := h
      simp [find_nul, hb, ih k m hk (by omega)]

theorem find_nul_take_ge (l : List Nat) (j m : Nat) (h : find_nul l = some j) (hj : m ≤ j) :
    find_nul (l.take m) = none := by
  induction l generalizing j m with
  | nil => simp [find_nul] at h
  | cons b bs ih =>
    cases m with
    | zero => simp [find_nul]
    | succ m =>
      by_cases hb : b = 0
      · simp [find_nul, hb] at h
        omega
      · simp only [find_nul, hb, if_false, Option.map_eq_some'] at h
        obtain ⟨k, hk, rfl⟩ := h
        simp [find_nul, hb, ih k m hk (by omega)]

theorem find_nul_lt (l : List Nat) (j : Nat) (h : find_nul l = some j) : j < l.length :=
  (c_string_of_find_nul l [] j h).2

/-- The string reader of the fork-following supervisors returns the C string
found at `addr`, cut to `MAX_STRING - 1` bytes, provided each word is readable
that it reaches without having met a zero byte. -/
theorem read_string_loop_eq (t : Tracee) (addr : Nat) :
    ∀ (n i : Nat) (str : List Nat), str.length = i → i ≤ MAX_STRING - 1 → i % 8 = 0 →
      n = (MAX_STRING - 1 - i + 7) / 8 →
      (∀ k, k < n → (∀ b ∈ bytes_from t.byte (addr + i) (8 * k), b ≠ 0) →
        range_ok t.readable (addr + i + 8 * k) 8 = true) →
      read_string_loop t addr n i str
        = some (str ++ c_string (bytes_from t.byte (addr + i) (MAX_STRING - 1 - i))) := by
  intro n
  induction n with
  | zero =>
    intro i str hlen hi _ hn _
    have h0 : MAX_STRING - 1 - i = 0 := by omega
    have h1 : str.length ≤ MAX_STRING - 1 := by omega
    simp only [read_string_loop, h0, bytes_from, c_string, List.takeWhile_nil,
      List.append_nil]
    rw [List.take_of_length_le (by omega)]
  | succ n ih =>
    intro i str hlen hi hi8 hn hread
    have hr0 := hread 0 (by omega) (by simp [bytes_from])
    simp only [Nat.mul_zero, Nat.add_zero] at hr0
    simp only [read_string_loop, peekdata_of_readable t _ hr0]
    have hM : MAX_STRING = 4096 := rfl
    rw [bytes_from_split8 t.byte (addr + i) (MAX_STRING - 1 - i)]
    cases hf : find_nul (bytes_from t.byte (addr + i) 8) with
    | some j =>
      have hj8 : j < 8 := by
        have := find_nul_lt _ _ hf
        simpa [bytes_from_length] using this
      simp only []
      by_cases hjm : j < MAX_STRING - 1 - i
      · have hf2 := find_nul_take_lt _ j (MAX_STRING - 1 - i) hf hjm
        obtain ⟨h1, _⟩ := c_string_of_find_nul _
          (bytes_from t.byte (addr + i + 8) (MAX_STRING - 1 - i - 8)) j hf2
        rw [h1, List.take_take]
        have : min j (MAX_STRING - 1 - i) = j := by omega
        rw [this]
      · have hf2 := find_nul_take_ge _ j (MAX_STRING - 1 - i) hf (by omega)
        have hnn := (find_nul_none _).1 hf2
        have h0 : MAX_STRING - 1 - i - 8 = 0 := by omega
        have hjeq : MAX_STRING - 1 - i = j := by omega
        rw [c_string_of_no_nul _ _ hnn, h0]
        simp [bytes_from, c_string, hjeq]
    | none =>
      have hnn := (find_nul_none _).1 hf
      simp only []
      by_cases hm : MAX_STRING - 1 - i ≤ 8
      · have hn0 : n = 0 := by omega
        subst hn0
        have h0 : MAX_STRING - 1 - i - 8 = 0 := by omega
        have hnn2 : ∀ b ∈ (bytes_from t.byte (addr + i) 8).take (MAX_STRING - 1 - i), b ≠ 0 :=
          fun b hb => hnn b (List.mem_of_mem_take hb)
        rw [c_string_of_no_nul _ _ hnn2]
        simp only [read_string_loop, h0, bytes_from, c_string,
          List.takeWhile_nil, List.append_nil]
        rw [List.take_append_eq_append_take, List.take_of_length_le (by omega)]
        simp [hlen]
      · have hfull : (bytes_from t.byte (addr + i) 8).take (MAX_STRING - 1 - i)
            = bytes_from t.byte (addr + i) 8 :=
          List.take_of_length_le (by simp [bytes_from_length]; omega)
        rw [hfull, c_string_of_no_nul _ _ hnn]
        have := ih (i + 8) (str ++ bytes_from t.byte (addr + i) 8)
          (by simp [bytes_from_length, hlen]) (by omega) (by omega) (by omega)
          (by
            intro k hk hb
            have := hread (k + 1) (by omega) (by
              have e : 8 * (k + 1) = 8 + 8 * k := by omega
              rw [e, bytes_from_add]
              intro b hb'
              rcases List.mem_append.1 hb' with h | h
              · exact hnn b h
              · exact hb b (by simpa [Nat.add_assoc] using h))
            have e2 : addr + i + 8 * (k + 1) = addr + (i + 8) + 8 * k := by omega
            rw [← e2]; exact this)
        have e3 : addr + (i + 8) = addr + i + 8 := by omega
        have e4 : MAX_STRING - 1 - (i + 8) = MAX_STRING - 1 - i - 8 := by omega
        rw [this, e3, e4, List.append_assoc]

/-! ## Phase tracking of the statfs supervisor -/

theorem EnhancedStatfs.phase_of_count_succ (k : Nat) :
    phase_of_count (k + 1) =
      if phase_of_count k = syscall_state_t.SYSCALL_ENTRY then syscall_state_t.SYSCALL_EXIT
      else syscall_state_t.SYSCALL_ENTRY := by
  unfold phase_of_count
  rcases Nat.mod_two_eq_zero_or_one k with h | h
  · have : (k + 1) % 2 = 1 := by omega
    simp [h, this]
  · have : (k + 1) % 2 = 0 := by omega
    simp [h, this]

theorem EnhancedStatfs.phaseInv_snoc (s : MainState) (c : syscall_state_t) (t : Tracee)
    (h : PhaseInv s)
    (hc : c = if s.current_state = syscall_state_t.SYSCALL_ENTRY
      then syscall_state_t.SYSCALL_EXIT else syscall_state_t.SYSCALL_ENTRY) :
    PhaseInv { current_state := c, tracee := t, seen := s.seen ++ [s.current_state] } := by
  obtain ⟨h1, h2⟩ := h
  refine ⟨?_, ?_⟩
  · simp only [List.length_append, List.length_singleton]
    rw [phase_of_count_succ, ← h1, hc]
  · intro k hk
    simp only [List.length_append, List.length_singleton] at hk
    by_cases hk2 : k < s.seen.length
    · rw [List.getElem?_append_left hk2]
      exact h2 k hk2
    · have : k = s.seen.length := by omega
      subst this
      simp [h1]

/-- As long as every `PTRACE_GETREGS` at a syscall-stop succeeds, an iteration of
the loop keeps the flag equal to the parity of the syscall-stops met. -/
theorem EnhancedStatfs.main_iteration_phaseInv (s s1 : MainState) (ev : LoopEvent)
    (hg : ev.getregs ≠ none) (h : PhaseInv s) (hs : main_iteration s ev = some s1) :
    PhaseInv s1 := by
  unfold main_iteration at hs
  split at hs
  · exact absurd hs (by simp)
  split at hs
  · exact absurd hs (by simp)
  split at hs
  · exact absurd hs (by simp)
  split at hs
  · exact absurd hs (by simp)
  split at hs
  · exact absurd hs (by simp)
  split at hs
  · cases hr : ev.getregs with
    | none => exact absurd hr hg
    | some regs =>
      simp only [hr] at hs
      split at hs
      · rename_i he
        cases Option.some.inj hs
        exact phaseInv_snoc s _ _ h (by simp [he])
      · rename_i he
        cases Option.some.inj hs
        exact phaseInv_snoc s _ _ h (by simp [he])
  · split at hs
    · split at hs
      · cases Option.some.inj hs; exact h
      · exact absurd hs (by simp)
    · cases Option.some.inj hs; exact h

/-- With every register read succeeding, the flag seen at each syscall-stop is
Entry after an even number of earlier syscall-stops and Exit after an odd
number. -/
theorem EnhancedStatfs.main_loop_phase_parity (evs : List LoopEvent) (t : Tracee)
    (hg : ∀ ev ∈ evs, ev.getregs ≠ none) (k : Nat)
    (hk : k < (main_loop evs (main_init t)).seen.length) :
    (main_loop evs (main_init t)).seen[k]? = some (phase_of_count k) := by
  have key : ∀ (evs : List LoopEvent) (s : MainState), (∀ ev ∈ evs, ev.getregs ≠ none) →
      PhaseInv s → PhaseInv (main_loop evs s) := by
    intro evs
    induction evs with
    | nil => intro s _ h; exact h
    | cons ev rest ih =>
      intro s hg h
      simp only [main_loop]
      cases hs : main_iteration s ev with
      | none => exact h
      | some s1 =>
        exact ih s1 (fun e he => hg e (by simp [he]))
          (main_iteration_phaseInv s s1 ev (hg ev (by simp)) h hs)
  exact (key evs (main_init t) hg ⟨rfl, fun k hk => by simp [main_init] at hk⟩).2 k hk

/-- An iteration that does not leave the loop has resumed the tracee. -/
theorem EnhancedStatfs.main_iteration_resumed (s s1 : MainState) (ev : LoopEvent)
    (hs : main_iteration s ev = some s1) : ev.resume_ok = true := by
  unfold main_iteration at hs
  split at hs
  · exact absurd hs (by simp)
  split at hs
  · exact absurd hs (by simp)
  · rename_i h
    simpa using h

/-- An iteration in which `PTRACE_GETREGS` fails: at a syscall-stop the flag is
recorded and not toggled; any other iteration leaves the state as it was. -/
theorem EnhancedStatfs.main_iteration_getregs_failed (s s1 : MainState) (ev : LoopEvent)
    (hg : ev.getregs = none) (hs : main_iteration s ev = some s1) :
    (s1.seen = s.seen ++ [s.current_state]
      ∧ (WIFSTOPPED ev.status && WSTOPSIG ev.status == SIGTRAP ||| 0x80) = true)
    ∨ s1 = s := by
  unfold main_iteration at hs
  split at hs
  · exact absurd hs (by simp)
  split at hs
  · exact absurd hs (by simp)
  split at hs
  · exact absurd hs (by simp)
  split at hs
  · exact absurd hs (by simp)
  split at hs
  · exact absurd hs (by simp)
  split at hs
  · rename_i hstop
    simp only [hg] at hs
    cases Option.some.inj hs
    exact Or.inl ⟨rfl, hstop⟩
  · split at hs
    · split at hs
      · cases Option.some.inj hs; exact Or.inr rfl
      · exact absurd hs (by simp)
    · cases Option.some.inj hs; exact Or.inr rfl

theorem EnhancedStatfs.getregs_failure_is_final_tail (ev : LoopEvent) (rest : List LoopEvent)
    (h : getregs_failure_is_final (ev :: rest) = true) : getregs_failure_is_final rest = true := by
  simp only [getregs_failure_is_final, Bool.and_eq_true] at h
  exact h.2

/-- The flags seen stay in step with the number of syscall-stops met, from any
state in which they are, when either the flag itself is in step or the next
resume fails. -/
theorem EnhancedStatfs.main_loop_seen_parity :
    ∀ (evs : List LoopEvent) (s : MainState), getregs_failure_is_final evs = true →
      (∀ k, k < s.seen.length → s.seen[k]? = some (phase_of_count k)) →
      (s.current_state = phase_of_count s.seen.length
        ∨ ∀ ev rest, evs = ev :: rest → ev.resume_ok = false) →
      ∀ k, k < (main_loop evs s).seen.length →
        (main_loop evs s).seen[k]? = some (phase_of_count k) := by
  intro evs
  induction evs with
  | nil => intro s _ h _; exact h
  | cons ev rest ih =>
    intro s hfin hseen hcur
    simp only [main_loop]
    cases hs : main_iteration s ev with
    | none => exact hseen
    | some s1 =>
      have hres := main_iteration_resumed s s1 ev hs
      have hc : s.current_state = phase_of_count s.seen.length := by
        rcases hcur with h | h
        · exact h
        · have := h ev rest rfl
          rw [hres] at this
          exact absurd this (by simp)
      have hinv : PhaseInv s := ⟨hc, hseen⟩
      have hfin2 := getregs_failure_is_final_tail ev rest hfin
      cases hg : ev.getregs with
      | some regs =>
        have h1 := main_iteration_phaseInv s s1 ev (by simp [hg]) hinv hs
        exact ih s1 hfin2 h1.2 (Or.inl h1.1)
      | none =>
        rcases main_iteration_getregs_failed s s1 ev hg hs with ⟨h1, hstop⟩ | h1
        · refine ih s1 hfin2 ?_ (Or.inr ?_)
          · rw [h1]
            exact (phaseInv_snoc s _ s.tracee hinv rfl).2
          · intro ev1 rest1 hrest
            subst hrest
            simp only [getregs_failure_is_final, Bool.and_eq_true, Bool.or_eq_true,
              Bool.not_eq_true', hstop, hg, Option.isSome_none, Bool.not_true,
              Bool.false_eq_true, false_or] at hfin
            exact hfin.1
        · rw [h1]
          exact ih s hfin2 hseen (Or.inl hc)

/-- C1: in the main loop of `enhanced_ptrace_interceptor.c`, for every sequence
of stops of the traced process, the phase flag seen at a syscall-stop is Entry
when the number of syscall-stops before it is even and Exit when it is odd. The
events are those ptrace(2) can deliver: a failed `PTRACE_GETREGS` means that the
tracee is gone, so the resume of the next iteration fails too; runs in which
every register read succeeds are the particular case. -/
theorem C1_phase_flag_follows_parity (evs : List EnhancedStatfs.LoopEvent) (t : Tracee)
    (hfinal : EnhancedStatfs.getregs_failure_is_final evs = true) (k : Nat)
    (hk : k < (EnhancedStatfs.main_loop evs (EnhancedStatfs.main_init t)).seen.length) :
    (EnhancedStatfs.main_loop evs (EnhancedStatfs.main_init t)).seen[k]?
      = some (EnhancedStatfs.phase_of_count k) :=
  EnhancedStatfs.main_loop_seen_parity evs (EnhancedStatfs.main_init t) hfinal
    (fun k hk => by simp [EnhancedStatfs.main_init] at hk) (Or.inl rfl) k hk

set_option maxRecDepth 100000 in
/-- Witness of C1: the entry and the exit of a `statfs` call, the tracee killed
during the exit stop; the second syscall-stop sees the flag Exit. -/
theorem C1_phase_flag_follows_parity_witness :
    EnhancedStatfs.getregs_failure_is_final EnhancedStatfs.killed_tracee_run = true
    ∧ (EnhancedStatfs.main_loop EnhancedStatfs.killed_tracee_run
        (EnhancedStatfs.main_init EnhancedStatfs.blank_tracee)).seen[1]?
      = some EnhancedStatfs.syscall_state_t.SYSCALL_EXIT :=
  ⟨by decide,
    C1_phase_flag_follows_parity EnhancedStatfs.killed_tracee_run EnhancedStatfs.blank_tracee
      (by decide) 1 (by decide)⟩

/-! ## Path matching of the fork-following supervisors -/

theorem strstr_isSome_iff (hay needle : List Nat) :
    (strstr hay needle).isSome = true ↔ needle <:+: hay := by
  induction hay with
  | nil =>
    cases needle with
    | nil => simp [strstr]
    | cons a l => simp [strstr]
  | cons b hay ih =>
    rw [List.infix_cons_iff, ← ih]
    simp only [strstr]
    by_cases hp : needle.isPrefixOf (b :: hay) = true
    · simp [hp, List.isPrefixOf_iff_prefix.1 hp]
    · have hn : ¬ needle <+: b :: hay := fun h => hp (List.isPrefixOf_iff_prefix.2 h)
      simp [hp, hn]

theorem strstr_eq_none_iff (hay needle : List Nat) :
    strstr hay needle = none ↔ ¬ needle <:+: hay := by
  rw [← strstr_isSome_iff]
  cases strstr hay needle <;> simp

theorem strstr_none_of_longer (hay p q : List Nat) (h : ¬ p <:+: hay) :
    (strstr hay (p ++ q)).isSome = false := by
  cases hs : (strstr hay (p ++ q)).isSome with
  | false => rfl
  | true =>
    exact absurd (List.IsInfix.trans (List.infix_append' [] p q) ((strstr_isSome_iff _ _).1 hs)) h

theorem strstr_of_starts (p tail : List Nat) (hp : p ≠ []) : strstr (p ++ tail) p = some 0 := by
  cases p with
  | nil => exact absurd rfl hp
  | cons a l =>
    have : (a :: l).isPrefixOf (a :: (l ++ tail)) = true :=
      List.isPrefixOf_iff_prefix.2 (List.prefix_append (a :: l) tail)
    show strstr (a :: (l ++ tail)) (a :: l) = some 0
    simp only [strstr, this, if_true]

/-- The tracee is touched by `handle_syscall` only through a write of the
redirect target of a path that `should_redirect` accepted. -/
theorem handle_syscall_with_cases (sr : List Nat → Bool) (grt : List Nat → Nat → List Nat)
    (getregs : Option Regs) (t : Tracee) :
    handle_syscall_with sr grt getregs t = t ∨
    ∃ regs path, getregs = some regs ∧
      (regs.orig_rax = SYS_open ∨ regs.orig_rax = SYS_openat) ∧
      read_string t (if regs.orig_rax = SYS_open then regs.rdi else regs.rsi) = some path ∧
      sr path = true ∧
      handle_syscall_with sr grt getregs t =
        (write_string t (if regs.orig_rax = SYS_open then regs.rdi else regs.rsi)
          (grt path ((if regs.orig_rax = SYS_open then regs.rsi else regs.rdx) % 2 ^ 32))).2 := by
  unfold handle_syscall_with
  cases getregs with
  | none => exact Or.inl rfl
  | some regs =>
    simp only []
    split
    · exact Or.inl rfl
    · rename_i hsys
      cases hr : read_string t (if regs.orig_rax = SYS_open then regs.rdi else regs.rsi) with
      | none => exact Or.inl rfl
      | some path =>
        simp only []
        by_cases hs : sr path = true
        · refine Or.inr ⟨regs, path, rfl, ?_, hr, hs, ?_⟩
          · by_cases h1 : regs.orig_rax = SYS_open
            · exact Or.inl h1
            · by_cases h2 : regs.orig_rax = SYS_openat
              · exact Or.inr h2
              · exact absurd ⟨h1, h2⟩ hsys
          · simp [hs]
        · simp [hs]

theorem handle_syscall_with_rejected (sr : List Nat → Bool) (grt : List Nat → Nat → List Nat)
    (regs : Regs) (t : Tracee) (path : List Nat)
    (hr : read_string t (if regs.orig_rax = SYS_open then regs.rdi else regs.rsi) = some path)
    (hs : sr path = false) : handle_syscall_with sr grt (some regs) t = t := by
  rcases handle_syscall_with_cases sr grt (some regs) t with h | ⟨regs1, path1, h1, _, h3, h4, _⟩
  · exact h
  · cases Option.some.inj h1
    rw [hr] at h3
    cases Option.some.inj h3
    rw [hs] at h4
    exact absurd h4 (by simp)

theorem main_body_with_syscall_stop (hs : Option Regs → Tracee → Tracee) (w : WaitEvent)
    (hpid : 0 ≤ w.pid) (h1 : WIFSTOPPED w.status = true)
    (h2 : WSTOPSIG w.status = SIGTRAP ||| 0x80) :
    main_body_with hs w = (LoopAction.resume w.pid 0, hs w.getregs w.tracee) := by
  have h3 : w.status % 256 = 127 := by simpa [WIFSTOPPED] using h1
  have h4 : WIFEXITED w.status = false := by
    simp only [WIFEXITED, beq_eq_false_iff_ne, ne_eq]; omega
  have h5 : WIFSIGNALED w.status = false := by
    have : w.status % 128 = 127 := by omega
    simp [WIFSIGNALED, this]
  have h6 : ¬ w.pid < 0 := by omega
  simp [main_body_with, h6, h4, h5, h1, h2]

/-- C2, refuted as stated: at the syscall-exit stop of
`open("/proc/sys//proc/sys/x")` the supervisor of `ptrace_interceptor_enhanced.c`
applies the path rewrite a second time. The entry stop leaves
`/tmp/fake-procsys//proc/sys/x` in the tracee, the exit stop rewrites it to
`/tmp/fake-procsys/x`. -/
theorem C2_rewrite_applied_at_exit_stop :
    WaitRetry.nested_exit_stop.at_exit = true
    ∧ bytes_from WaitRetry.nested_exit_stop.tracee.byte 4096 30
        = cstr "/tmp/fake-procsys//proc/sys/x" ++ [0]
    ∧ bytes_from (WaitRetry.main_body WaitRetry.nested_exit_stop).2.byte 4096 30
        = cstr "/tmp/fake-procsys/x" ++ [0, 0, 0, 0, 0] ++ cstr "sys/x" ++ [0]
    ∧ bytes_from (WaitRetry.main_body WaitRetry.nested_exit_stop).2.byte 4096 30
        ≠ bytes_from WaitRetry.nested_exit_stop.tracee.byte 4096 30 := by
  refine ⟨by decide, by decide, by decide, by decide⟩

/-- C2, amended: the fork-following supervisors keep no phase flag. At every
syscall-stop, at entry and at exit alike, `main` runs `handle_syscall` and
resumes the tracee; and the stop changes the tracee only if its system call is
`open` or `openat` and the path then read from the tracee is accepted by
`should_redirect`, the change being the write of the redirect target. -/
theorem C2_rewrite_at_any_matching_stop (w : WaitEvent) (hpid : 0 ≤ w.pid)
    (h1 : WIFSTOPPED w.status = true) (h2 : WSTOPSIG w.status = SIGTRAP ||| 0x80) :
    (WaitRetry.main_body w = (LoopAction.resume w.pid 0, WaitRetry.handle_syscall w.getregs w.tracee)
      ∧ ((WaitRetry.main_body w).2 ≠ w.tracee →
          ∃ regs path, w.getregs = some regs ∧
            (regs.orig_rax = SYS_open ∨ regs.orig_rax = SYS_openat) ∧
            read_string w.tracee (if regs.orig_rax = SYS_open then regs.rdi else regs.rsi)
              = some path ∧
            WaitRetry.should_redirect path = true))
    ∧ (WorkerPtrace.main_body w
        = (LoopAction.resume w.pid 0, WorkerPtrace.handle_syscall w.getregs w.tracee)
      ∧ ((WorkerPtrace.main_body w).2 ≠ w.tracee →
          ∃ regs path, w.getregs = some regs ∧
            (regs.orig_rax = SYS_open ∨ regs.orig_rax = SYS_openat) ∧
            read_string w.tracee (if regs.orig_rax = SYS_open then regs.rdi else regs.rsi)
              = some path ∧
            WorkerPtrace.should_redirect path = true)) := by
  have e1 := main_body_with_syscall_stop WaitRetry.handle_syscall w hpid h1 h2
  have e2 := main_body_with_syscall_stop WorkerPtrace.handle_syscall w hpid h1 h2
  refine ⟨⟨e1, ?_⟩, ⟨e2, ?_⟩⟩
  · intro hne
    rcases handle_syscall_with_cases WaitRetry.should_redirect WaitRetry.get_redirect_target
      w.getregs w.tracee with h | ⟨regs, path, h3, h4, h5, h6, _⟩
    · exact absurd (by rw [WaitRetry.main_body, e1]; exact h) hne
    · exact ⟨regs, path, h3, h4, h5, h6⟩
  · intro hne
    rcases handle_syscall_with_cases WorkerPtrace.should_redirect WorkerPtrace.get_redirect_target
      w.getregs w.tracee with h | ⟨regs, path, h3, h4, h5, h6, _⟩
    · exact absurd (by rw [WorkerPtrace.main_body, e2]; exact h) hne
    · exact ⟨regs, path, h3, h4, h5, h6⟩

/-- Witness of C2 (amended): the exit stop of the nested-path `open`. -/
theorem C2_rewrite_at_any_matching_stop_witness :
    (0 : Int) ≤ WaitRetry.nested_exit_stop.pid
    ∧ WIFSTOPPED WaitRetry.nested_exit_stop.status = true
    ∧ WSTOPSIG WaitRetry.nested_exit_stop.status = SIGTRAP ||| 0x80
    ∧ WaitRetry.main_body WaitRetry.nested_exit_stop
        = (LoopAction.resume WaitRetry.nested_exit_stop.pid 0,
            WaitRetry.handle_syscall WaitRetry.nested_exit_stop.getregs
              WaitRetry.nested_exit_stop.tracee) :=
  ⟨by decide, by decide, by decide,
    (C2_rewrite_at_any_matching_stop WaitRetry.nested_exit_stop (by decide) (by decide)
      (by decide)).1.1⟩

/-- C3, refuted as stated: `/x/proc/sys/y` and `/x/proc/diskstats` begin with
none of the three source prefixes, yet `should_redirect` accepts them (it looks
for the patterns anywhere in the path, with `strstr`) and `handle_syscall`
overwrites the path. -/
theorem C3_non_prefix_path_redirected :
    (¬ cstr "/proc/sys/" <+: cstr "/x/proc/sys/y"
      ∧ ¬ cstr "/proc/diskstats" <+: cstr "/x/proc/sys/y"
      ∧ ¬ cstr "/sys/fs/cgroup/cpuacct/cpuacct.usage_percpu" <+: cstr "/x/proc/sys/y")
    ∧ WaitRetry.should_redirect (cstr "/x/proc/sys/y") = true
    ∧ bytes_from (WaitRetry.handle_syscall (some open_entry_regs)
          (tracee_at 4096 (cstr "/x/proc/sys/y" ++ List.replicate 11 0))).byte 4096 20
        = cstr "/tmp/fake-procsys/y" ++ [0]
    ∧ (¬ cstr "/proc/sys/" <+: cstr "/x/proc/diskstats"
      ∧ ¬ cstr "/proc/diskstats" <+: cstr "/x/proc/diskstats"
      ∧ ¬ cstr "/sys/fs/cgroup/cpuacct/cpuacct.usage_percpu" <+: cstr "/x/proc/diskstats")
    ∧ WorkerPtrace.should_redirect (cstr "/x/proc/diskstats") = true
    ∧ bytes_from (WorkerPtrace.handle_syscall (some open_entry_regs)
          (tracee_at 4096 (cstr "/x/proc/diskstats" ++ List.replicate 7 0))).byte 4096 20
        = cstr "/tmp/fake-diskstats" ++ [0] := by
  refine ⟨by decide, by decide, by decide, by decide, by decide, by decide⟩

/-- C3, amended: for every open/openat path that does not contain any of the
patterns `/proc/sys/`, `/proc/diskstats` and
`/sys/fs/cgroup/cpuacct/cpuacct.usage_percpu` anywhere, `should_redirect` of
both fork-following supervisors rejects the path, and `handle_syscall` leaves
the tracee unchanged and issues no write. -/
theorem C3_path_without_pattern_unchanged (path : List Nat)
    (h1 : ¬ cstr "/proc/sys/" <:+: path)
    (h2 : ¬ cstr "/proc/diskstats" <:+: path)
    (h3 : ¬ cstr "/sys/fs/cgroup/cpuacct/cpuacct.usage_percpu" <:+: path) :
    WaitRetry.should_redirect path = false
    ∧ WorkerPtrace.should_redirect path = false
    ∧ ∀ (t : Tracee) (regs : Regs),
        read_string t (if regs.orig_rax = SYS_open then regs.rdi else regs.rsi) = some path →
        WaitRetry.handle_syscall (some regs) t = t
        ∧ WorkerPtrace.handle_syscall (some regs) t = t := by
  have n1 := (strstr_eq_none_iff path _).2 h1
  have n2 := (strstr_eq_none_iff path _).2 h2
  have n3 := (strstr_eq_none_iff path _).2 h3
  have a1 : WaitRetry.should_redirect path = false := by
    simp [WaitRetry.should_redirect, n1, n2, n3]
  have k1 : (strstr path (cstr "/proc/sys/kernel/keys/")).isSome = false :=
    strstr_none_of_longer path (cstr "/proc/sys/") (cstr "kernel/keys/") h1
  have k2 : (strstr path (cstr "/proc/sys/kernel/panic")).isSome = false :=
    strstr_none_of_longer path (cstr "/proc/sys/") (cstr "kernel/panic") h1
  have k3 : (strstr path (cstr "/proc/sys/vm/panic_on_oom")).isSome = false :=
    strstr_none_of_longer path (cstr "/proc/sys/") (cstr "vm/panic_on_oom") h1
  have k4 : (strstr path (cstr "/proc/sys/vm/overcommit_memory")).isSome = false :=
    strstr_none_of_longer path (cstr "/proc/sys/") (cstr "vm/overcommit_memory") h1
  have a2 : WorkerPtrace.should_redirect path = false := by
    simp [WorkerPtrace.should_redirect, k1, k2, k3, k4, n2, n3]
  refine ⟨a1, a2, fun t regs hr => ⟨?_, ?_⟩⟩
  · exact handle_syscall_with_rejected _ _ regs t path hr a1
  · exact handle_syscall_with_rejected _ _ regs t path hr a2

/-- Witness of C3 (amended): `open("/etc/passwd", O_RDONLY)`. -/
theorem C3_path_without_pattern_unchanged_witness :
    (¬ cstr "/proc/sys/" <:+: cstr "/etc/passwd")
    ∧ (¬ cstr "/proc/diskstats" <:+: cstr "/etc/passwd")
    ∧ (¬ cstr "/sys/fs/cgroup/cpuacct/cpuacct.usage_percpu" <:+: cstr "/etc/passwd")
    ∧ WaitRetry.should_redirect (cstr "/etc/passwd") = false
    ∧ WorkerPtrace.should_redirect (cstr "/etc/passwd") = false
    ∧ WaitRetry.handle_syscall (some open_entry_regs) passwd_tracee = passwd_tracee
    ∧ WorkerPtrace.handle_syscall (some open_entry_regs) passwd_tracee = passwd_tracee :=
  ⟨by decide, by decide, by decide,
    (C3_path_without_pattern_unchanged (cstr "/etc/passwd") (by decide) (by decide)
      (by decide)).1,
    (C3_path_without_pattern_unchanged (cstr "/etc/passwd") (by decide) (by decide)
      (by decide)).2.1,
    ((C3_path_without_pattern_unchanged (cstr "/etc/passwd") (by decide) (by decide)
      (by decide)).2.2 passwd_tracee open_entry_regs (by decide)).1,
    ((C3_path_without_pattern_unchanged (cstr "/etc/passwd") (by decide) (by decide)
      (by decide)).2.2 passwd_tracee open_entry_regs (by decide)).2⟩

/-! ## Reading a terminated path, and the rewrite of `/proc/sys/` paths -/

theorem readable_words_of_terminated (t : Tracee) (addr : Nat) (s : List Nat) (n : Nat)
    (hmem : bytes_from t.byte addr (s.length + 1) = s ++ [0])
    (hr : range_ok t.readable addr (8 * (s.length / 8 + 1)) = true) :
    ∀ k, k < n → (∀ b ∈ bytes_from t.byte (addr + 0) (8 * k), b ≠ 0) →
      range_ok t.readable (addr + 0 + 8 * k) 8 = true := by
  intro k _ hb
  by_cases hk : 8 * k ≤ s.length
  · exact range_ok_sub _ _ _ _ _ hr (by omega) (by
      have : k ≤ s.length / 8 := by omega
      omega)
  · exfalso
    obtain ⟨d, hd⟩ : ∃ d, 8 * k = (s.length + 1) + d := ⟨8 * k - (s.length + 1), by omega⟩
    rw [Nat.add_zero, hd, bytes_from_add, hmem] at hb
    exact hb 0 (by simp) rfl

theorem c_string_of_terminated (t : Tracee) (addr : Nat) (s : List Nat) (m : Nat)
    (hs : ∀ b ∈ s, b ≠ 0) (hmem : bytes_from t.byte addr (s.length + 1) = s ++ [0])
    (hm : s.length < m) : c_string (bytes_from t.byte addr m) = s := by
  obtain ⟨d, hd⟩ : ∃ d, m = (s.length + 1) + d := ⟨m - (s.length + 1), by omega⟩
  rw [hd, bytes_from_add, hmem, List.append_assoc]
  exact c_string_terminated s _ hs

/-- The string reader of the statfs supervisor returns a terminated string
shorter than `maxlen - 1` as it stands in the tracee. -/
theorem EnhancedStatfs.read_string_from_tracee_terminated (t : Tracee) (addr maxlen : Nat)
    (s : List Nat) (h0 : addr ≠ 0) (hs : ∀ b ∈ s, b ≠ 0)
    (hmem : bytes_from t.byte addr (s.length + 1) = s ++ [0]) (hlen : s.length < maxlen - 1)
    (hr : range_ok t.readable addr (8 * (s.length / 8 + 1)) = true) :
    EnhancedStatfs.read_string_from_tracee t addr maxlen = some s := by
  unfold EnhancedStatfs.read_string_from_tracee
  rw [if_neg h0, EnhancedStatfs.read_string_from_tracee_loop_eq t addr maxlen _ 0 [] rfl
    (by omega) (by simp) (readable_words_of_terminated t addr s _ hmem hr)]
  simp only [List.nil_append, Nat.add_zero, Nat.sub_zero]
  rw [c_string_of_terminated t addr s _ hs hmem hlen]

/-- The string reader of the fork-following supervisors returns a terminated
string shorter than `MAX_STRING - 1` as it stands in the tracee. -/
theorem read_string_terminated (t : Tracee) (addr : Nat)
    (s : List Nat) (hs : ∀ b ∈ s, b ≠ 0)
    (hmem : bytes_from t.byte addr (s.length + 1) = s ++ [0]) (hlen : s.length < MAX_STRING - 1)
    (hr : range_ok t.readable addr (8 * (s.length / 8 + 1)) = true) :
    read_string t addr = some s := by
  unfold read_string
  rw [read_string_loop_eq t addr _ 0 [] rfl (by omega) (by simp) (by simp)
    (readable_words_of_terminated t addr s _ hmem hr)]
  simp only [List.nil_append, Nat.add_zero, Nat.sub_zero]
  rw [c_string_of_terminated t addr s _ hs hmem hlen]

theorem cstr_proc_sys_length : (cstr "/proc/sys/").length = 10 := by decide

theorem cstr_fake_procsys_length : (cstr "/tmp/fake-procsys/").length = 18 := by decide

theorem cstr_proc_sys_no_nul : ∀ b ∈ cstr "/proc/sys/", b ≠ 0 := by decide

/-- What `handle_open_entry` does once the path has been read and begins with
`/proc/sys/`. -/
theorem EnhancedStatfs.handle_open_entry_of_read (t : Tracee) (regs : Regs) (a : Nat)
    (path : List Nat) (ha : open_path_addr regs = some a)
    (hread : read_string_from_tracee t a 4096 = some path)
    (hp : starts_with path (cstr "/proc/sys/") = true) :
    handle_open_entry t regs =
      (write_string_to_tracee t a
        (snprintf_s 4096 (cstr "/tmp/fake-procsys/") (path.drop 10))).2 := by
  simp [handle_open_entry, ha, hread, hp]

theorem open_path_addr_eq (regs : Regs)
    (hsys : regs.orig_rax = SYS_open ∨ regs.orig_rax = SYS_openat) :
    EnhancedStatfs.open_path_addr regs
      = some (if regs.orig_rax = SYS_open then regs.rdi else regs.rsi) := by
  unfold EnhancedStatfs.open_path_addr
  rcases hsys with h | h
  · simp [h]
  · have h2 : SYS_openat ≠ SYS_open := by decide
    simp [h, h2]

theorem starts_with_append (p tail : List Nat) : starts_with (p ++ tail) p = true :=
  List.isPrefixOf_iff_prefix.2 (List.prefix_append p tail)

theorem write_string_bytes (t : Tracee) (a : Nat) (s : List Nat)
    (hw : range_ok t.writable a (8 * (s.length / 8 + 1)) = true) :
    bytes_from (write_string t a s).2.byte a (s.length + 1) = s ++ [0] := by
  have e : (s.length + 1 + 7) / 8 = s.length / 8 + 1 := by omega
  have := write_loop_bytes a (s ++ [0]) ((s.length + 1 + 7) / 8) t (by rw [e]; exact hw)
    (by simp only [List.length_append, List.length_singleton]; omega)
  simpa [write_string] using this

/-- C4: for every path `/proc/sys/` ++ `tail` whose rewritten form fits in 4095
bytes, held by the tracee at the address `a` of the path argument (readable,
and writable for the longer result), `handle_open_entry` leaves exactly
`/tmp/fake-procsys/` ++ `tail`, terminated, at the same address `a`;
`get_redirect_target` of `ptrace_interceptor_enhanced.c` returns that same
string, and its `handle_syscall` writes it at `a` as well. -/
theorem C4_proc_sys_path_rewritten (tail : List Nat) (t : Tracee) (regs : Regs) (a : Nat)
    (htail : ∀ b ∈ tail, b ≠ 0)
    (hfit : (cstr "/tmp/fake-procsys/" ++ tail).length ≤ 4095)
    (hsys : regs.orig_rax = SYS_open ∨ regs.orig_rax = SYS_openat)
    (ha : a = if regs.orig_rax = SYS_open then regs.rdi else regs.rsi)
    (ha0 : a ≠ 0)
    (hmem : bytes_from t.byte a ((cstr "/proc/sys/" ++ tail).length + 1)
      = cstr "/proc/sys/" ++ tail ++ [0])
    (hr : range_ok t.readable a (8 * ((cstr "/proc/sys/" ++ tail).length / 8 + 1)) = true)
    (hw : range_ok t.writable a (8 * ((cstr "/tmp/fake-procsys/" ++ tail).length / 8 + 1))
      = true) :
    bytes_from (EnhancedStatfs.handle_open_entry t regs).byte a
        ((cstr "/tmp/fake-procsys/" ++ tail).length + 1)
      = cstr "/tmp/fake-procsys/" ++ tail ++ [0]
    ∧ (∀ flags, WaitRetry.get_redirect_target (cstr "/proc/sys/" ++ tail) flags
        = cstr "/tmp/fake-procsys/" ++ tail)
    ∧ bytes_from (WaitRetry.handle_syscall (some regs) t).byte a
        ((cstr "/tmp/fake-procsys/" ++ tail).length + 1)
      = cstr "/tmp/fake-procsys/" ++ tail ++ [0] := by
  have hno : ∀ b ∈ cstr "/proc/sys/" ++ tail, b ≠ 0 := by
    intro b hb
    rcases List.mem_append.1 hb with h | h
    · exact cstr_proc_sys_no_nul b h
    · exact htail b h
  have hlen : (cstr "/proc/sys/" ++ tail).length < 4096 - 1 := by
    simp only [List.length_append, cstr_proc_sys_length, cstr_fake_procsys_length] at hfit ⊢
    omega
  have hdrop : (cstr "/proc/sys/" ++ tail).drop 10 = tail := by
    rw [← cstr_proc_sys_length, List.drop_left]
  have hsn : snprintf_s 4096 (cstr "/tmp/fake-procsys/") tail
      = cstr "/tmp/fake-procsys/" ++ tail := by
    unfold snprintf_s
    exact List.take_of_length_le (by simpa using hfit)
  have hgrt : ∀ flags, WaitRetry.get_redirect_target (cstr "/proc/sys/" ++ tail) flags
      = cstr "/tmp/fake-procsys/" ++ tail := by
    intro flags
    unfold WaitRetry.get_redirect_target
    rw [strstr_of_starts _ _ (by decide)]
    simp only [Nat.zero_add]
    rw [List.drop_left]
    exact hsn
  refine ⟨?_, hgrt, ?_⟩
  · have hread := EnhancedStatfs.read_string_from_tracee_terminated t a 4096 _ ha0 hno hmem
      hlen hr
    rw [EnhancedStatfs.handle_open_entry_of_read t regs a _ (by rw [ha]; exact open_path_addr_eq regs hsys)
      hread (starts_with_append _ _), hdrop, hsn]
    exact write_string_bytes t a _ hw
  · have hread := read_string_terminated t a _ hno hmem hlen hr
    have hsr : WaitRetry.should_redirect (cstr "/proc/sys/" ++ tail) = true := by
      simp [WaitRetry.should_redirect, strstr_of_starts _ tail (show cstr "/proc/sys/" ≠ [] by decide)]
    have hsys2 : ¬ (regs.orig_rax ≠ SYS_open ∧ regs.orig_rax ≠ SYS_openat) := by
      rcases hsys with h | h <;> simp [h]
    have hrej : WaitRetry.handle_syscall (some regs) t
        = (write_string t a (cstr "/tmp/fake-procsys/" ++ tail)).2 := by
      unfold WaitRetry.handle_syscall handle_syscall_with
      simp only [if_neg hsys2, ← ha, hread, hsr, if_true, hgrt]
    rw [hrej]
    exact write_string_bytes t a _ hw

/-- Witness of C4: `/proc/sys/kernel/pid_max`, opened with `open`, becomes
`/tmp/fake-procsys/kernel/pid_max` at the same address. -/
theorem C4_proc_sys_path_rewritten_witness :
    bytes_from pid_max_tracee.byte 4096 25 = cstr "/proc/sys/kernel/pid_max" ++ [0]
    ∧ bytes_from (EnhancedStatfs.handle_open_entry pid_max_tracee open_entry_regs).byte 4096
        ((cstr "/tmp/fake-procsys/" ++ cstr "kernel/pid_max").length + 1)
      = cstr "/tmp/fake-procsys/" ++ cstr "kernel/pid_max" ++ [0]
    ∧ bytes_from (WaitRetry.handle_syscall (some open_entry_regs) pid_max_tracee).byte 4096
        ((cstr "/tmp/fake-procsys/" ++ cstr "kernel/pid_max").length + 1)
      = cstr "/tmp/fake-procsys/" ++ cstr "kernel/pid_max" ++ [0] :=
  ⟨by decide,
    (C4_proc_sys_path_rewritten (cstr "kernel/pid_max") pid_max_tracee open_entry_regs 4096
      (by decide) (by decide) (by decide) (by decide) (by decide) (by decide) (by decide)
      (by decide)).1,
    (C4_proc_sys_path_rewritten (cstr "kernel/pid_max") pid_max_tracee open_entry_regs 4096
      (by decide) (by decide) (by decide) (by decide) (by decide) (by decide) (by decide)
      (by decide)).2.2⟩

/-! ## The extent of the rewrite -/

theorem snprintf_s_length (size : Nat) (lit s : List Nat) :
    (snprintf_s size lit s).length = min (size - 1) (lit.length + s.length) := by
  simp [snprintf_s, List.length_take]

theorem starts_with_length (a b : List Nat) (h : starts_with a b = true) :
    b.length ≤ a.length :=
  (List.isPrefixOf_iff_prefix.1 h).length_le

/-- C5, refuted as stated: `/proc/sys/x` with its terminator occupies the twelve
bytes 4096..4107 of the tracee; the rewrite to `/tmp/fake-procsys/x` overwrites
the byte at 4108, beyond that region. -/
theorem C5_rewrite_overruns_original_path :
    EnhancedStatfs.read_string_from_tracee short_path_tracee 4096 4096
        = some (cstr "/proc/sys/x")
    ∧ (cstr "/proc/sys/x").length + 1 = 12
    ∧ short_path_tracee.byte 4108 = 170
    ∧ (EnhancedStatfs.handle_open_entry short_path_tracee open_entry_regs).byte 4108 = 111
    ∧ (EnhancedStatfs.handle_open_entry short_path_tracee open_entry_regs).pokes
        = [4096, 4104, 4112] := by
  refine ⟨by decide, by decide, by decide, by decide, by decide⟩

/-- C5, amended: for every open/openat path of length `n` that
`handle_open_entry` rewrites, every byte of the tracee that the rewrite changes
lies in the words that cover the rewritten path and its terminator: within
`min (n + 8) 4095 + 1` bytes of the path address, rounded up to whole 8-byte
words, and so within 4096 bytes of it. The rewritten path is 8 bytes longer
than the original one unless cut to 4095 bytes. -/
theorem C5_rewrite_within_new_path_words (t : Tracee) (regs : Regs) (a : Nat) (path : List Nat)
    (ha : EnhancedStatfs.open_path_addr regs = some a)
    (hread : EnhancedStatfs.read_string_from_tracee t a 4096 = some path)
    (hp : starts_with path (cstr "/proc/sys/") = true) (x : Nat)
    (hx : (EnhancedStatfs.handle_open_entry t regs).byte x ≠ t.byte x) :
    (snprintf_s 4096 (cstr "/tmp/fake-procsys/") (path.drop 10)).length
        = min (path.length + 8) 4095
    ∧ a ≤ x
    ∧ x < a + 8 * ((min (path.length + 8) 4095 + 8) / 8)
    ∧ x < a + 4096 := by
  have h10 : 10 ≤ path.length := by
    have := starts_with_length _ _ hp
    rwa [cstr_proc_sys_length] at this
  have hl : (snprintf_s 4096 (cstr "/tmp/fake-procsys/") (path.drop 10)).length
      = min (path.length + 8) 4095 := by
    rw [snprintf_s_length, cstr_fake_procsys_length, List.length_drop]
    omega
  rw [EnhancedStatfs.handle_open_entry_of_read t regs a path ha hread hp] at hx
  have hin : a + 0 ≤ x ∧ x < a + 0 + 8 * ((min (path.length + 8) 4095 + 1 + 7) / 8) := by
    by_contra hc
    apply hx
    unfold EnhancedStatfs.write_string_to_tracee
    rw [hl]
    exact write_loop_byte_outside a _ _ 0 t x hc
  refine ⟨hl, by omega, by omega, by omega⟩

/-- Witness of C5 (amended): the rewrite of `/proc/sys/x` changes the byte at
4108, inside the three words of the rewritten path. -/
theorem C5_rewrite_within_new_path_words_witness :
    (EnhancedStatfs.handle_open_entry short_path_tracee open_entry_regs).byte 4108
        ≠ short_path_tracee.byte 4108
    ∧ 4108 < 4096 + 8 * ((min ((cstr "/proc/sys/x").length + 8) 4095 + 8) / 8) :=
  ⟨by decide,
    (C5_rewrite_within_new_path_words short_path_tracee open_entry_regs 4096
      (cstr "/proc/sys/x") (by decide) (by decide) (by decide) 4108 (by decide)).2.2.1⟩

/-! ## A path of maximum length -/

theorem tracee_at_bytes (base : Nat) (l : List Nat) :
    bytes_from (tracee_at base l).byte base l.length = l := by
  apply List.ext_getElem
  · simp [bytes_from_length]
  · intro k h1 h2
    rw [bytes_from_getElem]
    have e : base + k - base = k := by omega
    simp only [tracee_at, Nat.le_add_right, if_true, e]
    exact List.getD_eq_getElem _ _ h2

theorem tracee_at_readable (base : Nat) (l : List Nat) :
    range_ok (tracee_at base l).readable base l.length = true := by
  rw [range_ok_iff]
  intro x h1 h2
  simp [tracee_at, h1, h2]

theorem tracee_at_writable (base : Nat) (l : List Nat) :
    range_ok (tracee_at base l).writable base l.length = true := by
  rw [range_ok_iff]
  intro x h1 h2
  simp [tracee_at, h1, h2]

/-- A path of 4095 bytes that begins with `/proc/sys/` is rewritten as well:
`snprintf` cuts the result to 4095 bytes, which drops the last 8 bytes of the
tail, and the 4096 bytes of the path are overwritten. -/
theorem EnhancedStatfs.handle_open_entry_longest (t : Tracee) (regs : Regs) (a : Nat)
    (tail : List Nat) (ha : open_path_addr regs = some a) (ha0 : a ≠ 0)
    (htail : ∀ b ∈ tail, b ≠ 0) (hlen : tail.length = 4085)
    (hmem : bytes_from t.byte a 4096 = cstr "/proc/sys/" ++ tail ++ [0])
    (hr : range_ok t.readable a 4096 = true) (hw : range_ok t.writable a 4096 = true) :
    bytes_from (handle_open_entry t regs).byte a 4096
      = cstr "/tmp/fake-procsys/" ++ tail.take 4077 ++ [0] := by
  have hno : ∀ b ∈ cstr "/proc/sys/" ++ tail, b ≠ 0 := by
    intro b hb
    rcases List.mem_append.1 hb with h | h
    · exact cstr_proc_sys_no_nul b h
    · exact htail b h
  have hpl : (cstr "/proc/sys/" ++ tail).length = 4095 := by
    simp [cstr_proc_sys_length, hlen]
  have hb : bytes_from t.byte a 4095 = cstr "/proc/sys/" ++ tail := by
    rw [← bytes_from_take t.byte a 4096 4095 (by omega), hmem,
      List.take_append_of_le_length (by omega), List.take_of_length_le (by omega)]
  have hread : read_string_from_tracee t a 4096 = some (cstr "/proc/sys/" ++ tail) := by
    unfold read_string_from_tracee
    rw [if_neg ha0, read_string_from_tracee_loop_eq t a 4096 _ 0 [] rfl (by omega) (by simp)
      (fun k hk _ => range_ok_sub _ _ _ _ _ hr (by omega) (by omega))]
    simp only [List.nil_append, Nat.add_zero, Nat.sub_zero]
    have e : 4096 - 1 = 4095 := rfl
    rw [e, hb]
    have := c_string_of_no_nul _ [] hno
    simpa [c_string] using this
  have hdrop : (cstr "/proc/sys/" ++ tail).drop 10 = tail := by
    rw [← cstr_proc_sys_length, List.drop_left]
  have hsn : snprintf_s 4096 (cstr "/tmp/fake-procsys/") tail
      = cstr "/tmp/fake-procsys/" ++ tail.take 4077 := by
    unfold snprintf_s
    rw [List.take_append_eq_append_take, cstr_fake_procsys_length,
      List.take_of_length_le (by rw [cstr_fake_procsys_length]; omega)]
  rw [handle_open_entry_of_read t regs a _ ha hread (starts_with_append _ _), hdrop, hsn]
  have hnl : (cstr "/tmp/fake-procsys/" ++ tail.take 4077).length = 4095 := by
    simp [cstr_fake_procsys_length, hlen]
  have := write_string_bytes t a (cstr "/tmp/fake-procsys/" ++ tail.take 4077)
    (by rw [hnl]; exact hw)
  rw [hnl] at this
  exact this


theorem longest_path_buffer_length : (longest_path ++ [0]).length = 4096 := by
  rw [longest_path, List.length_append, List.length_append, cstr_proc_sys_length,
    List.length_replicate, List.length_singleton]

theorem longest_path_tail_no_nul : ∀ b ∈ List.replicate 4085 97, b ≠ 0 := by
  intro b hb
  rw [List.eq_of_mem_replicate hb]
  decide

theorem longest_path_tracee_bytes :
    bytes_from longest_path_tracee.byte 4096 4096
      = cstr "/proc/sys/" ++ List.replicate 4085 97 ++ [0] := by
  have := tracee_at_bytes 4096 (longest_path ++ [0])
  rw [longest_path_buffer_length] at this
  exact this

theorem longest_path_tracee_readable :
    range_ok longest_path_tracee.readable 4096 4096 = true := by
  have := tracee_at_readable 4096 (longest_path ++ [0])
  rw [longest_path_buffer_length] at this
  exact this

theorem longest_path_tracee_writable :
    range_ok longest_path_tracee.writable 4096 4096 = true := by
  have := tracee_at_writable 4096 (longest_path ++ [0])
  rw [longest_path_buffer_length] at this
  exact this

/-- C6, refuted as stated: the path of maximum length `/proc/sys/aaa…a` (4095
bytes and the terminator) is rewritten; the second byte of the tracee's path
changes from `p` to `t`. -/
theorem C6_longest_path_is_rewritten :
    longest_path.length + 1 = 4096
    ∧ starts_with longest_path (cstr "/proc/sys/") = true
    ∧ longest_path_tracee.byte 4097 = 112
    ∧ (EnhancedStatfs.handle_open_entry longest_path_tracee open_entry_regs).byte (4096 + 1)
        = 116 := by
  have key := EnhancedStatfs.handle_open_entry_longest longest_path_tracee open_entry_regs 4096
    (List.replicate 4085 97) (by decide) (by decide) longest_path_tail_no_nul
    (List.length_replicate _ _) longest_path_tracee_bytes longest_path_tracee_readable
    longest_path_tracee_writable
  have h1 := bytes_from_getD (EnhancedStatfs.handle_open_entry longest_path_tracee
    open_entry_regs).byte 4096 4096 1 (by omega)
  rw [key] at h1
  have hl := longest_path_buffer_length
  rw [List.length_append, List.length_singleton] at hl
  exact ⟨hl, starts_with_append _ _, by decide, h1.symm.trans rfl⟩

/-- C6, amended: for every path of maximum length (4095 bytes and the
terminator) that begins with `/proc/sys/`, held readable and writable at the
path address, `handle_open_entry` does rewrite: the path becomes
`/tmp/fake-procsys/` followed by the first 4077 bytes of the tail, the last 8
bytes of the tail being cut off by the 4096-byte bound of `snprintf`. -/
theorem C6_longest_path_rewritten_truncated (t : Tracee) (regs : Regs) (a : Nat)
    (tail : List Nat)
    (hsys : regs.orig_rax = SYS_open ∨ regs.orig_rax = SYS_openat)
    (ha : a = if regs.orig_rax = SYS_open then regs.rdi else regs.rsi) (ha0 : a ≠ 0)
    (htail : ∀ b ∈ tail, b ≠ 0) (hlen : (cstr "/proc/sys/" ++ tail).length + 1 = 4096)
    (hmem : bytes_from t.byte a 4096 = cstr "/proc/sys/" ++ tail ++ [0])
    (hr : range_ok t.readable a 4096 = true)
    (hw : range_ok t.writable a 4096 = true) :
    bytes_from (EnhancedStatfs.handle_open_entry t regs).byte a 4096
      = cstr "/tmp/fake-procsys/" ++ tail.take 4077 ++ [0] :=
  EnhancedStatfs.handle_open_entry_longest t regs a tail
    (by rw [ha]; exact open_path_addr_eq regs hsys) ha0 htail
    (by simp only [List.length_append, cstr_proc_sys_length] at hlen; omega) hmem hr hw

/-- Witness of C6 (amended): the path `/proc/sys/aaa…a` of maximum length. -/
theorem C6_longest_path_rewritten_truncated_witness :
    bytes_from longest_path_tracee.byte 4096 4096
      = cstr "/proc/sys/" ++ List.replicate 4085 97 ++ [0]
    ∧ bytes_from (EnhancedStatfs.handle_open_entry longest_path_tracee open_entry_regs).byte
        4096 4096
      = cstr "/tmp/fake-procsys/" ++ (List.replicate 4085 97).take 4077 ++ [0] :=
  ⟨longest_path_tracee_bytes,
    C6_longest_path_rewritten_truncated longest_path_tracee open_entry_regs 4096
      (List.replicate 4085 97) (by decide) (by decide) (by decide) longest_path_tail_no_nul
      (by rw [List.length_append, cstr_proc_sys_length, List.length_replicate])
      longest_path_tracee_bytes longest_path_tracee_readable longest_path_tracee_writable⟩

/-! ## Failing memory requests in `handle_syscall` -/

theorem read_string_none_of_unreadable (t : Tracee) (a : Nat)
    (h : range_ok t.readable a 8 = false) : read_string t a = none := by
  have e : (MAX_STRING - 1 + 7) / 8 = 511 + 1 := rfl
  unfold read_string
  rw [e]
  simp [read_string_loop, peekdata, h]

theorem write_string_byte_of_unwritable (t : Tracee) (a : Nat) (s : List Nat)
    (h : range_ok t.writable a 8 = false) : (write_string t a s).2.byte = t.byte := by
  have e : (s.length + 1 + 7) / 8 = s.length / 8 + 1 := by omega
  unfold write_string
  rw [e, write_loop_step, pokedata_fst, Nat.add_zero, h]
  simp [pokedata_fail _ _ _ h]

/-- C7, refuted as stated. A failing `PTRACE_POKEDATA`: of the tracee holding
`/proc/sys/x` only sixteen bytes are mapped, the write of the third word of
`/tmp/fake-procsys/x` fails, and the first two words stay overwritten. A failing
`PTRACE_PEEKDATA`: the third word of `/proc/sys/abcdefgh` cannot be read,
`read_string` returns the sixteen bytes read so far, and the path is rewritten
from that cut string. -/
theorem C7_memory_failure_not_passthrough :
    ((write_string two_word_tracee 4096 (cstr "/tmp/fake-procsys/x")).1 = false
      ∧ bytes_from two_word_tracee.byte 4096 16 = cstr "/proc/sys/x" ++ [0, 0, 0, 0, 0]
      ∧ bytes_from (WaitRetry.handle_syscall (some open_entry_regs) two_word_tracee).byte
          4096 16 = cstr "/tmp/fake-procsy")
    ∧ (peekdata half_readable_tracee (4096 + 16) = none
      ∧ read_string half_readable_tracee 4096 = some (cstr "/proc/sys/abcdef")
      ∧ bytes_from half_readable_tracee.byte 4096 19 = cstr "/proc/sys/abcdefgh" ++ [0]
      ∧ bytes_from (WaitRetry.handle_syscall (some open_entry_regs) half_readable_tracee).byte
          4096 25 = cstr "/tmp/fake-procsys/abcdef" ++ [0]) := by
  refine ⟨⟨by decide, by decide, by decide⟩, ⟨by decide, by decide, by decide, by decide⟩⟩

/-- C7, amended: for every open/openat stop handled by `handle_syscall` of
`ptrace_interceptor_enhanced.c`, if the `PTRACE_PEEKDATA` of the first word of
the path fails, or the `PTRACE_POKEDATA` of the first word of the redirect
target fails, the event is a passthrough: the bytes of the tracee after
handling equal the original bytes. -/
theorem C7_first_word_failure_passthrough (t : Tracee) (regs : Regs)
    (h : range_ok t.readable (if regs.orig_rax = SYS_open then regs.rdi else regs.rsi) 8 = false
      ∨ range_ok t.writable (if regs.orig_rax = SYS_open then regs.rdi else regs.rsi) 8
        = false) :
    (WaitRetry.handle_syscall (some regs) t).byte = t.byte := by
  rcases handle_syscall_with_cases WaitRetry.should_redirect WaitRetry.get_redirect_target
    (some regs) t with h0 | ⟨regs1, path, h1, _, h3, _, h5⟩
  · rw [WaitRetry.handle_syscall, h0]
  · cases Option.some.inj h1
    rcases h with hr | hw
    · rw [read_string_none_of_unreadable t _ hr] at h3
      exact absurd h3 (by simp)
    · rw [WaitRetry.handle_syscall, h5]
      exact write_string_byte_of_unwritable t _ _ hw

/-- Witness of C7 (amended): a tracee in which no word can be read. -/
theorem C7_first_word_failure_passthrough_witness :
    range_ok unmapped_tracee.readable
        (if open_entry_regs.orig_rax = SYS_open then open_entry_regs.rdi
          else open_entry_regs.rsi) 8 = false
    ∧ (WaitRetry.handle_syscall (some open_entry_regs) unmapped_tracee).byte
        = unmapped_tracee.byte :=
  ⟨by decide, C7_first_word_failure_passthrough unmapped_tracee open_entry_regs
    (Or.inl (by decide))⟩

/-! ## The rewrite of `statfs` results -/

theorem le_bytes64_length (v : Nat) : (le_bytes64 v).length = 8 := bytes_from_length _ _ _

theorem f_type_set_f_type_ext4 (buf : List Nat) :
    f_type (set_f_type buf EXT4_SUPER_MAGIC) = EXT4_SUPER_MAGIC := by
  have e : (le_bytes64 EXT4_SUPER_MAGIC ++ buf.drop 8).take 8 = le_bytes64 EXT4_SUPER_MAGIC := by
    rw [List.take_append_of_le_length (by rw [le_bytes64_length]),
      List.take_of_length_le (by rw [le_bytes64_length])]
  simp only [f_type, field64, set_f_type, set_field64, List.take_zero, List.nil_append,
    List.drop_zero, Nat.zero_add, e]
  decide

theorem f_type_set_f_namelen (buf : List Nat) (v : Nat) (h : 64 ≤ buf.length) :
    f_type (set_f_namelen buf v) = f_type buf := by
  have e : (buf.take 64 ++ le_bytes64 v ++ buf.drop (64 + 8)).take 8 = buf.take 8 := by
    rw [List.append_assoc, List.take_append_of_le_length (by rw [List.length_take]; omega),
      List.take_take]
    rfl
  simp only [f_type, field64, set_f_namelen, set_field64, List.drop_zero, e]

theorem set_f_type_length (buf : List Nat) (v : Nat) (h : 8 ≤ buf.length) :
    (set_f_type buf v).length = buf.length := by
  simp only [set_f_type, set_field64, List.take_zero, List.nil_append, List.length_append,
    le_bytes64_length, List.length_drop]
  omega

theorem set_f_namelen_length (buf : List Nat) (v : Nat) (h : 72 ≤ buf.length) :
    (set_f_namelen buf v).length = buf.length := by
  simp only [set_f_namelen, set_field64, List.length_append, le_bytes64_length,
    List.length_drop, List.length_take]
  omega

theorem EnhancedStatfs.spoof_as_ext4_length (buf : List Nat) (h : 72 ≤ buf.length) :
    (spoof_as_ext4 buf).length = buf.length := by
  unfold spoof_as_ext4
  simp only []
  split
  · rw [set_f_namelen_length _ _ (by rw [set_f_type_length _ _ (by omega)]; exact h),
      set_f_type_length _ _ (by omega)]
  · exact set_f_type_length _ _ (by omega)

theorem EnhancedStatfs.f_type_spoof_as_ext4 (buf : List Nat) (h : 72 ≤ buf.length) :
    f_type (spoof_as_ext4 buf) = EXT4_SUPER_MAGIC := by
  unfold spoof_as_ext4
  simp only []
  split
  · rw [f_type_set_f_namelen _ _ (by rw [set_f_type_length _ _ (by omega)]; omega)]
    exact f_type_set_f_type_ext4 buf
  · exact f_type_set_f_type_ext4 buf

theorem EnhancedStatfs.read_memory_statfs (t : Tracee) (a : Nat) :
    read_memory t a sizeof_statfs =
      if range_ok t.readable a 120 then some (bytes_from t.byte a 120) else none :=
  read_memory_eq t a 120

/-- C8: for every successful statfs/fstatfs call whose result buffer, readable
and writable, reports `f_type = 0x01021997` (9p), the buffer that the target
then observes has `f_type = 0xEF53` (ext4): in the tracee's memory after
`handle_statfs_exit`, and in the caller's buffer after the `statfs` and
`fstatfs` hooks of the interposer, which return the result 0 of the call. -/
theorem C8_ninep_result_spoofed_as_ext4 :
    (∀ (t : Tracee) (regs : Regs), 0 ≤ to_long regs.rax →
      (regs.orig_rax = SYS_statfs ∨ regs.orig_rax = SYS_fstatfs) →
      range_ok t.readable regs.rsi 120 = true → range_ok t.writable regs.rsi 120 = true →
      f_type (bytes_from t.byte regs.rsi 120) = NINE_P_FS_MAGIC →
      f_type (bytes_from (EnhancedStatfs.handle_statfs_exit t regs).byte regs.rsi 120)
        = EXT4_SUPER_MAGIC)
    ∧ (∀ (orig_statfs : List Nat → List Nat → Int × List Nat) (path buf : List Nat),
      (orig_statfs path buf).1 = 0 → f_type (orig_statfs path buf).2 = NINE_P_FS_MAGIC →
      (LdPreload.statfs orig_statfs path buf).1 = 0
      ∧ f_type (LdPreload.statfs orig_statfs path buf).2 = EXT4_SUPER_MAGIC)
    ∧ (∀ (orig_fstatfs : Int → List Nat → Int × List Nat) (fd : Int) (buf : List Nat),
      (orig_fstatfs fd buf).1 = 0 → f_type (orig_fstatfs fd buf).2 = NINE_P_FS_MAGIC →
      (LdPreload.fstatfs orig_fstatfs fd buf).1 = 0
      ∧ f_type (LdPreload.fstatfs orig_fstatfs fd buf).2 = EXT4_SUPER_MAGIC) := by
  refine ⟨?_, ?_, ?_⟩
  · intro t regs hok hsys hr hw hft
    have hlen : (bytes_from t.byte regs.rsi 120).length = 120 := bytes_from_length _ _ _
    have hsl : (EnhancedStatfs.spoof_as_ext4 (bytes_from t.byte regs.rsi 120)).length = 120 := by
      rw [EnhancedStatfs.spoof_as_ext4_length _ (by omega), hlen]
    have hexit : EnhancedStatfs.handle_statfs_exit t regs
        = (EnhancedStatfs.write_memory t regs.rsi
            (EnhancedStatfs.spoof_as_ext4 (bytes_from t.byte regs.rsi 120))).2 := by
      unfold EnhancedStatfs.handle_statfs_exit
      rw [if_neg (by omega), if_pos hsys]
      simp only [EnhancedStatfs.read_memory_statfs, hr, if_true, hft]
    have hb := write_loop_bytes regs.rsi
      (EnhancedStatfs.spoof_as_ext4 (bytes_from t.byte regs.rsi 120)) 15 t hw
      (by rw [hsl])
    rw [hsl] at hb
    have e : ((EnhancedStatfs.spoof_as_ext4 (bytes_from t.byte regs.rsi 120)).length + 7) / 8
        = 15 := by rw [hsl]
    rw [hexit, EnhancedStatfs.write_memory, e, hb]
    exact EnhancedStatfs.f_type_spoof_as_ext4 _ (by omega)
  · intro orig path buf h0 hft
    simp [LdPreload.statfs, h0, hft, f_type_set_f_type_ext4]
  · intro orig fd buf h0 hft
    simp [LdPreload.fstatfs, h0, hft, f_type_set_f_type_ext4]

set_option maxRecDepth 100000 in
/-- Witness of C8: a `statfs` call on a 9p file system, under the supervisor
and under the interposer. -/
theorem C8_ninep_result_spoofed_as_ext4_witness :
    (f_type (bytes_from EnhancedStatfs.ninep_tracee.byte EnhancedStatfs.statfs_regs.rsi 120)
        = NINE_P_FS_MAGIC
      ∧ f_type (bytes_from (EnhancedStatfs.handle_statfs_exit EnhancedStatfs.ninep_tracee
          EnhancedStatfs.statfs_regs).byte EnhancedStatfs.statfs_regs.rsi 120)
        = EXT4_SUPER_MAGIC)
    ∧ (f_type (ninep_statfs (cstr "/") (List.replicate 120 0)).2 = NINE_P_FS_MAGIC
      ∧ f_type (LdPreload.statfs ninep_statfs (cstr "/") (List.replicate 120 0)).2
        = EXT4_SUPER_MAGIC)
    ∧ (f_type (ninep_fstatfs 3 (List.replicate 120 0)).2 = NINE_P_FS_MAGIC
      ∧ f_type (LdPreload.fstatfs ninep_fstatfs 3 (List.replicate 120 0)).2
        = EXT4_SUPER_MAGIC) :=
  ⟨⟨by decide,
      C8_ninep_result_spoofed_as_ext4.1 EnhancedStatfs.ninep_tracee EnhancedStatfs.statfs_regs
        (by decide) (by decide) (by decide) (by decide) (by decide)⟩,
    ⟨by decide,
      (C8_ninep_result_spoofed_as_ext4.2.1 ninep_statfs (cstr "/") (List.replicate 120 0)
        (by decide) (by decide)).2⟩,
    ⟨by decide,
      (C8_ninep_result_spoofed_as_ext4.2.2 ninep_fstatfs 3 (List.replicate 120 0)
        (by decide) (by decide)).2⟩⟩

/-- C9: for every statfs/fstatfs call whose return value is negative, whatever
the buffer contains, no result rewrite is attempted: `handle_statfs_exit` leaves
the tracee as it is and issues no `PTRACE_POKEDATA`, and the `statfs` and
`fstatfs` hooks of the interposer return the result and the buffer exactly as
the real function left them. -/
theorem C9_failed_statfs_not_rewritten :
    (∀ (t : Tracee) (regs : Regs), to_long regs.rax < 0 →
      EnhancedStatfs.handle_statfs_exit t regs = t)
    ∧ (∀ (orig_statfs : List Nat → List Nat → Int × List Nat) (path buf : List Nat),
      (orig_statfs path buf).1 < 0 →
      LdPreload.statfs orig_statfs path buf = orig_statfs path buf)
    ∧ (∀ (orig_fstatfs : Int → List Nat → Int × List Nat) (fd : Int) (buf : List Nat),
      (orig_fstatfs fd buf).1 < 0 →
      LdPreload.fstatfs orig_fstatfs fd buf = orig_fstatfs fd buf) := by
  refine ⟨?_, ?_, ?_⟩
  · intro t regs h
    simp [EnhancedStatfs.handle_statfs_exit, h]
  · intro orig path buf h
    have h0 : (orig path buf).1 ≠ 0 := by omega
    simp [LdPreload.statfs, h0]
  · intro orig fd buf h
    have h0 : (orig fd buf).1 ≠ 0 := by omega
    simp [LdPreload.fstatfs, h0]

/-- Witness of C9: a `statfs` call that fails while the buffer happens to hold
the 9p magic. -/
theorem C9_failed_statfs_not_rewritten_witness :
    (to_long failed_statfs_regs.rax < 0
      ∧ EnhancedStatfs.handle_statfs_exit EnhancedStatfs.ninep_tracee failed_statfs_regs
        = EnhancedStatfs.ninep_tracee)
    ∧ ((failing_statfs (cstr "/") (le_bytes64 NINE_P_FS_MAGIC)).1 < 0
      ∧ LdPreload.statfs failing_statfs (cstr "/") (le_bytes64 NINE_P_FS_MAGIC)
        = failing_statfs (cstr "/") (le_bytes64 NINE_P_FS_MAGIC))
    ∧ ((failing_fstatfs 3 (le_bytes64 NINE_P_FS_MAGIC)).1 < 0
      ∧ LdPreload.fstatfs failing_fstatfs 3 (le_bytes64 NINE_P_FS_MAGIC)
        = failing_fstatfs 3 (le_bytes64 NINE_P_FS_MAGIC)) :=
  ⟨⟨by decide,
      C9_failed_statfs_not_rewritten.1 EnhancedStatfs.ninep_tracee failed_statfs_regs
        (by decide)⟩,
    ⟨by decide,
      C9_failed_statfs_not_rewritten.2.1 failing_statfs (cstr "/") (le_bytes64 NINE_P_FS_MAGIC)
        (by decide)⟩,
    ⟨by decide,
      C9_failed_statfs_not_rewritten.2.2 failing_fstatfs 3 (le_bytes64 NINE_P_FS_MAGIC)
        (by decide)⟩⟩

/-- C10: for every statfs/fstatfs result, successful or not, whose `f_type` is
not `0x01021997`, `handle_statfs_exit` leaves the tracee unchanged: every byte
of the result buffer is as before and no `PTRACE_POKEDATA` is issued. -/
theorem C10_other_file_system_unchanged (t : Tracee) (regs : Regs)
    (h : f_type (bytes_from t.byte regs.rsi 120) ≠ NINE_P_FS_MAGIC) :
    EnhancedStatfs.handle_statfs_exit t regs = t := by
  unfold EnhancedStatfs.handle_statfs_exit
  split
  · rfl
  · split
    · by_cases hr : range_ok t.readable regs.rsi 120 = true
      · simp only [EnhancedStatfs.read_memory_statfs, hr, if_true, if_neg h]
      · simp only [EnhancedStatfs.read_memory_statfs, hr]
        rfl
    · rfl

set_option maxRecDepth 100000 in
/-- Witness of C10: a successful `statfs` call on an ext4 file system. -/
theorem C10_other_file_system_unchanged_witness :
    0 ≤ to_long EnhancedStatfs.statfs_regs.rax
    ∧ f_type (bytes_from ext4_tracee.byte EnhancedStatfs.statfs_regs.rsi 120) ≠ NINE_P_FS_MAGIC
    ∧ EnhancedStatfs.handle_statfs_exit ext4_tracee EnhancedStatfs.statfs_regs = ext4_tracee :=
  ⟨by decide, by decide,
    C10_other_file_system_unchanged ext4_tracee EnhancedStatfs.statfs_regs (by decide)⟩

/-! ## `f_namelen` under the rewrite of `statfs` results -/

theorem f_namelen_set_f_type (buf : List Nat) (v : Nat) :
    f_namelen (set_f_type buf v) = f_namelen buf := by
  have e : (le_bytes64 v ++ buf.drop 8).drop 64 = buf.drop 64 := by
    rw [List.drop_append_eq_append_drop, le_bytes64_length,
      List.drop_of_length_le (by rw [le_bytes64_length]; omega), List.drop_drop]
    rfl
  simp only [f_namelen, field64, set_f_type, set_field64, List.take_zero, List.nil_append,
    Nat.zero_add, e]

theorem f_namelen_set_f_namelen_255 (buf : List Nat) (h : 64 ≤ buf.length) :
    f_namelen (set_f_namelen buf 255) = 255 := by
  have e : ((buf.take 64 ++ le_bytes64 255 ++ buf.drop (64 + 8)).drop 64).take 8
      = le_bytes64 255 := by
    rw [List.append_assoc, List.drop_append_eq_append_drop,
      List.drop_of_length_le (by rw [List.length_take]; omega), List.length_take,
      Nat.min_eq_left h]
    simp only [Nat.sub_self, List.drop_zero, List.nil_append]
    rw [List.take_append_of_le_length (by rw [le_bytes64_length]),
      List.take_of_length_le (by rw [le_bytes64_length])]
  simp only [f_namelen, field64, set_f_namelen, set_field64, e]
  decide

/-- The tracee's result buffer after `handle_statfs_exit`, for a successful
call whose buffer is readable and writable and reports 9p. -/
theorem EnhancedStatfs.handle_statfs_exit_bytes (t : Tracee) (regs : Regs)
    (hok : 0 ≤ to_long regs.rax)
    (hsys : regs.orig_rax = SYS_statfs ∨ regs.orig_rax = SYS_fstatfs)
    (hr : range_ok t.readable regs.rsi 120 = true) (hw : range_ok t.writable regs.rsi 120 = true)
    (hft : f_type (bytes_from t.byte regs.rsi 120) = NINE_P_FS_MAGIC) :
    bytes_from (handle_statfs_exit t regs).byte regs.rsi 120
      = spoof_as_ext4 (bytes_from t.byte regs.rsi 120) := by
  have hlen : (bytes_from t.byte regs.rsi 120).length = 120 := bytes_from_length _ _ _
  have hsl : (spoof_as_ext4 (bytes_from t.byte regs.rsi 120)).length = 120 := by
    rw [spoof_as_ext4_length _ (by omega), hlen]
  have hexit : handle_statfs_exit t regs
      = (write_memory t regs.rsi (spoof_as_ext4 (bytes_from t.byte regs.rsi 120))).2 := by
    unfold handle_statfs_exit
    rw [if_neg (by omega), if_pos hsys]
    simp only [read_memory_statfs, hr, if_true, hft]
  have hb := write_loop_bytes regs.rsi (spoof_as_ext4 (bytes_from t.byte regs.rsi 120)) 15 t hw
    (by rw [hsl])
  rw [hsl] at hb
  have e : ((spoof_as_ext4 (bytes_from t.byte regs.rsi 120)).length + 7) / 8 = 15 := by
    rw [hsl]
  rw [hexit, write_memory, e, hb]

theorem EnhancedStatfs.f_namelen_spoof_as_ext4 (buf : List Nat) (h : 72 ≤ buf.length)
    (h0 : 0 ≤ f_namelen buf) :
    1 ≤ f_namelen (spoof_as_ext4 buf) ∧ f_namelen (spoof_as_ext4 buf) ≤ 255 := by
  unfold spoof_as_ext4
  simp only []
  split
  · rw [f_namelen_set_f_namelen_255 _ (by rw [set_f_type_length _ _ (by omega)]; omega)]
    omega
  · rename_i hc
    rw [f_namelen_set_f_type] at hc ⊢
    omega

set_option maxRecDepth 100000 in
/-- C11, refuted as stated. The hooks of the interposer do not touch
`f_namelen`: a 9p record with `f_namelen = 0` leaves `statfs` and `fstatfs` with
`f_type` rewritten and `f_namelen` still 0. And `handle_statfs_exit` compares
`f_namelen` as a signed `long`: a record with `f_namelen = -1` keeps -1. -/
theorem C11_namelen_outside_range_after_rewrite :
    (f_namelen zero_namelen_record = 0
      ∧ f_type (LdPreload.statfs (statfs_returning zero_namelen_record) (cstr "/") []).2
          = EXT4_SUPER_MAGIC
      ∧ f_namelen (LdPreload.statfs (statfs_returning zero_namelen_record) (cstr "/") []).2 = 0
      ∧ f_namelen (LdPreload.fstatfs (fstatfs_returning zero_namelen_record) 3 []).2 = 0)
    ∧ (f_namelen negative_namelen_record = -1
      ∧ f_type (bytes_from (EnhancedStatfs.handle_statfs_exit
            (tracee_at 4096 negative_namelen_record) EnhancedStatfs.statfs_regs).byte 4096 120)
          = EXT4_SUPER_MAGIC
      ∧ f_namelen (bytes_from (EnhancedStatfs.handle_statfs_exit
            (tracee_at 4096 negative_namelen_record) EnhancedStatfs.statfs_regs).byte 4096 120)
          = -1) := by
  refine ⟨⟨by decide, by decide, by decide, by decide⟩, ⟨by decide, by decide, by decide⟩⟩

/-- C11, amended: after the exit rewrite by `handle_statfs_exit` of a record
whose `f_type` is 9p, `f_namelen` lies in [1,255] for every original `f_namelen`
that is not negative (zero and values above 255 become 255); the `statfs` and
`fstatfs` hooks of the interposer rewrite `f_type` only and leave `f_namelen` as
the real function returned it. -/
theorem C11_namelen_clamped_by_supervisor_only :
    (∀ (t : Tracee) (regs : Regs), 0 ≤ to_long regs.rax →
      (regs.orig_rax = SYS_statfs ∨ regs.orig_rax = SYS_fstatfs) →
      range_ok t.readable regs.rsi 120 = true → range_ok t.writable regs.rsi 120 = true →
      f_type (bytes_from t.byte regs.rsi 120) = NINE_P_FS_MAGIC →
      0 ≤ f_namelen (bytes_from t.byte regs.rsi 120) →
      1 ≤ f_namelen (bytes_from (EnhancedStatfs.handle_statfs_exit t regs).byte regs.rsi 120)
      ∧ f_namelen (bytes_from (EnhancedStatfs.handle_statfs_exit t regs).byte regs.rsi 120)
        ≤ 255)
    ∧ (∀ (orig_statfs : List Nat → List Nat → Int × List Nat) (path buf : List Nat),
      f_namelen (LdPreload.statfs orig_statfs path buf).2 = f_namelen (orig_statfs path buf).2)
    ∧ (∀ (orig_fstatfs : Int → List Nat → Int × List Nat) (fd : Int) (buf : List Nat),
      f_namelen (LdPreload.fstatfs orig_fstatfs fd buf).2
        = f_namelen (orig_fstatfs fd buf).2) := by
  refine ⟨?_, ?_, ?_⟩
  · intro t regs hok hsys hr hw hft h0
    rw [EnhancedStatfs.handle_statfs_exit_bytes t regs hok hsys hr hw hft]
    exact EnhancedStatfs.f_namelen_spoof_as_ext4 _ (by rw [bytes_from_length]; omega) h0
  · intro orig path buf
    unfold LdPreload.statfs
    simp only []
    split
    · exact f_namelen_set_f_type _ _
    · rfl
  · intro orig fd buf
    unfold LdPreload.fstatfs
    simp only []
    split
    · exact f_namelen_set_f_type _ _
    · rfl

set_option maxRecDepth 100000 in
/-- Witness of C11 (amended): a 9p record with `f_namelen = 0` in the tracee. -/
theorem C11_namelen_clamped_by_supervisor_only_witness :
    (0 : Int) ≤ f_namelen (bytes_from (tracee_at 4096 zero_namelen_record).byte
        EnhancedStatfs.statfs_regs.rsi 120)
    ∧ (1 ≤ f_namelen (bytes_from (EnhancedStatfs.handle_statfs_exit
          (tracee_at 4096 zero_namelen_record) EnhancedStatfs.statfs_regs).byte
          EnhancedStatfs.statfs_regs.rsi 120)
      ∧ f_namelen (bytes_from (EnhancedStatfs.handle_statfs_exit
          (tracee_at 4096 zero_namelen_record) EnhancedStatfs.statfs_regs).byte
          EnhancedStatfs.statfs_regs.rsi 120) ≤ 255) :=
  ⟨by decide,
    C11_namelen_clamped_by_supervisor_only.1 (tracee_at 4096 zero_namelen_record)
      EnhancedStatfs.statfs_regs (by decide) (by decide) (by decide) (by decide) (by decide)
      (by decide)⟩

/-! ## The rewrite of `f_type` and back -/

theorem le_bytes64_le_value (bs : List Nat) (hl : bs.length = 8) (hb : ∀ b ∈ bs, b < 256) :
    le_value bs < 2 ^ 64 ∧ le_bytes64 (le_value bs) = bs := by
  match bs, hl with
  | [b0, b1, b2, b3, b4, b5, b6, b7], _ =>
    have h0 := hb b0 (by simp)
    have h1 := hb b1 (by simp)
    have h2 := hb b2 (by simp)
    have h3 := hb b3 (by simp)
    have h4 := hb b4 (by simp)
    have h5 := hb b5 (by simp)
    have h6 := hb b6 (by simp)
    have h7 := hb b7 (by simp)
    simp only [le_value, le_bytes64, bytes_from]
    norm_num
    refine ⟨by omega, by omega, by omega, by omega, by omega, by omega, by omega, by omega,
      by omega⟩

theorem to_long_eq_small (v n : Nat) (hv : v < 2 ^ 64) (hn : n < 2 ^ 63)
    (h : to_long v = (n : Int)) : v = n := by
  unfold to_long at h
  rw [Nat.mod_eq_of_lt hv] at h
  split at h
  · exact_mod_cast h
  · omega

/-- The rewrite of a 9p record whose `f_namelen` needs no clamping, followed by
the assignment of the 9p magic to `f_type`, gives the record back. -/
theorem EnhancedStatfs.spoof_as_ext4_round_trip (buf : List Nat) (hl : 8 ≤ buf.length)
    (hwf : ∀ b ∈ buf, b < 256) (hft : f_type buf = NINE_P_FS_MAGIC)
    (hnl : ¬ (f_namelen buf = 0 ∨ f_namelen buf > 255)) :
    spoof_as_ext4 buf = set_f_type buf EXT4_SUPER_MAGIC
    ∧ set_f_type (spoof_as_ext4 buf) NINE_P_FS_MAGIC = buf := by
  have hs : spoof_as_ext4 buf = set_f_type buf EXT4_SUPER_MAGIC := by
    unfold spoof_as_ext4
    simp only [f_namelen_set_f_type, if_neg hnl]
  have htl : (buf.take 8).length = 8 := by rw [List.length_take]; omega
  obtain ⟨hlt, hrt⟩ := le_bytes64_le_value (buf.take 8) htl
    (fun b hb => hwf b (List.mem_of_mem_take hb))
  have hv : le_value (buf.take 8) = NINE_P_FS_MAGIC := by
    apply to_long_eq_small _ _ hlt (by decide)
    simpa [f_type, field64] using hft
  have ht : buf.take 8 = le_bytes64 NINE_P_FS_MAGIC := by rw [← hv, hrt]
  refine ⟨hs, ?_⟩
  rw [hs]
  simp only [set_f_type, set_field64, List.take_zero, List.nil_append, Nat.zero_add]
  rw [List.drop_append_eq_append_drop, le_bytes64_length,
    List.drop_of_length_le (by rw [le_bytes64_length])]
  simp only [Nat.sub_self, List.drop_zero, List.nil_append]
  rw [← ht, List.take_append_drop]

set_option maxRecDepth 100000 in
/-- C12, refuted as stated: for the 9p record with `f_namelen = 0` the rewrite
also sets `f_namelen` to 255, so setting `f_type` back to 9p does not give the
original record. -/
theorem C12_round_trip_changes_namelen :
    f_type zero_namelen_record = NINE_P_FS_MAGIC
    ∧ f_namelen zero_namelen_record = 0
    ∧ f_namelen (set_f_type (EnhancedStatfs.spoof_as_ext4 zero_namelen_record)
        NINE_P_FS_MAGIC) = 255
    ∧ set_f_type (EnhancedStatfs.spoof_as_ext4 zero_namelen_record) NINE_P_FS_MAGIC
        ≠ zero_namelen_record
    ∧ set_f_type (bytes_from (EnhancedStatfs.handle_statfs_exit
          (tracee_at 4096 zero_namelen_record) EnhancedStatfs.statfs_regs).byte 4096 120)
        NINE_P_FS_MAGIC ≠ zero_namelen_record := by
  refine ⟨by decide, by decide, by decide, by decide, by decide⟩

/-- C12, amended: for every statfs record with `f_type` = 9p whose `f_namelen`
is neither 0 nor above 255, held readable and writable in the result buffer of
a successful call, the rewrite of `handle_statfs_exit` changes `f_type` only:
setting `f_type` of the rewritten buffer back to 9p yields a record equal to the
original. (When `f_namelen` is 0 or above 255 the rewrite also sets it to 255.) -/
theorem C12_type_rewrite_round_trip (t : Tracee) (regs : Regs)
    (hok : 0 ≤ to_long regs.rax)
    (hsys : regs.orig_rax = SYS_statfs ∨ regs.orig_rax = SYS_fstatfs)
    (hr : range_ok t.readable regs.rsi 120 = true) (hw : range_ok t.writable regs.rsi 120 = true)
    (hwf : ∀ b ∈ bytes_from t.byte regs.rsi 120, b < 256)
    (hft : f_type (bytes_from t.byte regs.rsi 120) = NINE_P_FS_MAGIC)
    (hnl : ¬ (f_namelen (bytes_from t.byte regs.rsi 120) = 0
      ∨ f_namelen (bytes_from t.byte regs.rsi 120) > 255)) :
    bytes_from (EnhancedStatfs.handle_statfs_exit t regs).byte regs.rsi 120
      = set_f_type (bytes_from t.byte regs.rsi 120) EXT4_SUPER_MAGIC
    ∧ set_f_type (bytes_from (EnhancedStatfs.handle_statfs_exit t regs).byte regs.rsi 120)
        NINE_P_FS_MAGIC = bytes_from t.byte regs.rsi 120 := by
  rw [EnhancedStatfs.handle_statfs_exit_bytes t regs hok hsys hr hw hft]
  exact EnhancedStatfs.spoof_as_ext4_round_trip _ (by rw [bytes_from_length]; omega) hwf hft hnl

set_option maxRecDepth 100000 in
/-- Witness of C12 (amended): a 9p record with `f_namelen = 255`. -/
theorem C12_type_rewrite_round_trip_witness :
    f_namelen (bytes_from (tracee_at 4096 plain_ninep_record).byte
        EnhancedStatfs.statfs_regs.rsi 120) = 255
    ∧ set_f_type (bytes_from (EnhancedStatfs.handle_statfs_exit
          (tracee_at 4096 plain_ninep_record) EnhancedStatfs.statfs_regs).byte
          EnhancedStatfs.statfs_regs.rsi 120) NINE_P_FS_MAGIC
        = bytes_from (tracee_at 4096 plain_ninep_record).byte
            EnhancedStatfs.statfs_regs.rsi 120 :=
  ⟨by decide,
    (C12_type_rewrite_round_trip (tracee_at 4096 plain_ninep_record) EnhancedStatfs.statfs_regs
      (by decide) (by decide) (by decide) (by decide) (by decide) (by decide)
      (by decide)).2⟩

/-! ## Reading a path and writing it back -/

/-- C13, refuted as stated: `/a` with its terminator is followed, inside the
same word, by five bytes `0xAA`. Reading the path and writing it back gives the
path again, but `write_string_to_tracee` fills the rest of the final word with
zeros: the byte after the terminator changes from `0xAA` to 0. -/
theorem C13_trailing_padding_zeroed :
    EnhancedStatfs.read_string_from_tracee padded_path_tracee 4096 4096 = some (cstr "/a")
    ∧ EnhancedStatfs.read_string_from_tracee
        (EnhancedStatfs.write_string_to_tracee padded_path_tracee 4096 (cstr "/a")).2 4096 4096
        = some (cstr "/a")
    ∧ bytes_from padded_path_tracee.byte 4096 8 = cstr "/a" ++ [0, 170, 170, 170, 170, 170]
    ∧ bytes_from (EnhancedStatfs.write_string_to_tracee padded_path_tracee 4096
        (cstr "/a")).2.byte 4096 8 = cstr "/a" ++ [0, 0, 0, 0, 0, 0] := by
  refine ⟨by decide, by decide, by decide, by decide⟩

/-- C13, amended: for every tracee memory holding a NUL-terminated path shorter
than 4095 bytes at `addr`, in readable and writable words, reading it with
`read_string_from_tracee`, writing the same string back with
`write_string_to_tracee` and reading again yields the original string, and the
bytes of the string and its terminator are the original ones; the bytes that
follow the terminator inside the final written word are set to zero, and no
byte outside the written words changes. -/
theorem C13_read_write_read_round_trip (t : Tracee) (addr : Nat) (s : List Nat)
    (h0 : addr ≠ 0) (hs : ∀ b ∈ s, b ≠ 0)
    (hmem : bytes_from t.byte addr (s.length + 1) = s ++ [0]) (hlen : s.length < 4095)
    (hr : range_ok t.readable addr (8 * (s.length / 8 + 1)) = true)
    (hw : range_ok t.writable addr (8 * (s.length / 8 + 1)) = true) :
    EnhancedStatfs.read_string_from_tracee t addr 4096 = some s
    ∧ (EnhancedStatfs.write_string_to_tracee t addr s).1 = true
    ∧ EnhancedStatfs.read_string_from_tracee
        (EnhancedStatfs.write_string_to_tracee t addr s).2 addr 4096 = some s
    ∧ bytes_from (EnhancedStatfs.write_string_to_tracee t addr s).2.byte addr (s.length + 1)
        = bytes_from t.byte addr (s.length + 1)
    ∧ (∀ x, addr + s.length < x → x < addr + 8 * (s.length / 8 + 1) →
        (EnhancedStatfs.write_string_to_tracee t addr s).2.byte x = 0)
    ∧ (∀ x, ¬ (addr ≤ x ∧ x < addr + 8 * (s.length / 8 + 1)) →
        (EnhancedStatfs.write_string_to_tracee t addr s).2.byte x = t.byte x) := by
  have e : (s.length + 1 + 7) / 8 = s.length / 8 + 1 := by omega
  have hwe : EnhancedStatfs.write_string_to_tracee t addr s = write_string t addr s := rfl
  have hb : bytes_from (EnhancedStatfs.write_string_to_tracee t addr s).2.byte addr
      (s.length + 1) = s ++ [0] := by
    rw [hwe]; exact write_string_bytes t addr s hw
  obtain ⟨hok, hbyte⟩ := write_loop_ok addr (s ++ [0]) (s.length / 8 + 1) 0 t
    (by simpa using hw)
  have hdef : EnhancedStatfs.write_string_to_tracee t addr s
      = write_loop addr (s ++ [0]) (s.length / 8 + 1) 0 t := by
    unfold EnhancedStatfs.write_string_to_tracee
    rw [e]
  refine ⟨EnhancedStatfs.read_string_from_tracee_terminated t addr 4096 s h0 hs hmem
      (by omega) hr, by rw [hdef]; exact hok, ?_, by rw [hb, hmem], ?_, ?_⟩
  · apply EnhancedStatfs.read_string_from_tracee_terminated _ addr 4096 s h0 hs hb (by omega)
    rw [hdef, write_loop_readable]
    exact hr
  · intro x h1 h2
    rw [hdef, hbyte x, if_pos (by omega)]
    exact List.getD_eq_default _ _ (by simp only [List.length_append, List.length_singleton]; omega)
  · intro x hx
    rw [hdef, hbyte x, if_neg (by omega)]

/-- Witness of C13 (amended): the path `/a` followed by other data. -/
theorem C13_read_write_read_round_trip_witness :
    bytes_from padded_path_tracee.byte 4096 ((cstr "/a").length + 1) = cstr "/a" ++ [0]
    ∧ EnhancedStatfs.read_string_from_tracee
        (EnhancedStatfs.write_string_to_tracee padded_path_tracee 4096 (cstr "/a")).2
        4096 4096 = some (cstr "/a") :=
  ⟨by decide,
    (C13_read_write_read_round_trip padded_path_tracee 4096 (cstr "/a") (by decide) (by decide)
      (by decide) (by decide) (by decide) (by decide)).2.2.1⟩

/-! ## The fallback targets `/dev/zero` and `/dev/null` -/

theorem strstr_isSome_false (hay needle : List Nat) (h : ¬ needle <:+: hay) :
    (strstr hay needle).isSome = false := by
  rw [(strstr_eq_none_iff hay needle).2 h]
  rfl

/-- In `ptrace_interceptor.c` a path with none of the eight specifically mapped
patterns gets the fallback target chosen by the access mode. -/
theorem WorkerPtrace.get_redirect_target_fallback (path : List Nat) (flags : Nat)
    (h1 : ¬ cstr "/proc/sys/kernel/keys/root_maxkeys" <:+: path)
    (h2 : ¬ cstr "/proc/sys/kernel/keys/root_maxbytes" <:+: path)
    (h3 : ¬ cstr "/proc/sys/vm/panic_on_oom" <:+: path)
    (h4 : ¬ cstr "/proc/sys/kernel/panic_on_oops" <:+: path)
    (h5 : ¬ cstr "/proc/sys/kernel/panic" <:+: path)
    (h6 : ¬ cstr "/proc/sys/vm/overcommit_memory" <:+: path)
    (h7 : ¬ cstr "/proc/diskstats" <:+: path)
    (h8 : ¬ cstr "/sys/fs/cgroup/cpuacct/cpuacct.usage_percpu" <:+: path) :
    get_redirect_target path flags
      = if flags &&& O_ACCMODE = O_RDONLY then cstr "/dev/zero" else cstr "/dev/null" := by
  unfold get_redirect_target
  simp only [strstr_isSome_false _ _ h1, strstr_isSome_false _ _ h2, strstr_isSome_false _ _ h3,
    strstr_isSome_false _ _ h4, strstr_isSome_false _ _ h5, strstr_isSome_false _ _ h6,
    strstr_isSome_false _ _ h7, strstr_isSome_false _ _ h8, Bool.false_eq_true, if_false]

/-- In `ptrace_interceptor_enhanced.c` every path that `should_redirect` accepts
gets a target under `/tmp/fake-`: the fallback is not reached. -/
theorem WaitRetry.get_redirect_target_fake (path : List Nat) (flags : Nat)
    (h : should_redirect path = true) : cstr "/tmp/fake-" <+: get_redirect_target path flags := by
  unfold get_redirect_target
  cases h1 : strstr path (cstr "/proc/sys/") with
  | some k =>
    simp only [snprintf_s]
    have e : cstr "/tmp/fake-procsys/" = cstr "/tmp/fake-" ++ cstr "procsys/" := by decide
    rw [e, List.append_assoc, List.take_append_eq_append_take,
      List.take_of_length_le (by decide)]
    exact List.prefix_append _ _
  | none =>
    simp only []
    by_cases h2 : (strstr path (cstr "/proc/diskstats")).isSome = true
    · rw [if_pos h2]; decide
    · by_cases h3 : (strstr path
          (cstr "/sys/fs/cgroup/cpuacct/cpuacct.usage_percpu")).isSome = true
      · rw [if_neg h2, if_pos h3]; decide
      · exfalso
        simp [should_redirect, h1, h2, h3] at h

/-- C14, refuted as stated: `/proc/sys/fs/file-max` opened for writing.
`should_redirect` of `ptrace_interceptor.c` rejects the path and the tracee keeps
it; `ptrace_interceptor_enhanced.c` rewrites it to
`/tmp/fake-procsys/fs/file-max`. Neither makes it `/dev/null`. -/
theorem C14_file_max_not_dev_null :
    open_write_regs.rsi &&& O_ACCMODE ≠ O_RDONLY
    ∧ WorkerPtrace.should_redirect (cstr "/proc/sys/fs/file-max") = false
    ∧ bytes_from (WorkerPtrace.handle_syscall (some open_write_regs) file_max_tracee).byte
        4096 22 = cstr "/proc/sys/fs/file-max" ++ [0]
    ∧ bytes_from (WaitRetry.handle_syscall (some open_write_regs) file_max_tracee).byte
        4096 30 = cstr "/tmp/fake-procsys/fs/file-max" ++ [0] := by
  refine ⟨by decide, by decide, by decide, by decide⟩

/-- C14, amended: in `ptrace_interceptor.c`, for every open/openat path that
`should_redirect` accepts and that contains none of the eight patterns with a
specific mapping, held readable at the argument address with sixteen writable
bytes, the path argument becomes `/dev/zero` when the access mode of the open
flags is read-only and `/dev/null` otherwise. In `ptrace_interceptor_enhanced.c`
every accepted path gets a target under `/tmp/fake-`, never a fallback. -/
theorem C14_fallback_by_access_mode (path : List Nat) (t : Tracee) (regs : Regs) (a : Nat)
    (hsys : regs.orig_rax = SYS_open ∨ regs.orig_rax = SYS_openat)
    (ha : a = if regs.orig_rax = SYS_open then regs.rdi else regs.rsi)
    (hacc : WorkerPtrace.should_redirect path = true)
    (h1 : ¬ cstr "/proc/sys/kernel/keys/root_maxkeys" <:+: path)
    (h2 : ¬ cstr "/proc/sys/kernel/keys/root_maxbytes" <:+: path)
    (h3 : ¬ cstr "/proc/sys/vm/panic_on_oom" <:+: path)
    (h4 : ¬ cstr "/proc/sys/kernel/panic_on_oops" <:+: path)
    (h5 : ¬ cstr "/proc/sys/kernel/panic" <:+: path)
    (h6 : ¬ cstr "/proc/sys/vm/overcommit_memory" <:+: path)
    (h7 : ¬ cstr "/proc/diskstats" <:+: path)
    (h8 : ¬ cstr "/sys/fs/cgroup/cpuacct/cpuacct.usage_percpu" <:+: path)
    (hs : ∀ b ∈ path, b ≠ 0)
    (hmem : bytes_from t.byte a (path.length + 1) = path ++ [0]) (hlen : path.length < 4095)
    (hr : range_ok t.readable a (8 * (path.length / 8 + 1)) = true)
    (hw : range_ok t.writable a 16 = true) :
    (bytes_from (WorkerPtrace.handle_syscall (some regs) t).byte a 10
      = (if ((if regs.orig_rax = SYS_open then regs.rsi else regs.rdx) % 2 ^ 32) &&& O_ACCMODE
            = O_RDONLY
          then cstr "/dev/zero" else cstr "/dev/null") ++ [0])
    ∧ ∀ (p : List Nat) (flags : Nat), WaitRetry.should_redirect p = true →
        cstr "/tmp/fake-" <+: WaitRetry.get_redirect_target p flags := by
  refine ⟨?_, fun p flags hp => WaitRetry.get_redirect_target_fake p flags hp⟩
  have hread := read_string_terminated t a path hs hmem (by simpa [MAX_STRING] using hlen) hr
  have hsys2 : ¬ (regs.orig_rax ≠ SYS_open ∧ regs.orig_rax ≠ SYS_openat) := by
    rcases hsys with h | h <;> simp [h]
  have hrw : WorkerPtrace.handle_syscall (some regs) t
      = (write_string t a (WorkerPtrace.get_redirect_target path
          ((if regs.orig_rax = SYS_open then regs.rsi else regs.rdx) % 2 ^ 32))).2 := by
    unfold WorkerPtrace.handle_syscall handle_syscall_with
    simp only [if_neg hsys2, ← ha, hread, hacc, if_true]
  rw [hrw, WorkerPtrace.get_redirect_target_fallback path _ h1 h2 h3 h4 h5 h6 h7 h8]
  generalize (if regs.orig_rax = SYS_open then regs.rsi else regs.rdx) % 2 ^ 32 = flags
  by_cases hm : flags &&& O_ACCMODE = O_RDONLY
  · rw [if_pos hm]
    exact write_string_bytes t a (cstr "/dev/zero") hw
  · rw [if_neg hm]
    exact write_string_bytes t a (cstr "/dev/null") hw

/-- Witness of C14 (amended): `/proc/sys/kernel/keys/maxkeys` opened for
writing becomes `/dev/null`. -/
theorem C14_fallback_by_access_mode_witness :
    WorkerPtrace.should_redirect (cstr "/proc/sys/kernel/keys/maxkeys") = true
    ∧ bytes_from (WorkerPtrace.handle_syscall (some open_write_regs) maxkeys_tracee).byte 4096 10
      = cstr "/dev/null" ++ [0] :=
  ⟨by decide,
    (C14_fallback_by_access_mode (cstr "/proc/sys/kernel/keys/maxkeys") maxkeys_tracee
      open_write_regs 4096 (by decide) (by decide) (by decide) (by decide) (by decide)
      (by decide) (by decide) (by decide) (by decide) (by decide) (by decide) (by decide)
      (by decide) (by decide) (by decide) (by decide)).1⟩

/-! ## The netlink fd set -/

/-- After the hook `close(fd)` the descriptor is not in the netlink fd set. -/
theorem close_untracks (real_close : Int → Int) (is_netlink_fd : Nat → Int) (fd : Int) :
    NetlinkIntercept.tracked (NetlinkIntercept.close real_close is_netlink_fd fd).2 fd
      = false := by
  unfold NetlinkIntercept.close
  split
  · simp [NetlinkIntercept.tracked]
  · rename_i h
    simp only [NetlinkIntercept.tracked, decide_eq_false_iff_not]
    exact h

/-- C15: for every state of the netlink fd set and every integer `fd`, after
the hook `close(fd)` has returned, `fd` is not in the netlink fd set, whether
or not it was there before and whatever the real `close` returned, which is
the value the hook returns. -/
theorem C15_close_untracks_fd (real_close : Int → Int) (is_netlink_fd : Nat → Int) (fd : Int) :
    NetlinkIntercept.tracked (NetlinkIntercept.close real_close is_netlink_fd fd).2 fd = false
    ∧ (NetlinkIntercept.close real_close is_netlink_fd fd).1 = real_close fd := by
  refine ⟨close_untracks real_close is_netlink_fd fd, ?_⟩
  unfold NetlinkIntercept.close
  split <;> rfl

/-- The hook `close` changes no other entry of the array. -/
theorem close_other_entries (real_close : Int → Int) (is_netlink_fd : Nat → Int) (fd : Int)
    (k : Nat) (hk : k ≠ fd.toNat) :
    (NetlinkIntercept.close real_close is_netlink_fd fd).2 k = is_netlink_fd k := by
  unfold NetlinkIntercept.close
  split
  · simp [hk]
  · rfl

theorem is_netlink_fd_at_of_tracked (is_netlink_fd : Nat → Int) (fd : Int)
    (h : NetlinkIntercept.tracked is_netlink_fd fd = true) :
    fd < 1024 ∧ ∃ flag, NetlinkIntercept.is_netlink_fd_at is_netlink_fd fd = some flag
      ∧ flag ≠ 0 := by
  simp only [NetlinkIntercept.tracked, decide_eq_true_eq] at h
  refine ⟨h.2.1, is_netlink_fd fd.toNat, ?_, h.2.2⟩
  simp [NetlinkIntercept.is_netlink_fd_at, h.1, h.2.1]

theorem is_netlink_fd_at_of_untracked (is_netlink_fd : Nat → Int) (fd : Int)
    (h0 : 0 ≤ fd) (h1 : fd < 1024) (h : NetlinkIntercept.tracked is_netlink_fd fd = false) :
    NetlinkIntercept.is_netlink_fd_at is_netlink_fd fd = some 0 := by
  simp only [NetlinkIntercept.tracked, decide_eq_false_iff_not] at h
  have : is_netlink_fd fd.toNat = 0 := by
    by_contra hc
    exact h ⟨h0, h1, hc⟩
  simp [NetlinkIntercept.is_netlink_fd_at, h0, h1, this]

/-- C16: for every tracked netlink fd and every `AF_NETLINK` address whose
`nl_groups` is not zero, the hook `bind` calls the real `bind` exactly once,
with the caller's descriptor and length and a copy of the address that differs
from the caller's in `nl_groups = 0` only, leaves the caller's address as it
is, and returns 0 whatever the real `bind` returns. -/
theorem C16_bind_fakes_zero_groups (real_bind : Int → Option sockaddr_nl → Nat → Int)
    (is_netlink_fd : Nat → Int) (sockfd : Int) (nl_addr : sockaddr_nl) (addrlen : Nat)
    (ht : NetlinkIntercept.tracked is_netlink_fd sockfd = true)
    (hf : nl_addr.nl_family = AF_NETLINK) (hg : nl_addr.nl_groups ≠ 0) :
    NetlinkIntercept.bind real_bind is_netlink_fd sockfd (some nl_addr) addrlen
      = some { ret := 0,
               real_calls := [(sockfd,
                 some { nl_family := nl_addr.nl_family, nl_pad := nl_addr.nl_pad,
                        nl_pid := nl_addr.nl_pid, nl_groups := 0 }, addrlen)],
               caller_addr := some nl_addr } := by
  obtain ⟨h1, flag, h2, h3⟩ := is_netlink_fd_at_of_tracked is_netlink_fd sockfd ht
  simp [NetlinkIntercept.bind, h1, h2, h3, hf, hg]

/-- Witness of C16: descriptor 7 from `socket(AF_NETLINK, SOCK_RAW,
NETLINK_ROUTE)`, then `bind` with groups `0x10` while the real `bind` fails. -/
theorem C16_bind_fakes_zero_groups_witness :
    NetlinkIntercept.tracked NetlinkIntercept.after_socket_7 7 = true
    ∧ NetlinkIntercept.failing_bind 7 (some NetlinkIntercept.multicast_addr) 12 = -1
    ∧ NetlinkIntercept.bind NetlinkIntercept.failing_bind NetlinkIntercept.after_socket_7 7
        (some NetlinkIntercept.multicast_addr) 12
      = some { ret := 0,
               real_calls := [(7,
                 some { nl_family := AF_NETLINK, nl_pad := 0, nl_pid := 0, nl_groups := 0 }, 12)],
               caller_addr := some NetlinkIntercept.multicast_addr } :=
  ⟨by decide, by decide,
    C16_bind_fakes_zero_groups NetlinkIntercept.failing_bind NetlinkIntercept.after_socket_7 7
      NetlinkIntercept.multicast_addr 12 (by decide) (by decide) (by decide)⟩

/-- C17: for every `fd` in [0,1024) and every address (or `NULL`), when the fd
is not in the netlink fd set, or the address has `nl_groups = 0`, or its family
is not `AF_NETLINK`, the hook `bind` calls the real `bind` once with the
caller's own arguments and returns exactly its verdict; so it does for an fd
that was tracked and then closed through the hook `close`. -/
theorem C17_bind_passthrough (real_bind : Int → Option sockaddr_nl → Nat → Int)
    (is_netlink_fd : Nat → Int) (fd : Int) (addr : Option sockaddr_nl) (addrlen : Nat)
    (h0 : 0 ≤ fd) (h1 : fd < 1024) :
    ((NetlinkIntercept.tracked is_netlink_fd fd = false
        ∨ ∀ a, addr = some a → a.nl_groups = 0 ∨ a.nl_family ≠ AF_NETLINK) →
      NetlinkIntercept.bind real_bind is_netlink_fd fd addr addrlen
        = some { ret := real_bind fd addr addrlen, real_calls := [(fd, addr, addrlen)],
                 caller_addr := addr })
    ∧ ∀ real_close : Int → Int,
        NetlinkIntercept.bind real_bind (NetlinkIntercept.close real_close is_netlink_fd fd).2
          fd addr addrlen
        = some { ret := real_bind fd addr addrlen, real_calls := [(fd, addr, addrlen)],
                 caller_addr := addr } := by
  have key : ∀ tbl : Nat → Int, (NetlinkIntercept.tracked tbl fd = false
        ∨ ∀ a, addr = some a → a.nl_groups = 0 ∨ a.nl_family ≠ AF_NETLINK) →
      NetlinkIntercept.bind real_bind tbl fd addr addrlen
        = some { ret := real_bind fd addr addrlen, real_calls := [(fd, addr, addrlen)],
                 caller_addr := addr } := by
    intro tbl h
    have hin : NetlinkIntercept.is_netlink_fd_at tbl fd = some (tbl fd.toNat) := by
      simp [NetlinkIntercept.is_netlink_fd_at, h0, h1]
    rcases h with h | h
    · rw [is_netlink_fd_at_of_untracked tbl fd h0 h1 h] at hin
      have hz : tbl fd.toNat = 0 := (Option.some.inj hin).symm
      simp [NetlinkIntercept.bind, h1, NetlinkIntercept.is_netlink_fd_at, h0, hz]
    · cases addr with
      | none =>
        by_cases hz : tbl fd.toNat = 0 <;>
          simp [NetlinkIntercept.bind, h1, NetlinkIntercept.is_netlink_fd_at, h0, hz]
      | some a =>
        rcases h a rfl with hg | hfam
        · by_cases hz : tbl fd.toNat = 0 <;> by_cases hf : a.nl_family = AF_NETLINK <;>
            simp [NetlinkIntercept.bind, h1, NetlinkIntercept.is_netlink_fd_at, h0, hz, hf, hg]
        · by_cases hz : tbl fd.toNat = 0 <;>
            simp [NetlinkIntercept.bind, h1, NetlinkIntercept.is_netlink_fd_at, h0, hz, hfam]
  exact ⟨key is_netlink_fd, fun real_close =>
    key _ (Or.inl (close_untracks real_close is_netlink_fd fd))⟩

/-- Witness of C17: `bind` with `nl_groups = 0` on the tracked descriptor 7
returns the verdict -1 of the real `bind`. -/
theorem C17_bind_passthrough_witness :
    NetlinkIntercept.tracked NetlinkIntercept.after_socket_7 7 = true
    ∧ NetlinkIntercept.bind NetlinkIntercept.failing_bind NetlinkIntercept.after_socket_7 7
        (some { nl_family := AF_NETLINK, nl_pad := 0, nl_pid := 0, nl_groups := 0 }) 12
      = some { ret := -1,
               real_calls := [(7,
                 some { nl_family := AF_NETLINK, nl_pad := 0, nl_pid := 0, nl_groups := 0 }, 12)],
               caller_addr :=
                 some { nl_family := AF_NETLINK, nl_pad := 0, nl_pid := 0, nl_groups := 0 } } :=
  ⟨by decide,
    (C17_bind_passthrough NetlinkIntercept.failing_bind NetlinkIntercept.after_socket_7 7
      (some { nl_family := AF_NETLINK, nl_pad := 0, nl_pid := 0, nl_groups := 0 }) 12
      (by decide) (by decide)).1
      (Or.inr (fun a ha => Or.inl (by cases Option.some.inj ha; rfl)))⟩

/-- C18: for every `fd` in [0,1024), the hook `setsockopt` returns 0 without
calling the real `setsockopt` when `fd` is in the netlink fd set, and otherwise
calls the real `setsockopt` once with the same arguments and returns exactly
its result. -/
theorem C18_setsockopt_forced_or_passthrough
    (real_setsockopt : Int → Int → Int → List Nat → Nat → Int) (is_netlink_fd : Nat → Int)
    (fd level optname : Int) (optval : List Nat) (optlen : Nat)
    (h0 : 0 ≤ fd) (h1 : fd < 1024) :
    (NetlinkIntercept.tracked is_netlink_fd fd = true →
      NetlinkIntercept.setsockopt real_setsockopt is_netlink_fd fd level optname optval optlen
        = some { ret := 0, real_calls := [] })
    ∧ (NetlinkIntercept.tracked is_netlink_fd fd = false →
      NetlinkIntercept.setsockopt real_setsockopt is_netlink_fd fd level optname optval optlen
        = some { ret := real_setsockopt fd level optname optval optlen,
                 real_calls := [(fd, level, optname, optval, optlen)] }) := by
  constructor
  · intro ht
    obtain ⟨_, flag, h2, h3⟩ := is_netlink_fd_at_of_tracked is_netlink_fd fd ht
    simp [NetlinkIntercept.setsockopt, h1, h2, h3]
  · intro ht
    simp [NetlinkIntercept.setsockopt, h1, is_netlink_fd_at_of_untracked is_netlink_fd fd h0 h1 ht]

/-- Witness of C18: descriptor 7 is tracked, descriptor 8 is not. -/
theorem C18_setsockopt_forced_or_passthrough_witness :
    (NetlinkIntercept.tracked NetlinkIntercept.after_socket_7 7 = true
      ∧ NetlinkIntercept.setsockopt NetlinkIntercept.failing_setsockopt
          NetlinkIntercept.after_socket_7 7 270 1 [1, 0, 0, 0] 4
        = some { ret := 0, real_calls := [] })
    ∧ (NetlinkIntercept.tracked NetlinkIntercept.after_socket_7 8 = false
      ∧ NetlinkIntercept.setsockopt NetlinkIntercept.failing_setsockopt
          NetlinkIntercept.after_socket_7 8 270 1 [1, 0, 0, 0] 4
        = some { ret := -1, real_calls := [(8, 270, 1, [1, 0, 0, 0], 4)] }) :=
  ⟨⟨by decide,
      (C18_setsockopt_forced_or_passthrough NetlinkIntercept.failing_setsockopt
        NetlinkIntercept.after_socket_7 7 270 1 [1, 0, 0, 0] 4 (by decide) (by decide)).1
        (by decide)⟩,
    ⟨by decide,
      (C18_setsockopt_forced_or_passthrough NetlinkIntercept.failing_setsockopt
        NetlinkIntercept.after_socket_7 8 270 1 [1, 0, 0, 0] 4 (by decide) (by decide)).2
        (by decide)⟩⟩

/-- C19, refuted as stated: when the real `socket` returns descriptor 1024 for
an `AF_NETLINK` socket, the hook returns 1024 and leaves the array as it is;
1024 is not in the netlink fd set afterwards. -/
theorem C19_descriptor_1024_not_tracked :
    (NetlinkIntercept.socket (fun _ _ _ => 1024) NetlinkIntercept.no_netlink_fd AF_NETLINK 3 0).1
      = 1024
    ∧ NetlinkIntercept.tracked
        (NetlinkIntercept.socket (fun _ _ _ => 1024) NetlinkIntercept.no_netlink_fd
          AF_NETLINK 3 0).2 1024 = false := by
  refine ⟨by decide, by decide⟩

/-- C19, amended: for every call `socket(AF_NETLINK, type, protocol)` through
the hook for which the real `socket` returns a descriptor `fd` with
`0 <= fd < 1024`, `fd` is in the netlink fd set after the hook returns; a
descriptor of 1024 or more, a failed call and a call with any other domain
leave the array as it is. The hook returns what the real `socket` returns. -/
theorem C19_socket_tracks_small_descriptors (real_socket : Int → Int → Int → Int)
    (is_netlink_fd : Nat → Int) (domain type protocol : Int) :
    (NetlinkIntercept.socket real_socket is_netlink_fd domain type protocol).1
      = real_socket domain type protocol
    ∧ (domain = AF_NETLINK → 0 ≤ real_socket domain type protocol →
        real_socket domain type protocol < 1024 →
        NetlinkIntercept.tracked
          (NetlinkIntercept.socket real_socket is_netlink_fd domain type protocol).2
          (real_socket domain type protocol) = true)
    ∧ (1024 ≤ real_socket domain type protocol ∨ real_socket domain type protocol < 0
        ∨ domain ≠ AF_NETLINK →
        (NetlinkIntercept.socket real_socket is_netlink_fd domain type protocol).2
          = is_netlink_fd) := by
  refine ⟨?_, ?_, ?_⟩
  · unfold NetlinkIntercept.socket
    simp only []
    split
    · split <;> rfl
    · rfl
  · intro hd h0 h1
    subst hd
    simp [NetlinkIntercept.socket, NetlinkIntercept.tracked, h0, h1]
  · intro h
    unfold NetlinkIntercept.socket
    simp only []
    split
    · rename_i hc
      split
      · rename_i hlt
        rcases h with h | h | h
        · omega
        · omega
        · exact absurd hc.2 h
      · rfl
    · rfl

/-- Witness of C19 (amended): descriptor 7 is tracked after the hook. -/
theorem C19_socket_tracks_small_descriptors_witness :
    NetlinkIntercept.tracked NetlinkIntercept.no_netlink_fd 7 = false
    ∧ NetlinkIntercept.tracked
        (NetlinkIntercept.socket (fun _ _ _ => 7) NetlinkIntercept.no_netlink_fd AF_NETLINK 3 0).2
        7 = true :=
  ⟨by decide,
    (C19_socket_tracks_small_descriptors (fun _ _ _ => 7) NetlinkIntercept.no_netlink_fd
      AF_NETLINK 3 0).2.1 rfl (by decide) (by decide)⟩

/-! ## Interface queries through `ioctl` -/

/-- C20, refuted as stated: `ioctl(3, SIOCGIFFLAGS, &ifr)` for `docker0` while
the real `ioctl` fails. The hook returns 0, and the caller's `struct ifreq` is
as the real `ioctl` left it, name and request data included: it is not
zeroed. -/
theorem C20_ifreq_not_zeroed :
    (NetlinkIntercept.failing_ioctl 3 SIOCGIFFLAGS (some NetlinkIntercept.docker0_ifreq)).1 < 0
    ∧ (NetlinkIntercept.ioctl NetlinkIntercept.failing_ioctl 3 SIOCGIFFLAGS
        (some NetlinkIntercept.docker0_ifreq)).ret = 0
    ∧ (NetlinkIntercept.ioctl NetlinkIntercept.failing_ioctl 3 SIOCGIFFLAGS
        (some NetlinkIntercept.docker0_ifreq)).arg = some NetlinkIntercept.docker0_ifreq
    ∧ NetlinkIntercept.docker0_ifreq ≠ List.replicate 40 0 := by
  refine ⟨by decide, by decide, by decide, by decide⟩

/-- C20, amended: for every interface-query ioctl (`SIOCDEVPRIVATE` or
`SIOCGIFFLAGS`) through the hook on a `struct ifreq` whose name is prefixed
`docker` or `br-`, the hook calls the real `ioctl` once with the caller's
arguments; when the real `ioctl` fails the hook returns 0, when it succeeds the
real result is returned, and in both cases the caller's structure is as the
real `ioctl` left it (the hook writes nothing to it). -/
theorem C20_interface_query_forced_success
    (real_ioctl : Int → Nat → Option (List Nat) → Int × Option (List Nat)) (fd : Int)
    (request : Nat) (ifr : List Nat)
    (hreq : request = SIOCDEVPRIVATE ∨ request = SIOCGIFFLAGS)
    (hname : cstr "docker" <+: c_string ifr ∨ cstr "br-" <+: c_string ifr) :
    (NetlinkIntercept.ioctl real_ioctl fd request (some ifr)).real_calls
      = [(fd, request, some ifr)]
    ∧ (NetlinkIntercept.ioctl real_ioctl fd request (some ifr)).arg
      = (real_ioctl fd request (some ifr)).2
    ∧ ((real_ioctl fd request (some ifr)).1 < 0 →
        (NetlinkIntercept.ioctl real_ioctl fd request (some ifr)).ret = 0)
    ∧ (0 ≤ (real_ioctl fd request (some ifr)).1 →
        (NetlinkIntercept.ioctl real_ioctl fd request (some ifr)).ret
          = (real_ioctl fd request (some ifr)).1) := by
  have hbr : ¬ (request = SIOCBRADDBR ∨ request = SIOCBRDELBR ∨ request = SIOCBRADDIF
      ∨ request = SIOCBRDELIF) := by
    rcases hreq with h | h <;> subst h <;> decide
  have hn : (strstr (c_string ifr) (cstr "docker")).isSome = true
      ∨ (strstr (c_string ifr) (cstr "br-")).isSome = true := by
    rcases hname with h | h
    · exact Or.inl ((strstr_isSome_iff _ _).2 h.isInfix)
    · exact Or.inr ((strstr_isSome_iff _ _).2 h.isInfix)
  unfold NetlinkIntercept.ioctl
  simp only [if_neg hbr, if_pos hreq, if_pos hn]
  by_cases hres : (real_ioctl fd request (some ifr)).1 < 0
  · rw [if_pos hres]
    exact ⟨rfl, rfl, fun _ => rfl, fun h => by omega⟩
  · rw [if_neg hres]
    exact ⟨rfl, rfl, fun h => absurd h hres, fun _ => rfl⟩

/-- Witness of C20 (amended): the query for `docker0`, failing and succeeding. -/
theorem C20_interface_query_forced_success_witness :
    (cstr "docker" <+: c_string NetlinkIntercept.docker0_ifreq)
    ∧ (NetlinkIntercept.ioctl NetlinkIntercept.failing_ioctl 3 SIOCGIFFLAGS
        (some NetlinkIntercept.docker0_ifreq)).real_calls
      = [(3, SIOCGIFFLAGS, some NetlinkIntercept.docker0_ifreq)]
    ∧ (NetlinkIntercept.ioctl NetlinkIntercept.succeeding_ioctl 3 SIOCGIFFLAGS
        (some NetlinkIntercept.docker0_ifreq)).ret
      = (NetlinkIntercept.succeeding_ioctl 3 SIOCGIFFLAGS
          (some NetlinkIntercept.docker0_ifreq)).1 :=
  ⟨by decide,
    (C20_interface_query_forced_success NetlinkIntercept.failing_ioctl 3 SIOCGIFFLAGS
      NetlinkIntercept.docker0_ifreq (Or.inr rfl) (Or.inl (by decide))).1,
    (C20_interface_query_forced_success NetlinkIntercept.succeeding_ioctl 3 SIOCGIFFLAGS
      NetlinkIntercept.docker0_ifreq (Or.inr rfl) (Or.inl (by decide))).2.2.2 (by decide)⟩

/-! ## Path redirection of the interposer -/

theorem cstr_cgroup_length : (cstr "/sys/fs/cgroup").length = 14 := by decide

theorem cstr_proc_sys_bare_length : (cstr "/proc/sys").length = 9 := by decide

theorem cgroup_not_start_of_proc_sys (tail : List Nat) :
    starts_with (cstr "/proc/sys" ++ tail) (cstr "/sys/fs/cgroup") = false := by
  rfl

theorem starts_with_false_of_not (a b : List Nat) (h : ¬ b <+: a) : starts_with a b = false := by
  cases hs : starts_with a b with
  | false => rfl
  | true => exact absurd (List.isPrefixOf_iff_prefix.1 hs) h

/-- What `redirect_path` returns for the three kinds of path. -/
theorem LdPreload.redirect_path_loop_cases (tail path : List Nat) :
    ((cstr "/tmp/fake-cgroup" ++ tail).length ≤ 4095 →
      redirect_path_loop path_mappings (cstr "/sys/fs/cgroup" ++ tail)
        = cstr "/tmp/fake-cgroup" ++ tail)
    ∧ ((cstr "/tmp/fake-procsys" ++ tail).length ≤ 4095 →
      redirect_path_loop path_mappings (cstr "/proc/sys" ++ tail)
        = cstr "/tmp/fake-procsys" ++ tail)
    ∧ (¬ cstr "/sys/fs/cgroup" <+: path → ¬ cstr "/proc/sys" <+: path →
      redirect_path_loop path_mappings path = path) := by
  refine ⟨?_, ?_, ?_⟩
  · intro hfit
    simp only [path_mappings, redirect_path_loop, starts_with_append, if_true, snprintf_s,
      List.drop_left]
    exact List.take_of_length_le (by omega)
  · intro hfit
    simp only [path_mappings, redirect_path_loop, cgroup_not_start_of_proc_sys,
      Bool.false_eq_true, if_false, starts_with_append, if_true, snprintf_s, List.drop_left]
    exact List.take_of_length_le (by omega)
  · intro h1 h2
    simp only [path_mappings, redirect_path_loop, starts_with_false_of_not _ _ h1,
      starts_with_false_of_not _ _ h2, Bool.false_eq_true, if_false]

/-- C21: for every path `/sys/fs/cgroup` ++ `tail`, `redirect_path` returns
`/tmp/fake-cgroup` ++ `tail`, and for every path `/proc/sys` ++ `tail` it
returns `/tmp/fake-procsys` ++ `tail` (when the result fits in 4095 bytes); the
hooks `open`, `openat`, `stat`, `lstat` and `fopen` call the real function with
exactly the string that `redirect_path` returns, their other arguments
unchanged, and return its result. -/
theorem C21_interposer_redirects_paths (tail : List Nat) :
    ((cstr "/tmp/fake-cgroup" ++ tail).length ≤ 4095 →
      LdPreload.redirect_path (some (cstr "/sys/fs/cgroup" ++ tail))
        = some (cstr "/tmp/fake-cgroup" ++ tail))
    ∧ ((cstr "/tmp/fake-procsys" ++ tail).length ≤ 4095 →
      LdPreload.redirect_path (some (cstr "/proc/sys" ++ tail))
        = some (cstr "/tmp/fake-procsys" ++ tail))
    ∧ (∀ (orig_open : Option (List Nat) → Nat → Option Nat → Int) pathname flags mode,
        LdPreload.«open» orig_open pathname flags mode
          = orig_open (LdPreload.redirect_path pathname) flags
              (if flags &&& O_CREAT ≠ 0 then some mode else none))
    ∧ (∀ (orig_openat : Int → Option (List Nat) → Nat → Option Nat → Int) dirfd pathname
        flags mode,
        LdPreload.openat orig_openat dirfd pathname flags mode
          = orig_openat dirfd (LdPreload.redirect_path pathname) flags
              (if flags &&& O_CREAT ≠ 0 then some mode else none))
    ∧ (∀ (orig_stat : Option (List Nat) → List Nat → Int × List Nat) pathname statbuf,
        LdPreload.stat orig_stat pathname statbuf
          = orig_stat (LdPreload.redirect_path pathname) statbuf)
    ∧ (∀ (orig_lstat : Option (List Nat) → List Nat → Int × List Nat) pathname statbuf,
        LdPreload.lstat orig_lstat pathname statbuf
          = orig_lstat (LdPreload.redirect_path pathname) statbuf)
    ∧ (∀ (orig_fopen : Option (List Nat) → List Nat → Option Nat) pathname mode,
        LdPreload.fopen orig_fopen pathname mode
          = orig_fopen (LdPreload.redirect_path pathname) mode) := by
  refine ⟨?_, ?_, ?_, ?_, fun _ _ _ => rfl, fun _ _ _ => rfl, fun _ _ _ => rfl⟩
  · intro h
    simp only [LdPreload.redirect_path, (LdPreload.redirect_path_loop_cases tail []).1 h]
  · intro h
    simp only [LdPreload.redirect_path, (LdPreload.redirect_path_loop_cases tail []).2.1 h]
  · intro orig pathname flags mode
    unfold LdPreload.«open»
    simp only []
    split <;> rfl
  · intro orig dirfd pathname flags mode
    unfold LdPreload.openat
    simp only []
    split <;> rfl

/-- Witness of C21: `/sys/fs/cgroup/cpu/cpu.shares` and
`/proc/sys/kernel/pid_max`, the paths of `test_interceptor.c`. -/
theorem C21_interposer_redirects_paths_witness :
    LdPreload.redirect_path (some (cstr "/sys/fs/cgroup/cpu/cpu.shares"))
      = some (cstr "/tmp/fake-cgroup/cpu/cpu.shares")
    ∧ LdPreload.redirect_path (some (cstr "/proc/sys/kernel/pid_max"))
      = some (cstr "/tmp/fake-procsys/kernel/pid_max") :=
  ⟨(C21_interposer_redirects_paths (cstr "/cpu/cpu.shares")).1 (by decide),
    (C21_interposer_redirects_paths (cstr "/kernel/pid_max")).2.1 (by decide)⟩

/-- C22, refuted as stated: `/proc/sysvipc/shm` begins with neither `/proc/sys/`
nor `/sys/fs/cgroup`, yet `redirect_path` returns `/tmp/fake-procsysvipc/shm`,
because the prefix in the table is `/proc/sys` with no slash at its end. -/
theorem C22_proc_sysvipc_redirected :
    ¬ cstr "/proc/sys/" <+: cstr "/proc/sysvipc/shm"
    ∧ ¬ cstr "/sys/fs/cgroup" <+: cstr "/proc/sysvipc/shm"
    ∧ LdPreload.redirect_path (some (cstr "/proc/sysvipc/shm"))
      = some (cstr "/tmp/fake-procsysvipc/shm") := by
  refine ⟨by decide, by decide, by decide⟩

/-- C22, amended: for every path that begins with neither of the prefixes of
the table, `/sys/fs/cgroup` and `/proc/sys` (without a slash at the end),
`redirect_path` returns the original path unchanged, so `open`, `openat`, `stat`,
`lstat` and `fopen` deliver the original path to the real function. -/
theorem C22_other_paths_unchanged (path : List Nat)
    (h1 : ¬ cstr "/sys/fs/cgroup" <+: path) (h2 : ¬ cstr "/proc/sys" <+: path) :
    LdPreload.redirect_path (some path) = some path
    ∧ (∀ (orig_open : Option (List Nat) → Nat → Option Nat → Int) flags mode,
        LdPreload.«open» orig_open (some path) flags mode
          = orig_open (some path) flags (if flags &&& O_CREAT ≠ 0 then some mode else none))
    ∧ (∀ (orig_openat : Int → Option (List Nat) → Nat → Option Nat → Int) dirfd flags mode,
        LdPreload.openat orig_openat dirfd (some path) flags mode
          = orig_openat dirfd (some path) flags
              (if flags &&& O_CREAT ≠ 0 then some mode else none))
    ∧ (∀ (orig_stat : Option (List Nat) → List Nat → Int × List Nat) statbuf,
        LdPreload.stat orig_stat (some path) statbuf = orig_stat (some path) statbuf)
    ∧ (∀ (orig_lstat : Option (List Nat) → List Nat → Int × List Nat) statbuf,
        LdPreload.lstat orig_lstat (some path) statbuf = orig_lstat (some path) statbuf)
    ∧ (∀ (orig_fopen : Option (List Nat) → List Nat → Option Nat) mode,
        LdPreload.fopen orig_fopen (some path) mode = orig_fopen (some path) mode) := by
  have hr : LdPreload.redirect_path (some path) = some path := by
    simp only [LdPreload.redirect_path, (LdPreload.redirect_path_loop_cases [] path).2.2 h1 h2]
  refine ⟨hr, ?_, ?_, ?_, ?_, ?_⟩
  · intro orig flags mode
    unfold LdPreload.«open»
    simp only [hr]
    split <;> rfl
  · intro orig dirfd flags mode
    unfold LdPreload.openat
    simp only [hr]
    split <;> rfl
  · intro orig statbuf
    simp only [LdPreload.stat, hr]
  · intro orig statbuf
    simp only [LdPreload.lstat, hr]
  · intro orig mode
    simp only [LdPreload.fopen, hr]

/-- Witness of C22 (amended): `/etc/passwd`. -/
theorem C22_other_paths_unchanged_witness :
    ¬ cstr "/sys/fs/cgroup" <+: cstr "/etc/passwd"
    ∧ ¬ cstr "/proc/sys" <+: cstr "/etc/passwd"
    ∧ LdPreload.redirect_path (some (cstr "/etc/passwd")) = some (cstr "/etc/passwd") :=
  ⟨by decide, by decide,
    (C22_other_paths_unchanged (cstr "/etc/passwd") (by decide) (by decide)).1⟩

/-! ## Signals on resume in the fork-following supervisors -/

theorem main_body_with_stopped (hs : Option Regs → Tracee → Tracee) (w : WaitEvent)
    (hpid : 0 ≤ w.pid) (h1 : WIFSTOPPED w.status = true) :
    (main_body_with hs w).1 =
      if WSTOPSIG w.status = SIGTRAP ||| 0x80 then LoopAction.resume w.pid 0
      else if w.status / 256 = SIGTRAP ||| (PTRACE_EVENT_FORK * 256)
          ∨ w.status / 256 = SIGTRAP ||| (PTRACE_EVENT_VFORK * 256)
          ∨ w.status / 256 = SIGTRAP ||| (PTRACE_EVENT_CLONE * 256) then
        LoopAction.resume w.pid 0
      else
        LoopAction.resume w.pid
          (if WSTOPSIG w.status = SIGSTOP ∨ WSTOPSIG w.status = SIGTRAP then 0
            else WSTOPSIG w.status) := by
  have h3 : w.status % 256 = 127 := by simpa [WIFSTOPPED] using h1
  have h4 : WIFEXITED w.status = false := by
    simp only [WIFEXITED, beq_eq_false_iff_ne, ne_eq]; omega
  have h5 : WIFSIGNALED w.status = false := by
    have : w.status % 128 = 127 := by omega
    simp [WIFSIGNALED, this]
  have h6 : ¬ w.pid < 0 := by omega
  simp only [main_body_with, h6, h4, h5, h1, if_false, Bool.or_self, Bool.false_eq_true,
    Bool.not_true]
  split
  · rfl
  · split <;> rfl

/-- C23: in the event loop of the fork-following supervisors, every stop that
is neither a syscall-stop nor a fork/vfork/clone event, with stop signal `sig`,
is resumed with `sig` injected, except that `SIGSTOP` and `SIGTRAP` are resumed
with no signal; every syscall-stop and every fork/vfork/clone event is resumed
with no signal. -/
theorem C23_signal_forwarded_on_resume (w : WaitEvent) (hpid : 0 ≤ w.pid)
    (hst : WIFSTOPPED w.status = true) :
    (WSTOPSIG w.status = SIGTRAP ||| 0x80 →
      (WaitRetry.main_body w).1 = LoopAction.resume w.pid 0
      ∧ (WorkerPtrace.main_body w).1 = LoopAction.resume w.pid 0)
    ∧ (w.status / 256 = SIGTRAP ||| (PTRACE_EVENT_FORK * 256)
        ∨ w.status / 256 = SIGTRAP ||| (PTRACE_EVENT_VFORK * 256)
        ∨ w.status / 256 = SIGTRAP ||| (PTRACE_EVENT_CLONE * 256) →
      (WaitRetry.main_body w).1 = LoopAction.resume w.pid 0
      ∧ (WorkerPtrace.main_body w).1 = LoopAction.resume w.pid 0)
    ∧ (WSTOPSIG w.status ≠ SIGTRAP ||| 0x80 →
      ¬ (w.status / 256 = SIGTRAP ||| (PTRACE_EVENT_FORK * 256)
        ∨ w.status / 256 = SIGTRAP ||| (PTRACE_EVENT_VFORK * 256)
        ∨ w.status / 256 = SIGTRAP ||| (PTRACE_EVENT_CLONE * 256)) →
      (WaitRetry.main_body w).1
        = LoopAction.resume w.pid
            (if WSTOPSIG w.status = SIGSTOP ∨ WSTOPSIG w.status = SIGTRAP then 0
              else WSTOPSIG w.status)
      ∧ (WorkerPtrace.main_body w).1
        = LoopAction.resume w.pid
            (if WSTOPSIG w.status = SIGSTOP ∨ WSTOPSIG w.status = SIGTRAP then 0
              else WSTOPSIG w.status)) := by
  have e1 := main_body_with_stopped WaitRetry.handle_syscall w hpid hst
  have e2 := main_body_with_stopped WorkerPtrace.handle_syscall w hpid hst
  refine ⟨?_, ?_, ?_⟩
  · intro h
    rw [WaitRetry.main_body, WorkerPtrace.main_body, e1, e2, if_pos h]
    exact ⟨rfl, rfl⟩
  · intro h
    rw [WaitRetry.main_body, WorkerPtrace.main_body, e1, e2]
    by_cases hs : WSTOPSIG w.status = SIGTRAP ||| 0x80
    · rw [if_pos hs]; exact ⟨rfl, rfl⟩
    · rw [if_neg hs, if_pos h]; exact ⟨rfl, rfl⟩
  · intro h hev
    rw [WaitRetry.main_body, WorkerPtrace.main_body, e1, e2, if_neg h, if_neg hev]
    exact ⟨rfl, rfl⟩

/-- Witness of C23: `SIGUSR1` (10) is forwarded, `SIGSTOP` is not. -/
theorem C23_signal_forwarded_on_resume_witness :
    (WaitRetry.main_body (signal_stop 10)).1 = LoopAction.resume 7 10
    ∧ (WorkerPtrace.main_body (signal_stop SIGSTOP)).1 = LoopAction.resume 7 0 :=
  ⟨((C23_signal_forwarded_on_resume (signal_stop 10) (by decide) (by decide)).2.2
      (by decide) (by decide)).1,
    ((C23_signal_forwarded_on_resume (signal_stop SIGSTOP) (by decide) (by decide)).2.2
      (by decide) (by decide)).2⟩

/-! ## The exit code of the supervisors -/

theorem WIFEXITED_exit_status (c : Nat) : WIFEXITED (exit_status c) = true := by
  simp only [WIFEXITED, exit_status, beq_iff_eq]
  omega

theorem EnhancedStatfs.main_iteration_exited (s : MainState) (ev : LoopEvent)
    (h : WIFEXITED ev.status = true) : main_iteration s ev = none := by
  unfold main_iteration
  split
  · rfl
  split
  · rfl
  split
  · rfl
  simp [h]

theorem EnhancedStatfs.main_return_of_last_leaves (ev : LoopEvent)
    (h : ∀ s, main_iteration s ev = none) :
    ∀ (evs : List LoopEvent) (s : MainState), main_return (evs ++ [ev]) s = some 0 := by
  intro evs
  induction evs with
  | nil => intro s; simp [main_return, h s]
  | cons e rest ih =>
    intro s
    simp only [List.cons_append, main_return]
    cases main_iteration s e with
    | none => rfl
    | some s1 => exact ih s1

theorem main_loop_with_of_last_leaves (hs : Option Regs → Tracee → Tracee) (w : WaitEvent)
    (h : (main_body_with hs w).1 = LoopAction.leave) :
    ∀ evs : List WaitEvent, main_loop_with hs (evs ++ [w]) = some 0 := by
  intro evs
  induction evs with
  | nil => simp [main_loop_with, h]
  | cons e rest ih =>
    simp only [List.cons_append, main_loop_with]
    cases (main_body_with hs e).1 with
    | leave => rfl
    | again => exact ih
    | resume p sg => exact ih

theorem main_body_with_echild (hs : Option Regs → Tracee → Tracee) (w : WaitEvent)
    (h1 : w.pid < 0) (h2 : w.echild = true) : (main_body_with hs w).1 = LoopAction.leave := by
  simp [main_body_with, h1, h2]

/-- C24, refuted as stated: the target exits normally with code 3 and each
supervisor returns 0. -/
theorem C24_exit_code_not_propagated :
    WEXITSTATUS (exit_status 3) = 3
    ∧ EnhancedStatfs.main 2 false true unmapped_tracee [EnhancedStatfs.exit_event 3] = some 0
    ∧ WaitRetry.main 2 [exited_event 3, echild_event] = some 0
    ∧ WorkerPtrace.main 2 [exited_event 3, echild_event] = some 0 := by
  refine ⟨by decide, by decide, by decide, by decide⟩

/-- C24, amended: for every run of a supervisor that was given a program to run
and in which the root target exits normally with exit code `c`, the supervisor's
own exit code does not depend on `c`. In `enhanced_ptrace_interceptor.c` it is 0
when `PTRACE_SETOPTIONS` succeeded and the loop receives the exit status, and 1
when `PTRACE_SETOPTIONS` failed, as it does for a target that exited before the
options were set; the fork-following supervisors go on until `waitpid` fails with
`ECHILD` and return 0. -/
theorem C24_exit_code_independent_of_target (c argc : Nat) (hargc : 2 ≤ argc) :
    (∀ (argv1_is_v : Bool) (t : Tracee) (evs : List EnhancedStatfs.LoopEvent)
        (ev : EnhancedStatfs.LoopEvent),
      (argv1_is_v = true → 3 ≤ argc) → ev.status = exit_status c →
      EnhancedStatfs.main argc argv1_is_v true t (evs ++ [ev]) = some 0)
    ∧ (∀ (argv1_is_v : Bool) (t : Tracee) (evs : List EnhancedStatfs.LoopEvent),
      (argv1_is_v = true → 3 ≤ argc) →
      EnhancedStatfs.main argc argv1_is_v false t evs = some 1)
    ∧ (∀ (before after : List WaitEvent) (e w : WaitEvent), e.status = exit_status c →
      w.pid < 0 → w.echild = true →
      WaitRetry.main argc (before ++ [e] ++ after ++ [w]) = some 0
      ∧ WorkerPtrace.main argc (before ++ [e] ++ after ++ [w]) = some 0) := by
  have ha : ¬ argc < 2 := by omega
  refine ⟨?_, ?_, ?_⟩
  · intro v t evs ev hv3 hev
    have hv : ¬ (v = true ∧ argc < 3) := fun h => absurd (hv3 h.1) (by omega)
    simp only [EnhancedStatfs.main, if_neg ha, if_neg hv, Bool.not_true, Bool.false_eq_true,
      if_false]
    exact EnhancedStatfs.main_return_of_last_leaves ev
      (fun s => EnhancedStatfs.main_iteration_exited s ev
        (by rw [hev]; exact WIFEXITED_exit_status c)) evs _
  · intro v t evs hv3
    have hv : ¬ (v = true ∧ argc < 3) := fun h => absurd (hv3 h.1) (by omega)
    simp only [EnhancedStatfs.main, if_neg ha, if_neg hv, Bool.not_false, if_true]
  · intro before after e w _ h1 h2
    simp only [WaitRetry.main, WorkerPtrace.main, main_with, if_neg ha]
    exact ⟨main_loop_with_of_last_leaves _ w (main_body_with_echild _ w h1 h2) _,
      main_loop_with_of_last_leaves _ w (main_body_with_echild _ w h1 h2) _⟩

/-- Witness of C24 (amended): the target exits with code 3 in the loop, or
before `PTRACE_SETOPTIONS`. -/
theorem C24_exit_code_independent_of_target_witness :
    (EnhancedStatfs.exit_event 3).status = exit_status 3
    ∧ EnhancedStatfs.main 3 true true unmapped_tracee ([] ++ [EnhancedStatfs.exit_event 3])
      = some 0
    ∧ EnhancedStatfs.main 3 true false unmapped_tracee [] = some 1
    ∧ WaitRetry.main 3 ([] ++ [exited_event 3] ++ [] ++ [echild_event]) = some 0 :=
  ⟨rfl,
    (C24_exit_code_independent_of_target 3 3 (by decide)).1 true unmapped_tracee []
      (EnhancedStatfs.exit_event 3) (fun _ => by decide) rfl,
    (C24_exit_code_independent_of_target 3 3 (by decide)).2.1 true unmapped_tracee []
      (fun _ => by decide),
    ((C24_exit_code_independent_of_target 3 3 (by decide)).2.2 [] [] (exited_event 3)
      echild_event rfl (by decide) rfl).1⟩

/-! ## Static files of the cgroup emulator -/

theorem FuseCgroupfs.find_cgroup_file_entry :
    ∀ file ∈ cgroup_files, find_cgroup_file file.path = some file := by
  decide

theorem FuseCgroupfs.cgroup_files_data_short :
    ∀ file ∈ cgroup_files, (file.data.getD (cstr "")).length < 1024 := by
  decide

theorem to_int_small (x : Nat) (h : x < 1024) : to_int x = (x : Int) := by
  unfold to_int
  have e : x % 2 ^ 32 = x := Nat.mod_eq_of_lt (by omega)
  rw [e, if_pos (by omega)]

/-- C25: for every static entry of the table `cgroup_files`, `cgroupfs_read` at
offset 0 with a buffer at least as large as the content returns the length of
the table's content and copies exactly that content; in particular
`/cpu/cpu.shares` reads `1024\n`, `/cpu/cpu.cfs_quota_us` reads `-1\n`,
`/devices/devices.list` reads `a *:* rwm\n`, `/freezer/freezer.state` reads
`THAWED\n` and `/pids/pids.max` reads `max\n`. -/
theorem C25_static_files_read_back :
    (∀ file ∈ FuseCgroupfs.cgroup_files, file.dynamic = 0 →
      ∀ (ns : Int) (size : Nat), (file.data.getD (cstr "")).length ≤ size → size < 2 ^ 64 →
        FuseCgroupfs.cgroupfs_read ns file.path size 0
          = some (((file.data.getD (cstr "")).length : Int), file.data.getD (cstr "")))
    ∧ (∀ ns : Int,
      FuseCgroupfs.cgroupfs_read ns (cstr "/cpu/cpu.shares") 4096 0 = some (5, cstr "1024\n")
      ∧ FuseCgroupfs.cgroupfs_read ns (cstr "/cpu/cpu.cfs_quota_us") 4096 0
          = some (3, cstr "-1\n")
      ∧ FuseCgroupfs.cgroupfs_read ns (cstr "/devices/devices.list") 4096 0
          = some (10, cstr "a *:* rwm\n")
      ∧ FuseCgroupfs.cgroupfs_read ns (cstr "/freezer/freezer.state") 4096 0
          = some (7, cstr "THAWED\n")
      ∧ FuseCgroupfs.cgroupfs_read ns (cstr "/pids/pids.max") 4096 0
          = some (4, cstr "max\n")) := by
  have key : ∀ file ∈ FuseCgroupfs.cgroup_files, file.dynamic = 0 →
      ∀ (ns : Int) (size : Nat), (file.data.getD (cstr "")).length ≤ size → size < 2 ^ 64 →
        FuseCgroupfs.cgroupfs_read ns file.path size 0
          = some (((file.data.getD (cstr "")).length : Int), file.data.getD (cstr "")) := by
    intro file hmem hdyn ns size hsize hlt
    have hfind := FuseCgroupfs.find_cgroup_file_entry file hmem
    have hshort := FuseCgroupfs.cgroup_files_data_short file hmem
    have hd : ¬ file.dynamic ≠ 0 := by simp [hdyn]
    unfold FuseCgroupfs.cgroupfs_read
    simp only [hfind, if_neg hd]
    have hoff : ((0 : Int) % 2 ^ 64).toNat = 0 := by decide
    rw [hoff]
    by_cases hlen : 0 < (file.data.getD (cstr "")).length
    · have hmod : (0 + size) % 2 ^ 64 = size := by
        rw [Nat.zero_add]; exact Nat.mod_eq_of_lt hlt
      simp only [hlen, if_true, hmod]
      by_cases hgt : size > (file.data.getD (cstr "")).length
      · simp only [hgt, if_true, Nat.sub_zero, Nat.zero_add, Nat.le_refl, List.drop_zero,
          List.take_length, to_int_small _ hshort]
      · have heq : size = (file.data.getD (cstr "")).length := by omega
        rw [heq]
        simp only [Nat.lt_irrefl, if_false, Nat.zero_add, Nat.le_refl, if_true, List.drop_zero,
          List.take_length, to_int_small _ hshort]
    · have h0 : (file.data.getD (cstr "")).length = 0 := by omega
      have hnil : file.data.getD (cstr "") = [] := List.length_eq_zero.1 h0
      simp only [hlen, if_false, hnil]
      rfl
  refine ⟨key, fun ns => ⟨?_, ?_, ?_, ?_, ?_⟩⟩
  · exact key ⟨cstr "/cpu/cpu.shares", some (cstr "1024\n"), 0⟩ (by decide) rfl ns 4096
      (by decide) (by decide)
  · exact key ⟨cstr "/cpu/cpu.cfs_quota_us", some (cstr "-1\n"), 0⟩ (by decide) rfl ns 4096
      (by decide) (by decide)
  · exact key ⟨cstr "/devices/devices.list", some (cstr "a *:* rwm\n"), 0⟩ (by decide) rfl ns
      4096 (by decide) (by decide)
  · exact key ⟨cstr "/freezer/freezer.state", some (cstr "THAWED\n"), 0⟩ (by decide) rfl ns
      4096 (by decide) (by decide)
  · exact key ⟨cstr "/pids/pids.max", some (cstr "max\n"), 0⟩ (by decide) rfl ns 4096
      (by decide) (by decide)

/-- Witness of C25: `/cpu/cpu.shares` read into a buffer of exactly five
bytes. -/
theorem C25_static_files_read_back_witness :
    FuseCgroupfs.cgroupfs_read 0 (cstr "/cpu/cpu.shares") 5 0 = some (5, cstr "1024\n") :=
  C25_static_files_read_back.1 ⟨cstr "/cpu/cpu.shares", some (cstr "1024\n"), 0⟩ (by decide) rfl
    0 5 (by decide) (by decide)

/-! ## The result of `read_string` -/

theorem find_nul_take_no_nul (l : List Nat) (j : Nat) (h : find_nul l = some j) :
    ∀ b ∈ l.take j, b ≠ 0 := by
  have h2 := find_nul_take_ge l j j h (Nat.le_refl j)
  exact (find_nul_none _).1 h2

/-- Whatever the tracee, the string that `read_string` returns has at most
`MAX_STRING - 1` bytes, none of them zero. -/
theorem read_string_loop_bound (t : Tracee) (addr : Nat) :
    ∀ (n i : Nat) (str s : List Nat), str.length = i → i + 8 * n = MAX_STRING →
      (∀ b ∈ str, b ≠ 0) → read_string_loop t addr n i str = some s →
      s.length ≤ MAX_STRING - 1 ∧ ∀ b ∈ s, b ≠ 0 := by
  have hM : MAX_STRING = 4096 := rfl
  intro n
  induction n with
  | zero =>
    intro i str s hlen hi hno hs
    simp only [read_string_loop] at hs
    cases Option.some.inj hs
    refine ⟨by rw [List.length_take]; omega, fun b hb => hno b (List.mem_of_mem_take hb)⟩
  | succ n ih =>
    intro i str s hlen hi hno hs
    simp only [read_string_loop] at hs
    cases hp : peekdata t (addr + i) with
    | none =>
      simp only [hp] at hs
      split at hs
      · exact absurd hs (by simp)
      · cases Option.some.inj hs
        exact ⟨by omega, hno⟩
    | some data =>
      have hd := peekdata_eq_some t _ _ hp
      have hdl : data.length = 8 := by rw [hd, bytes_from_length]
      simp only [hp] at hs
      cases hf : find_nul data with
      | some j =>
        simp only [hf] at hs
        cases Option.some.inj hs
        have hj := find_nul_lt _ _ hf
        refine ⟨by rw [List.length_append, List.length_take]; omega, ?_⟩
        intro b hb
        rcases List.mem_append.1 hb with h | h
        · exact hno b h
        · exact find_nul_take_no_nul data j hf b h
      | none =>
        simp only [hf] at hs
        exact ih (i + 8) (str ++ data) s (by rw [List.length_append, hlen, hdl]) (by omega)
          (by
            intro b hb
            rcases List.mem_append.1 hb with h | h
            · exact hno b h
            · exact (find_nul_none data).1 hf b h) hs

theorem read_string_extent_loop_le (t : Tracee) (addr : Nat) :
    ∀ (n i : Nat), i + 8 * n = MAX_STRING → read_string_extent_loop t addr n i ≤ MAX_STRING := by
  have hM : MAX_STRING = 4096 := rfl
  intro n
  induction n with
  | zero => intro i _; exact Nat.le_refl _
  | succ n ih =>
    intro i hi
    simp only [read_string_extent_loop]
    cases peekdata t (addr + i) with
    | none =>
      simp only []
      split <;> omega
    | some data =>
      simp only []
      cases find_nul data with
      | some j => simp only []; omega
      | none => exact ih (i + 8) (by omega)

/-- C26: for every tracee memory in which all word reads succeed (word `k` is
read when there is no zero byte in the `8 * k` bytes before it),
`read_string(pid, addr)` returns exactly the bytes from `addr` up to, not
including, the first zero byte, cut to the first 4095 bytes when there is no
zero byte before offset 4095. Whatever the tracee, the string returned has at
most 4095 bytes and no zero byte, so that it is terminated inside the 4096-byte
buffer, and the function stores to no byte beyond the buffer. -/
theorem C26_read_string_reads_c_string :
    (∀ (t : Tracee) (addr : Nat),
      (∀ k, k < 512 → (∀ b ∈ bytes_from t.byte addr (8 * k), b ≠ 0) →
        range_ok t.readable (addr + 8 * k) 8 = true) →
      read_string t addr = some (c_string (bytes_from t.byte addr 4095)))
    ∧ (∀ (t : Tracee) (addr : Nat) (s : List Nat), read_string t addr = some s →
      s.length ≤ 4095 ∧ ∀ b ∈ s, b ≠ 0)
    ∧ (∀ (t : Tracee) (addr : Nat), read_string_extent t addr ≤ 4096) := by
  refine ⟨?_, ?_, ?_⟩
  · intro t addr hr
    have hn : (MAX_STRING - 1 + 7) / 8 = 512 := by decide
    have h := read_string_loop_eq t addr ((MAX_STRING - 1 + 7) / 8) 0 [] rfl (by decide)
      (by decide) rfl
      (fun k hk hb => by
        have h2 := hr k (by omega) hb
        rw [Nat.add_zero]
        exact h2)
    simp only [Nat.add_zero, Nat.sub_zero, List.nil_append] at h
    exact h
  · intro t addr s hs
    exact read_string_loop_bound t addr _ 0 [] s rfl (by decide) (by simp) hs
  · intro t addr
    exact read_string_extent_loop_le t addr _ 0 (by decide)

/-- Witness of C26: 4100 readable bytes with no zero byte among the first
4096; every word read succeeds. -/
theorem C26_read_string_reads_c_string_witness :
    (∀ k, k < 512 → range_ok unterminated_tracee.readable (4096 + 8 * k) 8 = true)
    ∧ read_string unterminated_tracee 4096
        = some (c_string (bytes_from unterminated_tracee.byte 4096 4095)) :=
  have hr : ∀ k, k < 512 → range_ok unterminated_tracee.readable (4096 + 8 * k) 8 = true := by
    intro k hk
    rw [range_ok_iff]
    intro x h1 h2
    simp only [unterminated_tracee, tracee_at, List.length_replicate, decide_eq_true_eq]
    omega
  ⟨hr, C26_read_string_reads_c_string.1 unterminated_tracee 4096 (fun k hk _ => hr k hk)⟩

/-! ## The index of `is_netlink_fd` -/

/-- For a descriptor that is not negative no hook reads outside the array. -/
theorem netlink_hooks_defined_of_nonneg
    (real_bind : Int → Option sockaddr_nl → Nat → Int)
    (real_setsockopt : Int → Int → Int → List Nat → Nat → Int)
    (real_sendto : Int → List Nat → Nat → Int → Option sockaddr_nl → Nat → Int)
    (real_recvfrom : Int → Nat → Int → Int × List Nat)
    (is_netlink_fd : Nat → Int) (sockfd : Int) (h : 0 ≤ sockfd)
    (addr : Option sockaddr_nl) (addrlen : Nat) (level optname flags : Int)
    (buf : List Nat) (len : Nat) :
    (NetlinkIntercept.bind real_bind is_netlink_fd sockfd addr addrlen).isSome = true
    ∧ (NetlinkIntercept.setsockopt real_setsockopt is_netlink_fd sockfd level optname buf
        len).isSome = true
    ∧ (NetlinkIntercept.sendto real_sendto is_netlink_fd sockfd buf len flags addr
        addrlen).isSome = true
    ∧ (NetlinkIntercept.recvfrom real_recvfrom is_netlink_fd sockfd len flags).isSome = true := by
  by_cases h1 : sockfd < 1024
  · have hin : NetlinkIntercept.is_netlink_fd_at is_netlink_fd sockfd
        = some (is_netlink_fd sockfd.toNat) := by
      simp [NetlinkIntercept.is_netlink_fd_at, h, h1]
    refine ⟨?_, ?_, ?_, ?_⟩
    · simp only [NetlinkIntercept.bind, if_pos h1, hin]
      split
      · split
        · rfl
        · split
          · split <;> rfl
          · rfl
      · rfl
    · simp only [NetlinkIntercept.setsockopt, if_pos h1, hin]
      split <;> rfl
    · simp only [NetlinkIntercept.sendto, if_pos h1, hin]
      rfl
    · simp only [NetlinkIntercept.recvfrom, if_pos h1, hin]
      split <;> rfl
  · simp [NetlinkIntercept.bind, NetlinkIntercept.setsockopt, NetlinkIntercept.sendto,
      NetlinkIntercept.recvfrom, h1]

/-- C27, evaluated at the descriptor -1: the guard
`sockfd < 1024 && is_netlink_fd[sockfd]` of `bind`, `setsockopt`, `sendto` and
`recvfrom` has no lower bound, so each of them evaluates `is_netlink_fd[-1]`,
outside the array, whereas `close(-1)` does not touch the array. -/
theorem C27_negative_descriptor_indexes_outside_array
    (real_bind : Int → Option sockaddr_nl → Nat → Int)
    (real_setsockopt : Int → Int → Int → List Nat → Nat → Int)
    (real_sendto : Int → List Nat → Nat → Int → Option sockaddr_nl → Nat → Int)
    (real_recvfrom : Int → Nat → Int → Int × List Nat)
    (real_close : Int → Int) (is_netlink_fd : Nat → Int) :
    NetlinkIntercept.is_netlink_fd_at is_netlink_fd (-1) = none
    ∧ NetlinkIntercept.bind real_bind is_netlink_fd (-1)
        (some NetlinkIntercept.multicast_addr) 12 = none
    ∧ NetlinkIntercept.setsockopt real_setsockopt is_netlink_fd (-1) 270 1 [1, 0, 0, 0] 4 = none
    ∧ NetlinkIntercept.sendto real_sendto is_netlink_fd (-1) [] 0 0 none 0 = none
    ∧ NetlinkIntercept.recvfrom real_recvfrom is_netlink_fd (-1) 0 0 = none
    ∧ NetlinkIntercept.close real_close is_netlink_fd (-1) = (real_close (-1), is_netlink_fd) := by
  have h : NetlinkIntercept.is_netlink_fd_at is_netlink_fd (-1) = none := by
    simp [NetlinkIntercept.is_netlink_fd_at]
  refine ⟨h, ?_, ?_, ?_, ?_, ?_⟩
  · simp [NetlinkIntercept.bind, h]
  · simp [NetlinkIntercept.setsockopt, h]
  · simp [NetlinkIntercept.sendto, h]
  · simp [NetlinkIntercept.recvfrom, h]
  · simp [NetlinkIntercept.close]
